import Mathlib

/-!
# mt7601u: DMA queues, RX segmentation and TX packet-id coding

A shallow embedding of parts of `src/tx.c` and `src/dma.c`.

Conventions of the embedding:
* `u8`/`u16` values are natural numbers; every C conversion to a narrower
  unsigned type is written out (`to_u8`, `nat_to_u16`, `to_u32`, `to_uw`).
* Pointers to kernel objects (urbs, frames) are values compared by their `id`.
* Calls into the kernel (logging, flow control, DMA mapping, USB submission)
  are recorded as a list of events returned next to the new state.
* Constants and struct layouts declared in headers that are not part of the
  sources (`dma.h`, `mac.h`, `mt7601u.h`) are parameters.
-/

namespace Mt7601u

/-! ## Integer conversions -/

/-- Conversion of a C `int` value to `u8`. -/
def to_u8 (x : Int) : Nat := (x % 256).toNat

/-- Conversion of a C `int` value to an unsigned field of `w` bits. -/
def to_uw (w : Nat) (x : Int) : Nat := (x % (2 : Int) ^ w).toNat

/-! ## tx.c: packet-id coding -/

/-- Function `mt7601u_tx_pktid_enc` (tx.c:29-42); `rate` is a `u8` argument. -/
def mt7601u_tx_pktid_enc (rate : Nat) (is_probe : Bool) : Nat :=
  let encoded := to_u8 (((rate : Int) + 1) + (if is_probe then 1 else 0) * 8)
  if is_probe && rate == 7 then
    to_u8 ((encoded : Int) - 7)
  else
    encoded

/-- The fields of `struct mt76_tx_status` that tx.c reads or writes.  The struct
is declared in `mac.h`; `retry` is an unsigned field whose width is the
parameter `retry_bits` of the decoder. -/
structure mt76_tx_status where
  valid : Bool
  wcid : Nat
  pktid : Nat
  rate : Nat
  is_probe : Bool
  retry : Nat
  deriving DecidableEq, Repr

/-- The local `eff_rate` of `mt7601u_tx_pktid_dec` (tx.c:240). -/
def pktid_dec_eff_rate (stat : mt76_tx_status) : Nat := stat.rate &&& 0x7

/-- The values of the local `req_rate` and of `stat->is_probe` when
`mt7601u_tx_pktid_dec` reaches its last statement (tx.c:239-251). -/
def pktid_dec_req_rate (stat : mt76_tx_status) : Nat × Bool :=
  let req_rate := to_u8 stat.pktid
  let eff_rate := pktid_dec_eff_rate stat
  let req_rate := to_u8 ((req_rate : Int) - 1)
  if req_rate > 7 then
    let req_rate := to_u8 ((req_rate : Int) - 8)
    -- Decide between MCS0 and MCS7 which share pktid 9
    if req_rate == 0 && eff_rate != 0 then (7, true) else (req_rate, true)
  else
    (req_rate, stat.is_probe)

/-- Function `mt7601u_tx_pktid_dec` (tx.c:236-254): `stat->retry = req_rate - eff_rate`
is an `int` expression stored into the `retry_bits` wide unsigned field. -/
def mt7601u_tx_pktid_dec (retry_bits : Nat) (stat : mt76_tx_status) : mt76_tx_status :=
  let r := pktid_dec_req_rate stat
  { stat with
    is_probe := r.2
    retry := to_uw retry_bits ((r.1 : Int) - (pktid_dec_eff_rate stat : Int)) }

/-! ## Kernel objects and errno values -/

def ENOENT : Int := 2
def ENOMEM : Int := 12
def ENODEV : Int := 19
def ENOSPC : Int := 28
def ECONNRESET : Int := 104
def ESHUTDOWN : Int := 108

/-- A `struct urb *`: the identity of the transfer and the two fields the
driver reads on completion. -/
structure urb where
  id : Nat
  status : Int
  actual_length : Nat
  deriving DecidableEq, Repr

/-- A `struct sk_buff *`: the identity of the frame, its length and the
mac80211 queue it is mapped to (`skb_get_queue_mapping`). -/
structure sk_buff where
  id : Nat
  len : Nat
  queue_mapping : Nat
  deriving DecidableEq, Repr

/-- Function `mt7601u_urb_has_error` (usb.h:49-55). -/
def mt7601u_urb_has_error (u : urb) : Bool :=
  u.status != 0 && u.status != -ENOENT && u.status != -ECONNRESET && u.status != -ESHUTDOWN

/-- The bits of `dev->state` used by dma.c and tx.c. -/
structure dev_state where
  initialized : Bool
  removed : Bool
  more_stats : Bool
  reading_stats : Bool
  deriving DecidableEq, Repr

/-! ## dma.c: RX segmentation -/

/-- Header sizes of `dma.h` and `sizeof(struct mt7601u_rxwi)` of `mac.h`;
neither header is part of the sources, so the values are parameters.  They are
small compile-time constants: sums of them are taken without wrap-around. -/
structure dma_consts where
  MT_DMA_HDR_LEN : Nat
  MT_RX_INFO_LEN : Nat
  MT_FCE_INFO_LEN : Nat
  MT_DMA_HDRS : Nat
  sizeof_rxwi : Nat
  deriving DecidableEq, Repr

/-- The values of the constants in the mainline version of the driver. -/
def mainline_consts : dma_consts :=
  { MT_DMA_HDR_LEN := 4, MT_RX_INFO_LEN := 4, MT_FCE_INFO_LEN := 4,
    MT_DMA_HDRS := 8, sizeof_rxwi := 28 }

/-- What the RX path reports to the kernel. -/
inductive rx_event where
  /-- Call of `WARN_ON(!dma_len)` -/
  | warn_zero_len
  /-- Call of `WARN_ON(dma_len + MT_DMA_HDRS > data_len)` -/
  | warn_seg_overrun
  /-- Call of `WARN_ON(dma_len & 0x3)` -/
  | warn_unaligned
  /-- a call `mt7601u_rx_process_seg(dev, e->buf + off, seg_len)` -/
  | process_seg (off seg_len : Nat)
  /-- Call of `trace_rx_dma_aggr(cnt)` -/
  | trace_rx_dma_aggr (cnt : Nat)
  /-- Call of `WARN_ONCE(..., "rx urb mismatch")` -/
  | warn_rx_urb_mismatch
  /-- Call of `tasklet_schedule(&dev->rx_tasklet)` -/
  | tasklet_schedule
  /-- Call of `printk("Error: rx queue corrupted %d/%d\n", q->start, q->end)` -/
  | err_rx_queue_corrupted (start end_ : Nat)
  /-- Call of `printk("Error: RX urb failed %d\n", e->urb->status)` -/
  | err_rx_urb_failed (status : Int)
  /-- Call of `mt7601u_usb_submit_buf(dev, USB_DIR_IN, MT_EP_IN_PKT_RX, e, ...)` for
  the buffer of slot `slot`: the buffer goes back to the transport -/
  | submit_buf (slot : Nat)
  deriving DecidableEq, Repr

/-- Function `get_unaligned_le16`: the first two bytes at `data`, low byte first. -/
def get_unaligned_le16 (data : List Nat) : Nat :=
  data.getD 0 0 % 256 + 256 * (data.getD 1 0 % 256)

/-- The local `min_seg_len` of `mt7601u_rx_next_seg_len` (dma.c:34-35). -/
def min_seg_len (c : dma_consts) : Nat :=
  c.MT_DMA_HDR_LEN + c.MT_RX_INFO_LEN + c.sizeof_rxwi + c.MT_FCE_INFO_LEN

/-- Conversion of a non-negative C `int` value to `u16`. -/
def nat_to_u16 (x : Nat) : Nat := x % 65536

/-- Conversion of a C integer value to `u32`. -/
def to_u32 (x : Int) : Nat := (x % 4294967296).toNat

/-- Function `mt7601u_rx_next_seg_len` (dma.c:32-48) with the warnings it raises.
`data` is the buffer from the current position on, `data_len` a `u32`. -/
def rx_next_seg (c : dma_consts) (data : List Nat) (data_len : Nat) : Nat × List rx_event :=
  let dma_len := get_unaligned_le16 data
  if data_len < min_seg_len c then (0, [])
  else if dma_len = 0 then (0, [rx_event.warn_zero_len])
  else if dma_len + c.MT_DMA_HDRS > data_len then (0, [rx_event.warn_seg_overrun])
  else if dma_len &&& 0x3 ≠ 0 then (0, [rx_event.warn_unaligned])
  else (nat_to_u16 (c.MT_DMA_HDRS + dma_len), [])

/-- The `u16` returned by `mt7601u_rx_next_seg_len` (dma.c:32-48). -/
def mt7601u_rx_next_seg_len (c : dma_consts) (data : List Nat) (data_len : Nat) : Nat :=
  (rx_next_seg c data data_len).1

/-- The `while` loop of `mt7601u_rx_process_entry` (dma.c:102-108): `off` is
the distance of `data` from `e->buf`, `cnt` the segment counter.  Returns the
events in order and the final `cnt`. -/
def rx_process_loop (c : dma_consts) (buf : List Nat) (off data_len cnt : Nat) :
    List rx_event × Nat :=
  let r := rx_next_seg c (buf.drop off) data_len
  if _h : r.1 = 0 then (r.2, cnt)
  else
    let rest := rx_process_loop c buf (off + r.1) (to_u32 ((data_len : Int) - (r.1 : Int))) (cnt + 1)
    (r.2 ++ rx_event.process_seg off r.1 :: rest.1, rest.2)
termination_by data_len
decreasing_by
  have hpos : 0 < (rx_next_seg c (buf.drop off) data_len).1 := Nat.pos_of_ne_zero _h
  have hle : (rx_next_seg c (buf.drop off) data_len).1 ≤ data_len := by
    simp only [rx_next_seg, nat_to_u16]
    split_ifs <;> simp
    omega
  simp only [to_u32]
  omega

/-- A receive buffer (`struct mt7601u_dma_buf`): its urb and its bytes. -/
structure mt7601u_dma_buf where
  urb : urb
  buf : List Nat
  deriving DecidableEq, Repr

/-- Function `mt7601u_rx_process_entry` (dma.c:92-112). -/
def mt7601u_rx_process_entry (c : dma_consts) (state : dev_state) (e : mt7601u_dma_buf) :
    List rx_event :=
  if !state.initialized then []
  else
    let r := rx_process_loop c e.buf 0 e.urb.actual_length 0
    if r.2 > 1 then r.1 ++ [rx_event.trace_rx_dma_aggr r.2] else r.1

/-! ## dma.c: RX queue -/

/-- The RX ring (`struct mt7601u_rx_queue`, declared in `mt7601u.h`): the
slots `e` and the counters, `end_` standing for the field `end`. -/
structure mt7601u_rx_queue where
  e : List mt7601u_dma_buf
  start : Nat
  end_ : Nat
  entries : Nat
  pending : Nat
  deriving DecidableEq, Repr

/-- Function `mt7601u_alloc_rx` (dma.c:224-237) when every buffer allocation succeeds:
the queue is zeroed, `entries` is `N_RX_ENTRIES` (a constant of `mt7601u.h`,
here the parameter `n_rx_entries`) and `bufs` are the allocated buffers. -/
def mt7601u_alloc_rx (n_rx_entries : Nat) (bufs : List mt7601u_dma_buf) : mt7601u_rx_queue :=
  { e := bufs, start := 0, end_ := 0, entries := n_rx_entries, pending := 0 }

/-- Function `mt7601u_rx_get_pending_entry` (dma.c:114-137): the index of the returned
slot (`none` for `NULL`), the queue afterwards and the events. -/
def mt7601u_rx_get_pending_entry (q : mt7601u_rx_queue) :
    Option Nat × mt7601u_rx_queue × List rx_event :=
  if q.pending = 0 then
    (none, q, if q.start ≠ q.end_ then [rx_event.err_rx_queue_corrupted q.start q.end_] else [])
  else
    (some q.start,
     { q with pending := q.pending - 1, start := (q.start + 1) % q.entries },
     [])

/-- Function `mt7601u_complete_rx` (dma.c:165-181) for the completing urb `u`. -/
def mt7601u_complete_rx (q : mt7601u_rx_queue) (u : urb) :
    mt7601u_rx_queue × List rx_event :=
  if (q.e[q.end_]?).map (fun b => b.urb.id) ≠ some u.id then
    (q, [rx_event.warn_rx_urb_mismatch])
  else
    ({ q with end_ := (q.end_ + 1) % q.entries, pending := q.pending + 1 },
     [rx_event.tasklet_schedule])

/-- One operation on the RX queue. -/
inductive rx_op where
  /-- the transport completes urb `u`: `mt7601u_complete_rx` runs -/
  | complete (u : urb)
  /-- the tasklet takes one entry: `mt7601u_rx_get_pending_entry` runs -/
  | drain
  deriving DecidableEq, Repr

/-- The queue after one operation. -/
def rx_step (q : mt7601u_rx_queue) : rx_op → mt7601u_rx_queue
  | rx_op.complete u => (mt7601u_complete_rx q u).1
  | rx_op.drain => (mt7601u_rx_get_pending_entry q).2.1

/-- The queue after a sequence of operations. -/
def rx_run (q : mt7601u_rx_queue) (ops : List rx_op) : mt7601u_rx_queue :=
  ops.foldl rx_step q

/-- The value `(end - start) mod entries` of the specification. -/
def rx_ring_distance (q : mt7601u_rx_queue) : Int :=
  ((q.end_ : Int) - (q.start : Int)) % (q.entries : Int)

/-- Sixteen receive buffers with urbs `0 .. 15`, each holding no data yet. -/
def sixteen_bufs : List mt7601u_dma_buf :=
  (List.range 16).map (fun i => { urb := { id := i, status := 0, actual_length := 0 }, buf := [] })

/-- The completions of urbs `0 .. 15`, in order. -/
def sixteen_completions : List rx_op :=
  (List.range 16).map (fun i => rx_op.complete { id := i, status := 0, actual_length := 0 })

/-! ## dma.c: RX tasklet -/

/-- Function `mt7601u_rx_entry_check` (dma.c:139-148): whether the entry is to be
skipped (return value 1), and what is logged. -/
def mt7601u_rx_entry_check (e : mt7601u_dma_buf) : Bool × List rx_event :=
  if e.urb.status = 0 then (false, [])
  else (true, if mt7601u_urb_has_error e.urb then [rx_event.err_rx_urb_failed e.urb.status]
              else [])

/-- The body of the loop of `mt7601u_rx_tasklet` (dma.c:156-161) for the entry
`e` taken from slot `slot`. -/
def rx_tasklet_entry (c : dma_consts) (state : dev_state) (slot : Nat) (e : mt7601u_dma_buf) :
    List rx_event :=
  let chk := mt7601u_rx_entry_check e
  if chk.1 then chk.2
  else chk.2 ++ mt7601u_rx_process_entry c state e ++ [rx_event.submit_buf slot]

/-- Function `mt7601u_rx_tasklet` (dma.c:150-163) on the queue as it stands when
the tasklet starts: the queue afterwards and the events in order. -/
def mt7601u_rx_tasklet (c : dma_consts) (state : dev_state) (q : mt7601u_rx_queue) :
    mt7601u_rx_queue × List rx_event :=
  match _h : (mt7601u_rx_get_pending_entry q).1 with
  | none => ((mt7601u_rx_get_pending_entry q).2.1, (mt7601u_rx_get_pending_entry q).2.2)
  | some slot =>
    let body := match q.e[slot]? with
      | some e => rx_tasklet_entry c state slot e
      | none => []
    let rest := mt7601u_rx_tasklet c state (mt7601u_rx_get_pending_entry q).2.1
    (rest.1, (mt7601u_rx_get_pending_entry q).2.2 ++ body ++ rest.2)
termination_by q.pending
decreasing_by
  simp only [mt7601u_rx_get_pending_entry] at _h ⊢
  by_cases h0 : q.pending = 0
  · rw [if_pos h0] at _h
    cases _h
  · rw [if_neg h0]
    simp only
    omega

/-- Number of `WARN_ON`s of the segmentation among the events. -/
def rx_warnings (ev : List rx_event) : Nat :=
  (ev.filter (fun x => match x with
    | rx_event.warn_zero_len => true
    | rx_event.warn_seg_overrun => true
    | rx_event.warn_unaligned => true
    | _ => false)).length

/-- Number of segments handed to `mt7601u_rx_process_seg`, the only place where
a frame is passed on to mac80211. -/
def rx_segments (ev : List rx_event) : Nat :=
  (ev.filter (fun x => match x with | rx_event.process_seg _ _ => true | _ => false)).length

/-- Number of buffers handed back to the transport. -/
def rx_resubmits (ev : List rx_event) : Nat :=
  (ev.filter (fun x => match x with | rx_event.submit_buf _ => true | _ => false)).length

/-- Whether `mt7601u_complete_rx` accepts urb `u`: it is the urb of the slot at
`end`. -/
def rx_completion_accepted (q : mt7601u_rx_queue) (u : urb) : Prop :=
  (q.e[q.end_]?).map (fun b => b.urb.id) = some u.id

instance (q : mt7601u_rx_queue) (u : urb) : Decidable (rx_completion_accepted q u) := by
  unfold rx_completion_accepted; infer_instance

/-- The RX queue with a record of the slots in the order their completions
were accepted (`completed`) and in the order they were returned by
`mt7601u_rx_get_pending_entry` (`drained`). -/
structure rx_fifo_log where
  q : mt7601u_rx_queue
  completed : List Nat
  drained : List Nat
  deriving DecidableEq, Repr

/-- One operation on the RX queue, with the record kept. -/
def rx_step_log (s : rx_fifo_log) : rx_op → rx_fifo_log
  | rx_op.complete u =>
    { q := (mt7601u_complete_rx s.q u).1
      completed := if rx_completion_accepted s.q u then s.completed ++ [s.q.end_]
                   else s.completed
      drained := s.drained }
  | rx_op.drain =>
    { q := (mt7601u_rx_get_pending_entry s.q).2.1
      completed := s.completed
      drained := match (mt7601u_rx_get_pending_entry s.q).1 with
        | some slot => s.drained ++ [slot]
        | none => s.drained }

/-- A sequence of operations on the RX queue, with the record kept. -/
def rx_run_log (s : rx_fifo_log) (ops : List rx_op) : rx_fifo_log :=
  ops.foldl rx_step_log s

/-- The slots that are pending, oldest first: `start`, `start + 1`, ... modulo
`entries`. -/
def rx_pending_slots (q : mt7601u_rx_queue) : List Nat :=
  (List.range q.pending).map (fun i => (q.start + i) % q.entries)

/-- A buffer of 40 received bytes whose header declares 64 bytes. -/
def overrun_buf : mt7601u_dma_buf :=
  { urb := { id := 3, status := 0, actual_length := 40 },
    buf := [64, 0] ++ List.replicate 38 7 }

/-- A buffer whose transfer failed with `-EPROTO` (-71). -/
def failed_buf : mt7601u_dma_buf :=
  { urb := { id := 3, status := -71, actual_length := 0 },
    buf := [64, 0] ++ List.replicate 70 7 }

/-! ## dma.c: TX queue -/

/-- One slot of a TX queue: the urb allocated for it, the frame last put in it
and that frame's DMA address. -/
structure tx_entry where
  urb : Nat
  skb : sk_buff
  dma : Nat
  deriving DecidableEq, Repr

/-- A TX ring (`struct mt7601u_tx_queue`, declared in `mt7601u.h`).  `used` is
kept as an integer: `used--` is not guarded in the code, and the theorems that
rely on the counter say when it stays in `0 .. entries`. -/
structure mt7601u_tx_queue where
  e : List tx_entry
  start : Nat
  end_ : Nat
  entries : Nat
  used : Int
  deriving DecidableEq, Repr

/-- What the TX path reports to the kernel. -/
inductive tx_event where
  /-- Call of `WARN_ON(q->entries <= q->used)` -/
  | warn_queue_full
  /-- Call of `dma_map_single(dev->dev, skb->data, skb->len, DMA_TO_DEVICE)` -/
  | dma_map (skb : sk_buff)
  /-- Call of `printk("Error: dma mapping\n")` -/
  | err_dma_mapping
  /-- Call of `usb_submit_urb` of the slot's urb, filled for `skb` at address `dma` -/
  | submit_urb (urb : Nat) (skb : sk_buff) (dma : Nat)
  /-- Call of `printk("Error: submit %d\n", ret)` -/
  | err_submit (ret : Int)
  /-- Call of `ieee80211_stop_queue(dev->hw, queue)` -/
  | stop_queue (queue : Nat)
  /-- Call of `ieee80211_wake_queue(dev->hw, queue)` -/
  | wake_queue (queue : Nat)
  /-- Call of `WARN_ON(q->e[q->start].urb != urb)` -/
  | warn_tx_urb_mismatch
  /-- Call of `dev_err(dev->dev, "Error: TX urb failed %d\n", urb->status)` -/
  | err_tx_urb_failed (status : Int)
  /-- Call of `dma_unmap_single(dev->dev, dma, len, DMA_TO_DEVICE)` -/
  | dma_unmap (dma len : Nat)
  /-- Call of `mt7601u_tx_status(dev, skb)` -/
  | tx_status (skb : sk_buff)
  /-- Call of `queue_delayed_work(dev->stat_wq, &dev->stat_work, msecs_to_jiffies(ms))` -/
  | queue_stat_work (ms : Nat)
  deriving DecidableEq, Repr

/-- Queue, device bits, return value and events after a TX operation. -/
structure tx_result where
  q : mt7601u_tx_queue
  state : dev_state
  ret : Int
  events : List tx_event
  deriving DecidableEq, Repr

/-- Function `mt7601u_alloc_tx_queue` (dma.c:259-274) when every urb allocation
succeeds, on the zeroed memory of `devm_kcalloc`: `entries` is `N_TX_ENTRIES`
(a constant of `mt7601u.h`, here `n_tx_entries`), slot `i` gets `urbs[i]`. -/
def mt7601u_alloc_tx_queue (n_tx_entries : Nat) (urbs : List Nat) : mt7601u_tx_queue :=
  { e := urbs.map (fun u => { urb := u, skb := { id := 0, len := 0, queue_mapping := 0 }, dma := 0 }),
    start := 0, end_ := 0, entries := n_tx_entries, used := 0 }

/-- Function `usb_kick_out` (dma.c:329-377) on the queue `q` of the endpoint.  The
environment supplies the outcome of `dma_map_single` (`dma`, `dma_error`) and
of `usb_submit_urb` (`submit_ret`). -/
def usb_kick_out (q : mt7601u_tx_queue) (state : dev_state) (skb : sk_buff)
    (dma : Nat) (dma_error : Bool) (submit_ret : Int) : tx_result :=
  if (q.entries : Int) ≤ q.used then
    { q := q, state := state, ret := -ENOSPC, events := [tx_event.warn_queue_full] }
  else
    let e := q.end_
    let slots := match q.e[e]? with
      | some slot => q.e.set e { slot with skb := skb, dma := dma }
      | none => q.e
    let q1 := { q with e := slots }
    if dma_error then
      { q := q1, state := state, ret := -1,
        events := [tx_event.dma_map skb, tx_event.err_dma_mapping] }
    else
      let urb := ((q.e[e]?).map (fun slot => slot.urb)).getD 0
      let ev := [tx_event.dma_map skb, tx_event.submit_urb urb skb dma]
      let ret := submit_ret
      if ret ≠ 0 then
        if ret = -ENODEV then
          { q := q1, state := { state with removed := true }, ret := ret, events := ev }
        else
          { q := q1, state := state, ret := ret, events := ev ++ [tx_event.err_submit ret] }
      else
        let q2 := { q1 with end_ := (q1.end_ + 1) % q1.entries, used := q1.used + 1 }
        { q := q2, state := state, ret := ret,
          events := ev ++
            (if (q2.entries : Int) ≤ q2.used then [tx_event.stop_queue skb.queue_mapping] else []) }

/-- Function `mt7601u_complete_tx` (dma.c:290-327) for the completing urb `u`; the
function returns nothing, `ret` is 0. -/
def mt7601u_complete_tx (q : mt7601u_tx_queue) (state : dev_state) (u : urb) : tx_result :=
  match q.e[q.start]? with
  | none => { q := q, state := state, ret := 0, events := [tx_event.warn_tx_urb_mismatch] }
  | some slot =>
    if slot.urb ≠ u.id then
      { q := q, state := state, ret := 0, events := [tx_event.warn_tx_urb_mismatch] }
    else
      let skb := slot.skb
      let ev :=
        (if mt7601u_urb_has_error u then [tx_event.err_tx_urb_failed u.status] else []) ++
        [tx_event.dma_unmap slot.dma skb.len, tx_event.tx_status skb] ++
        (if (q.entries : Int) ≤ q.used then [tx_event.wake_queue skb.queue_mapping] else [])
      let q1 := { q with start := (q.start + 1) % q.entries, used := q.used - 1 }
      if u.status ≠ 0 then
        { q := q1, state := state, ret := 0, events := ev }
      else
        let state1 := { state with more_stats := true }
        if !state1.reading_stats then
          { q := q1, state := { state1 with reading_stats := true }, ret := 0,
            events := ev ++ [tx_event.queue_stat_work 10] }
        else
          { q := q1, state := state1, ret := 0, events := ev }

/-- Whether `mt7601u_complete_tx` accepts urb `u`: it is the urb of the slot
at `start`. -/
def tx_completion_accepted (q : mt7601u_tx_queue) (u : urb) : Prop :=
  (q.e[q.start]?).map (fun slot => slot.urb) = some u.id

instance (q : mt7601u_tx_queue) (u : urb) : Decidable (tx_completion_accepted q u) := by
  unfold tx_completion_accepted; infer_instance

/-- Number of `ieee80211_stop_queue` calls among the events. -/
def pauses (ev : List tx_event) : Nat :=
  (ev.filter (fun x => match x with | tx_event.stop_queue _ => true | _ => false)).length

/-- Number of `ieee80211_wake_queue` calls among the events. -/
def resumes (ev : List tx_event) : Nat :=
  (ev.filter (fun x => match x with | tx_event.wake_queue _ => true | _ => false)).length

/-- One operation on a TX queue, with what the environment decides. -/
inductive tx_op where
  /-- Call of `usb_kick_out` of frame `skb` -/
  | submit (skb : sk_buff) (dma : Nat) (dma_error : Bool) (submit_ret : Int)
  /-- the transport completes urb `u`: `mt7601u_complete_tx` runs -/
  | complete (u : urb)
  deriving DecidableEq, Repr

/-- The result of one operation from queue `q` and device bits `state`. -/
def tx_step (q : mt7601u_tx_queue) (state : dev_state) : tx_op → tx_result
  | tx_op.submit skb dma dma_error submit_ret => usb_kick_out q state skb dma dma_error submit_ret
  | tx_op.complete u => mt7601u_complete_tx q state u

/-- The results of a sequence of operations, one per operation, in order. -/
def tx_trace (q : mt7601u_tx_queue) (state : dev_state) : List tx_op → List tx_result
  | [] => []
  | op :: ops =>
    let r := tx_step q state op
    r :: tx_trace r.q r.state ops

/-- The queue and the device bits after a sequence of operations. -/
def tx_run (q : mt7601u_tx_queue) (state : dev_state) :
    List tx_op → mt7601u_tx_queue × dev_state
  | [] => (q, state)
  | op :: ops =>
    let r := tx_step q state op
    tx_run r.q r.state ops

/-- The urb of slot `i` (`q->e[i].urb`). -/
def tx_urb_at (q : mt7601u_tx_queue) (i : Nat) : Nat :=
  ((q.e[i]?).map (fun slot => slot.urb)).getD 0

/-- The transport's side of a sequence of operations: `in_flight` lists the
urbs that `usb_submit_urb` has accepted and that have not completed yet.  A
submission that returns 0 puts the urb of slot `end` in flight; a completion is
only ever delivered for an urb in flight, which then leaves the list. -/
def tx_transport_ok (in_flight : List Nat) (q : mt7601u_tx_queue) (state : dev_state) :
    List tx_op → Prop
  | [] => True
  | tx_op.submit skb dma dma_error submit_ret :: ops =>
    let r := usb_kick_out q state skb dma dma_error submit_ret
    tx_transport_ok (if r.ret = 0 then tx_urb_at q q.end_ :: in_flight else in_flight)
      r.q r.state ops
  | tx_op.complete u :: ops =>
    u.id ∈ in_flight ∧
    tx_transport_ok (in_flight.erase u.id)
      (mt7601u_complete_tx q state u).q (mt7601u_complete_tx q state u).state ops

/-- The submissions of frames `skb j, skb (j+1), ..., skb (j+k-1)`, each mapped at
`dma i`, with a transport that accepts every transfer. -/
def tx_submits (skb : Nat → sk_buff) (dma : Nat → Nat) : Nat → Nat → List tx_op
  | _, 0 => []
  | j, k + 1 => tx_op.submit (skb j) (dma j) false 0 :: tx_submits skb dma (j + 1) k

/-- Return value, number of pause signals and number of resume signals of one
operation. -/
def tx_sig (r : tx_result) : Int × Nat × Nat :=
  (r.ret, pauses r.events, resumes r.events)

/-- A buffer of 120 bytes with the mainline header sizes: headers at offsets 0
and 72. -/
def two_segment_buf : List Nat :=
  [64, 0] ++ List.replicate 70 7 ++ [40, 0] ++ List.replicate 46 9

/-! ## phy.c: linear to dB conversion -/

/-- Conversion of a C integer value to `s16` (`short`). -/
def to_s16 (x : Int) : Int := (x + 32768) % 65536 - 32768

/-- Conversion of a C integer value to `int` (32 bits, wrapping). -/
def to_s32 (x : Int) : Int := (x + 2147483648) % 4294967296 - 2147483648

/-- The loop of `fls`: the number of halvings that bring `x` to 0, at most
`bits`. -/
def fls_aux : Nat → Nat → Nat
  | 0, _ => 0
  | bits + 1, x => if x = 0 then 0 else fls_aux bits (x / 2) + 1

/-- Kernel function `fls` on an `unsigned int`: the position of the most
significant set bit, counted from 1, and 0 for 0. -/
def fls (x : Nat) : Nat := fls_aux 32 x

/-- Function `lin2dBd` (phy.c:564-594); `linear` is a `u16` argument.  The
`WARN_ON(!linear)` of the first branch is not recorded. -/
def lin2dBd (linear : Nat) : Int :=
  if linear = 0 then -10000
  else
    let mantisa : Nat := linear
    let exp : Int := to_s16 ((fls mantisa : Int) - 16)
    let mantisa : Nat :=
      if exp > 0 then mantisa >>> exp.toNat
      else to_u32 ((mantisa <<< exp.natAbs : Nat) : Int)
    -- S(15,0)
    let app : Int :=
      if mantisa ≤ 0xb800 then
        to_s32 (to_u32 (((mantisa + (mantisa >>> 3) + (mantisa >>> 4) : Nat) : Int) - 0x9600))
      else
        to_s32 (to_u32 ((mantisa : Int) - ((mantisa >>> 3 : Nat) : Int)
          - ((mantisa >>> 6 : Nat) : Int) - 0x5a00))
    let app : Int := if app < 0 then 0 else app
    let dBd : Int := to_s32 ((15 + exp) * 32768 + app)
    let dBd : Int := to_s32 (dBd * 4 + dBd * 2 + dBd / 64 + dBd / 128)
    let dBd : Int := dBd / 1024
    to_s16 dBd

/-- The value of `lin2dBd` on the inputs with `fls = k`, in natural numbers. -/
def lin2dBd_oct (k x : Nat) : Nat :=
  let m := x <<< (16 - k)
  let app := if m ≤ 0xb800 then m + (m >>> 3) + (m >>> 4) - 0x9600
             else m - (m >>> 3) - (m >>> 6) - 0x5a00
  let d := (k - 1) * 32768 + app
  (d * 4 + d * 2 + d / 64 + d / 128) / 1024

/-- Whether `p` holds on `lo, lo + 1, ..., lo + n - 1`. -/
def all_from (p : Nat → Bool) : Nat → Nat → Bool
  | _, 0 => true
  | lo, n + 1 => p lo && all_from p (lo + 1) n

/-- The facts checked at input `x` of the octave `fls = k`: the value is at
least 3, and the next input of the octave has no smaller value unless `x` is one
of 2944, 5888, 47104. -/
def lin2dBd_step_ok (k x : Nat) : Bool :=
  Nat.ble 3 (lin2dBd_oct k x) &&
  (x + 1 == 2 ^ k || x == 2944 || x == 5888 || x == 47104 ||
    Nat.ble (lin2dBd_oct k x) (lin2dBd_oct k (x + 1)))

/-- The check of the `j`-th block of 4096 inputs of the octave `fls = k`. -/
def lin2dBd_chunk_ok (k j : Nat) : Bool :=
  if 4096 * j < 2 ^ (k - 1) then
    all_from (lin2dBd_step_ok k) (2 ^ (k - 1) + 4096 * j) (min 4096 (2 ^ (k - 1)))
  else true

/-- The check at the joint of the octaves `k` and `k + 1`. -/
def lin2dBd_joint_ok (k : Nat) : Bool :=
  Nat.ble (lin2dBd_oct k (2 ^ k - 1)) (lin2dBd_oct (k + 1) (2 ^ k))

/-! ## phy.c: calibration -/

def EINVAL : Int := 22

/-- Constants of the absent headers that the calibration code of phy.c uses
(`mt7601u.h`, `mac.h`, `eeprom.h`, `regs.h`), and the helpers of `eeprom.h` and
`util.h` for the signed 6-bit power field. -/
structure phy_consts where
  MT_BW_20 : Nat
  MT_BW_40 : Nat
  MT_TEMP_MODE_NORMAL : Int
  MT_TEMP_MODE_HIGH : Int
  MT_TEMP_MODE_LOW : Int
  MT7601_E2_TEMPERATURE_SLOPE : Int
  MT_FREQ_CAL_ADJ_INTERVAL : Nat
  MT_FREQ_CAL_CHECK_INTERVAL : Nat
  MT7601U_FREQ_OFFSET_INVALID : Int
  MT_PHY_TYPE_CCK : Nat
  MT_PHY_TYPE_OFDM : Nat
  MT_PHY_TYPE_HT : Nat
  MT_PHY_TYPE_HT_GF : Nat
  /-- The field mask `MT_TX_ALC_CFG_1_TEMP_COMP`. -/
  MT_TX_ALC_CFG_1_TEMP_COMP : Nat
  /-- Macro `MT76_GET(field, val)`. -/
  MT76_GET : Nat → Nat → Nat
  s6_to_int : Nat → Int
  int_to_s6 : Int → Nat

/-- Helper `s6_to_int` as the mainline driver has it, for concrete inputs. -/
def mainline_s6_to_int (reg : Nat) : Int :=
  let s6 : Int := ((reg &&& 0x3f : Nat) : Int)
  if reg &&& 0x20 ≠ 0 then s6 - 64 else s6

/-- Helper `int_to_s6` as the mainline driver has it, for concrete inputs. -/
def mainline_int_to_s6 (val : Int) : Nat :=
  if val < -0x20 then 0x20
  else if val > 0x1f then 0x1f
  else (val % 64).toNat

/-- The values of the mainline driver, for concrete inputs; the field of
`MT_TX_ALC_CFG_1` is bits 5..0, so `MT76_GET` of it is the masked value. -/
def mainline_phy_consts : phy_consts :=
  { MT_BW_20 := 0, MT_BW_40 := 1,
    MT_TEMP_MODE_NORMAL := 0, MT_TEMP_MODE_HIGH := 1, MT_TEMP_MODE_LOW := 2,
    MT7601_E2_TEMPERATURE_SLOPE := 39,
    MT_FREQ_CAL_ADJ_INTERVAL := 250, MT_FREQ_CAL_CHECK_INTERVAL := 2500,
    MT7601U_FREQ_OFFSET_INVALID := -128,
    MT_PHY_TYPE_CCK := 0, MT_PHY_TYPE_OFDM := 1, MT_PHY_TYPE_HT := 2, MT_PHY_TYPE_HT_GF := 3,
    MT_TX_ALC_CFG_1_TEMP_COMP := 0x3f,
    MT76_GET := fun field val => val &&& field,
    s6_to_int := mainline_s6_to_int,
    int_to_s6 := mainline_int_to_s6 }

/-- The nine register tables of phy.c:25-85, by name. -/
inductive temp_table where
  | mt7601u_high_temp
  | mt7601u_high_temp_bw20
  | mt7601u_high_temp_bw40
  | mt7601u_low_temp
  | mt7601u_low_temp_bw20
  | mt7601u_low_temp_bw40
  | mt7601u_normal_temp
  | mt7601u_normal_temp_bw20
  | mt7601u_normal_temp_bw40
  deriving DecidableEq, Repr

/-- The register pairs of each table (phy.c:25-85). -/
def temp_table_pairs : temp_table → List (Nat × Nat)
  | .mt7601u_high_temp => [(75, 0x60), (92, 0x02), (178, 0xff), (195, 0x88), (196, 0x60)]
  | .mt7601u_high_temp_bw20 =>
    [(69, 0x12), (91, 0x07), (195, 0x23), (196, 0x17), (195, 0x24), (196, 0x06),
     (195, 0x81), (196, 0x12), (195, 0x83), (196, 0x17)]
  | .mt7601u_high_temp_bw40 =>
    [(69, 0x15), (91, 0x04), (195, 0x23), (196, 0x12), (195, 0x24), (196, 0x08),
     (195, 0x81), (196, 0x15), (195, 0x83), (196, 0x16)]
  | .mt7601u_low_temp => [(178, 0xff)]
  | .mt7601u_low_temp_bw20 =>
    [(69, 0x12), (75, 0x5e), (91, 0x07), (92, 0x02), (195, 0x23), (196, 0x17),
     (195, 0x24), (196, 0x06), (195, 0x81), (196, 0x12), (195, 0x83), (196, 0x17),
     (195, 0x88), (196, 0x5e)]
  | .mt7601u_low_temp_bw40 =>
    [(69, 0x15), (75, 0x5c), (91, 0x04), (92, 0x03), (195, 0x23), (196, 0x10),
     (195, 0x24), (196, 0x08), (195, 0x81), (196, 0x15), (195, 0x83), (196, 0x16),
     (195, 0x88), (196, 0x5b)]
  | .mt7601u_normal_temp => [(75, 0x60), (92, 0x02), (178, 0xff), (195, 0x88), (196, 0x60)]
  | .mt7601u_normal_temp_bw20 =>
    [(69, 0x12), (91, 0x07), (195, 0x23), (196, 0x17), (195, 0x24), (196, 0x06),
     (195, 0x81), (196, 0x12), (195, 0x83), (196, 0x17)]
  | .mt7601u_normal_temp_bw40 =>
    [(69, 0x15), (91, 0x04), (195, 0x23), (196, 0x12), (195, 0x24), (196, 0x08),
     (195, 0x81), (196, 0x15), (195, 0x83), (196, 0x16)]

/-- The calls into the register, firmware and logging layers that the
calibration code makes, in program order.  The `trace_printk` and tracepoint
calls are not recorded. -/
inductive phy_event where
  /-- Call `mt7601u_rf_wr(dev, bank, offset, value)`. -/
  | rf_wr (bank offset value : Nat)
  /-- Call `mt7601u_rf_set(dev, bank, offset, mask)`. -/
  | rf_set (bank offset mask : Nat)
  /-- Call `mt7601u_rf_clear(dev, bank, offset, mask)`. -/
  | rf_clear (bank offset mask : Nat)
  /-- Call `mt7601u_rf_rmw(dev, bank, offset, mask, val)`. -/
  | rf_rmw (bank offset mask val : Nat)
  | msleep (ms : Nat)
  /-- Call `mt7601u_mcu_calibrate(dev, MCU_CAL_DPD, val)`. -/
  | mcu_calibrate_dpd (val : Int)
  /-- Call `mt7601u_write_reg_pairs(dev, MT_MCU_MEMMAP_BBP, table, n)`. -/
  | write_reg_pairs (table : temp_table)
  /-- Call `mt7601u_wr(dev, MT_TX_ALC_CFG_1, val)`. -/
  | wr_tx_alc_cfg_1 (val : Nat)
  /-- Call `mt7601u_mcu_tssi_read_kick(dev, hvga)`. -/
  | mcu_tssi_read_kick (hvga : Bool)
  /-- The `printk("Error: unknown bw:%d\n", dev->bw)`. -/
  | printk_unknown_bw (bw : Nat)
  /-- The `printk("Error: TSSI upper saturation\n")`. -/
  | printk_upper_saturation
  /-- The `printk("Error: TSSI lower saturation\n")`. -/
  | printk_lower_saturation
  /-- The `WARN_ON(1)` of an unknown PHY mode. -/
  | warn_on
  deriving DecidableEq, Repr

/-- The fields of `struct mt7601u_dev` (and of its EEPROM data `dev->ee`) that
the calibration code reads or writes. -/
structure mt7601u_dev where
  bw : Nat
  temp_mode : Int
  b49_temp : Int
  /-- Field `dev->ee->ref_temp`. -/
  ref_temp : Int
  curr_temp : Int
  dpd_temp : Int
  pll_lock_protect : Bool
  prev_pwr_diff : Int
  tssi_read_trig : Bool
  /-- Field `dev->freq_cal.freq`. -/
  freq : Nat
  /-- Field `dev->freq_cal.adjusting`. -/
  adjusting : Bool
  deriving DecidableEq, Repr

/-- The outcome of a calibration function: the device after it, its return
value, and the calls it made. -/
structure phy_result where
  dev : mt7601u_dev
  ret : Int
  events : List phy_event
  deriving DecidableEq, Repr

/-- Function `mt7601u_vco_cal` (phy.c:211-218); `BIT(7)` is 128. -/
def mt7601u_vco_cal : List phy_event :=
  [phy_event.rf_wr 0 4 0x0a, phy_event.rf_wr 0 5 0x20, phy_event.rf_set 0 4 128,
   phy_event.msleep 2]

/-- Function `mt7601u_bbp_temp` (phy.c:688-713).  `io` gives the return value
of each call into the firmware layer. -/
def mt7601u_bbp_temp (c : phy_consts) (io : phy_event → Int) (dev : mt7601u_dev)
    (mode : Int) (common bw20 bw40 : temp_table) : phy_result :=
  if dev.temp_mode = mode then { dev := dev, ret := 0, events := [] }
  else
    let dev := { dev with temp_mode := mode }
    let ret := io (phy_event.write_reg_pairs common)
    if ret ≠ 0 then { dev := dev, ret := ret, events := [phy_event.write_reg_pairs common] }
    else if dev.bw = c.MT_BW_20 then
      { dev := dev, ret := io (phy_event.write_reg_pairs bw20),
        events := [phy_event.write_reg_pairs common, phy_event.write_reg_pairs bw20] }
    else
      { dev := dev, ret := io (phy_event.write_reg_pairs bw40),
        events := [phy_event.write_reg_pairs common, phy_event.write_reg_pairs bw40] }

/-- The temperature that `mt7601u_temp_comp` computes (phy.c:719-720). -/
def temp_comp_temp (c : phy_consts) (dev : mt7601u_dev) : Int :=
  to_s32 (to_s32 (dev.b49_temp - dev.ref_temp) * c.MT7601_E2_TEMPERATURE_SLOPE)

/-- The condition of the DPD calibration block (phy.c:724). -/
def temp_comp_dpd_due (temp dpd_temp : Int) : Bool :=
  decide (to_s32 (temp - dpd_temp) > 450) || decide (to_s32 (temp - dpd_temp) < -450)

/-- The PLL lock protect block of `mt7601u_temp_comp` (phy.c:737-751). -/
def temp_comp_pll (dev : mt7601u_dev) (temp : Int) : mt7601u_dev × List phy_event :=
  if temp < -50 ∧ dev.pll_lock_protect = false then
    ({ dev with pll_lock_protect := true },
      [phy_event.rf_wr 4 4 6, phy_event.rf_clear 4 10 0x30])
  else if temp > 50 ∧ dev.pll_lock_protect = true then
    ({ dev with pll_lock_protect := false },
      [phy_event.rf_wr 4 4 0, phy_event.rf_rmw 4 10 0x30 0x10])
  else (dev, [])

/-- The tail of `mt7601u_temp_comp` from the bandwidth check on
(phy.c:753-788). -/
def temp_comp_mode (c : phy_consts) (io : phy_event → Int) (dev : mt7601u_dev) (on_ : Bool)
    (temp : Int) : phy_result :=
  let hi_temp : Int := if on_ then 400 - 50 else 400
  let lo_temp : Int := if on_ then -200 - 50 else -200
  if dev.bw ≠ c.MT_BW_20 ∧ dev.bw ≠ c.MT_BW_40 then
    { dev := dev, ret := -EINVAL, events := [phy_event.printk_unknown_bw dev.bw] }
  else if temp > hi_temp then
    mt7601u_bbp_temp c io dev c.MT_TEMP_MODE_HIGH temp_table.mt7601u_high_temp
      temp_table.mt7601u_high_temp_bw20 temp_table.mt7601u_high_temp_bw40
  else if temp > lo_temp then
    mt7601u_bbp_temp c io dev c.MT_TEMP_MODE_NORMAL temp_table.mt7601u_normal_temp
      temp_table.mt7601u_normal_temp_bw20 temp_table.mt7601u_normal_temp_bw40
  else
    mt7601u_bbp_temp c io dev c.MT_TEMP_MODE_LOW temp_table.mt7601u_low_temp
      temp_table.mt7601u_low_temp_bw20 temp_table.mt7601u_low_temp_bw40

/-- Function `mt7601u_temp_comp` (phy.c:715-788). -/
def mt7601u_temp_comp (c : phy_consts) (io : phy_event → Int) (dev : mt7601u_dev) (on_ : Bool) :
    phy_result :=
  let temp := temp_comp_temp c dev
  let dev := { dev with curr_temp := temp }
  -- DPD Calibration
  let dpd := temp_comp_dpd_due temp dev.dpd_temp
  let dev := if dpd then { dev with dpd_temp := temp } else dev
  let ret := io (phy_event.mcu_calibrate_dpd temp)
  if dpd = true ∧ ret ≠ 0 then
    { dev := dev, ret := ret, events := [phy_event.mcu_calibrate_dpd temp] }
  else
    let ev_dpd := if dpd then phy_event.mcu_calibrate_dpd temp :: mt7601u_vco_cal else []
    -- PLL Lock Protect
    let pll := temp_comp_pll dev temp
    let r := temp_comp_mode c io pll.1 on_ temp
    { r with events := ev_dpd ++ pll.2 ++ r.events }

/-- The mode tables written by a list of calls. -/
def mode_table_writes : List phy_event → List temp_table
  | [] => []
  | phy_event.write_reg_pairs t :: ev => t :: mode_table_writes ev
  | _ :: ev => mode_table_writes ev

/-! ## phy.c: TSSI calibration -/

/-- Type `struct mt7601u_tssi_params`. -/
structure mt7601u_tssi_params where
  tssi0 : Int
  trgt_power : Int
  deriving DecidableEq, Repr

/-- What `mt7601u_tssi_cal` reads and does not write: EEPROM data, the initial
TSSI readings, the channel, register values, and the values that
`mt7601u_tssi_params_get` assembles from BBP registers and EEPROM tables. -/
structure tssi_env where
  /-- Field `dev->ee->tssi_enabled`. -/
  tssi_enabled : Bool
  /-- Result of `mt7601u_current_tx_power(dev)`. -/
  current_tx_power : Int
  /-- Field `dev->chandef.chan->hw_value`. -/
  hw_value : Nat
  /-- Result of `mt7601u_tssi_read_ready(dev)`. -/
  read_ready : Bool
  /-- Result of `mt7601u_tssi_params_get(dev)`. -/
  params : mt7601u_tssi_params
  /-- The temperature that `mt7601u_tssi_params_get` stores in `dev->b49_temp`. -/
  params_b49_temp : Int
  tssi_init : Int
  tssi_init_hvga : Int
  tssi_init_hvga_offset_db : Int
  /-- Values `dev->ee->tssi_data.offset[i]`, converted to `char`. -/
  offset : Nat → Int
  /-- Field `dev->ee->tssi_data.slope`. -/
  slope : Int
  /-- Value read from the register `MT_TX_ALC_CFG_1`. -/
  tx_alc_cfg_1 : Nat

/-- Function `mt7601u_use_hvga` (phy.c:798-801). -/
def mt7601u_use_hvga (e : tssi_env) : Bool := !decide (e.current_tx_power > 20)

/-- Kernel macro `abs` on an `int`, with wrapping negation. -/
def abs32 (x : Int) : Int := if x < 0 then to_s32 (-x) else x

/-- The `tssi_init` that `mt7601u_tssi_cal` chooses (phy.c:915). -/
def tssi_cal_init (e : tssi_env) : Int :=
  if mt7601u_use_hvga e then e.tssi_init_hvga else e.tssi_init

/-- The power difference that `mt7601u_tssi_cal` computes before the saturation
checks (phy.c:915-933): target power minus current power. -/
def tssi_cal_diff_pwr (e : tssi_env) : Int :=
  let hvga := mt7601u_use_hvga e
  let tssi_init := tssi_cal_init e
  let tssi_m_dc : Int := to_s16 (e.params.tssi0 - tssi_init)
  let tssi_db : Int := lin2dBd (to_uw 16 tssi_m_dc)
  let tssi_offset : Int :=
    if e.hw_value < 5 then e.offset 0
    else if e.hw_value < 9 then e.offset 1
    else e.offset 2
  let tssi_db : Int := if hvga then to_s16 (tssi_db - e.tssi_init_hvga_offset_db) else tssi_db
  let curr_pwr : Int := to_s32 (tssi_db * e.slope + tssi_offset * 512)
  to_s32 (e.params.trgt_power - curr_pwr)

/-- The two saturation checks of `mt7601u_tssi_cal` (phy.c:935-942): the
correction after them, and the messages printed. -/
def tssi_cal_saturate (tssi0 tssi_init diff_pwr : Int) : Int × List phy_event :=
  let up : Bool := decide (tssi0 > 126 ∧ diff_pwr > 0)
  let d1 : Int := if up then 0 else diff_pwr
  let lo : Bool := decide (tssi0 - tssi_init < 1 ∧ d1 < 0)
  let d2 : Int := if lo then 0 else d1
  (d2, (if up then [phy_event.printk_upper_saturation] else []) ++
       (if lo then [phy_event.printk_lower_saturation] else []))

/-- The condition of the damping step of `mt7601u_tssi_cal` (phy.c:944-946). -/
def tssi_cal_damp_cond (prev_pwr_diff diff_pwr : Int) : Bool :=
  decide (Int.xor prev_pwr_diff diff_pwr < 0) && decide (abs32 diff_pwr < 4096) &&
    (decide (abs32 diff_pwr > abs32 prev_pwr_diff) ||
      (decide (diff_pwr > 0) && decide (diff_pwr = to_s32 (-prev_pwr_diff))))

/-- The damping step of `mt7601u_tssi_cal` (phy.c:944-949): the correction and
`dev->prev_pwr_diff` after it. -/
def tssi_cal_damp (prev_pwr_diff diff_pwr : Int) : Int × Int :=
  if tssi_cal_damp_cond prev_pwr_diff diff_pwr then (0, prev_pwr_diff)
  else (diff_pwr, diff_pwr)

/-- The rounding step of `mt7601u_tssi_cal` (phy.c:951-952); the division of C
truncates. -/
def tssi_cal_round (diff_pwr : Int) : Int :=
  Int.tdiv (to_s32 (diff_pwr + (if diff_pwr > 0 then 2048 else -2048))) 4096

/-- The rounded correction that `mt7601u_tssi_cal` adds to the power
compensation value, on the path that reaches the register update. -/
def tssi_cal_correction (e : tssi_env) (dev : mt7601u_dev) : Int :=
  tssi_cal_round (tssi_cal_damp dev.prev_pwr_diff
    (tssi_cal_saturate e.params.tssi0 (tssi_cal_init e) (tssi_cal_diff_pwr e)).1).1

/-- The bits of `val` outside `mask`: the C expression `val & ~mask`. -/
def clear_bits (val mask : Nat) : Nat := val ^^^ (val &&& mask)

/-- Function `mt7601u_tssi_cal` (phy.c:893-963). -/
def mt7601u_tssi_cal (c : phy_consts) (io : phy_event → Int) (e : tssi_env)
    (dev : mt7601u_dev) : phy_result :=
  if e.tssi_enabled = false then { dev := dev, ret := 0, events := [] }
  else
    let hvga := mt7601u_use_hvga e
    if dev.tssi_read_trig = false then
      { dev := dev, ret := io (phy_event.mcu_tssi_read_kick hvga),
        events := [phy_event.mcu_tssi_read_kick hvga] }
    else if e.read_ready = false then { dev := dev, ret := 0, events := [] }
    else
      let dev := { dev with b49_temp := e.params_b49_temp }
      let sat := tssi_cal_saturate e.params.tssi0 (tssi_cal_init e) (tssi_cal_diff_pwr e)
      let damp := tssi_cal_damp dev.prev_pwr_diff sat.1
      let dev := { dev with prev_pwr_diff := damp.2 }
      let diff_pwr := tssi_cal_round damp.1
      let val := e.tx_alc_cfg_1
      let curr_pwr := c.s6_to_int (c.MT76_GET c.MT_TX_ALC_CFG_1_TEMP_COMP val)
      let diff_pwr := to_s32 (diff_pwr + curr_pwr)
      let val := to_u32 ((clear_bits val c.MT_TX_ALC_CFG_1_TEMP_COMP ||| c.int_to_s6 diff_pwr : Nat) : Int)
      { dev := dev, ret := io (phy_event.mcu_tssi_read_kick hvga),
        events := sat.2 ++ [phy_event.wr_tx_alc_cfg_1 val, phy_event.mcu_tssi_read_kick hvga] }

/-! ## phy.c: frequency calibration -/

/-- The `switch (phy_mode)` of `__mt7601u_phy_freq_cal` (phy.c:1035-1052):
the activate and deactivate thresholds, or `none` in the default case. -/
def freq_cal_thresholds (c : phy_consts) (phy_mode : Nat) : Option (Nat × Nat) :=
  if phy_mode = c.MT_PHY_TYPE_CCK then some (19, 5)
  else if phy_mode = c.MT_PHY_TYPE_OFDM then some (102, 32)
  else if phy_mode = c.MT_PHY_TYPE_HT ∨ phy_mode = c.MT_PHY_TYPE_HT_GF then some (82, 20)
  else none

/-- The threshold evaluation of `__mt7601u_phy_freq_cal` (phy.c:1054-1057):
the value of `dev->freq_cal.adjusting` after it. -/
def freq_cal_evaluate (adjusting : Bool) (last_offset : Int)
    (activate_threshold deactivate_threshold : Nat) : Bool :=
  if last_offset.natAbs ≥ activate_threshold then true
  else if last_offset.natAbs ≤ deactivate_threshold then false
  else adjusting

/-- Function `__mt7601u_phy_freq_cal` (phy.c:1023-1080); `last_offset` is an
`s8` and `phy_mode` a `u8`. -/
def __mt7601u_phy_freq_cal (c : phy_consts) (dev : mt7601u_dev) (last_offset : Int)
    (phy_mode : Nat) : phy_result :=
  -- No beacons received - reschedule soon
  if last_offset = c.MT7601U_FREQ_OFFSET_INVALID then
    { dev := dev, ret := c.MT_FREQ_CAL_ADJ_INTERVAL, events := [] }
  else
    match freq_cal_thresholds c phy_mode with
    | none => { dev := dev, ret := c.MT_FREQ_CAL_CHECK_INTERVAL, events := [phy_event.warn_on] }
    | some (activate_threshold, deactivate_threshold) =>
      let adjusting :=
        freq_cal_evaluate dev.adjusting last_offset activate_threshold deactivate_threshold
      let dev := { dev with adjusting := adjusting }
      if dev.adjusting = false then
        { dev := dev, ret := c.MT_FREQ_CAL_CHECK_INTERVAL, events := [] }
      else
        let dev :=
          if last_offset > deactivate_threshold then
            if dev.freq > 0 then { dev with freq := dev.freq - 1 }
            else { dev with adjusting := false }
          else if last_offset < -(deactivate_threshold : Int) then
            if dev.freq < 0xbf then { dev with freq := to_u8 (dev.freq + 1) }
            else { dev with adjusting := false }
          else dev
        { dev := dev,
          ret := if dev.adjusting then c.MT_FREQ_CAL_ADJ_INTERVAL
                 else c.MT_FREQ_CAL_CHECK_INTERVAL,
          events := phy_event.rf_wr 0 12 dev.freq :: mt7601u_vco_cal }

/-- The temperature mode that the tail of `mt7601u_temp_comp` asks
`mt7601u_bbp_temp` for (phy.c:764-787). -/
def temp_comp_selected_mode (c : phy_consts) (on_ : Bool) (temp : Int) : Int :=
  if temp > (if on_ then 400 - 50 else 400) then c.MT_TEMP_MODE_HIGH
  else if temp > (if on_ then -200 - 50 else -200) then c.MT_TEMP_MODE_NORMAL
  else c.MT_TEMP_MODE_LOW

/-- A device for concrete inputs: 20 MHz, normal temperature mode, a TSSI read
triggered, previous power correction 100 as `mt7601u_phy_init` leaves it. -/
def sample_dev : mt7601u_dev :=
  { bw := 0, temp_mode := 0, b49_temp := 30, ref_temp := 20, curr_temp := 0, dpd_temp := 0,
    pll_lock_protect := false, prev_pwr_diff := 100, tssi_read_trig := true,
    freq := 0x60, adjusting := false }

/-- A TSSI reading for concrete inputs: `tssi0 = 127` with a target power far
above the measured one. -/
def saturated_env : tssi_env :=
  { tssi_enabled := true, current_tx_power := 10, hw_value := 6, read_ready := true,
    params := { tssi0 := 127, trgt_power := 200000 }, params_b49_temp := 31,
    tssi_init := 12, tssi_init_hvga := 20, tssi_init_hvga_offset_db := 96,
    offset := fun i => if i = 1 then 3 else 0, slope := 100, tx_alc_cfg_1 := 0x0a000025 }

/-- A firmware layer in which every call succeeds. -/
def io_ok : phy_event → Int := fun _ => 0

/-- A firmware layer in which the write of a common table fails with `-EIO`
(-5) and every other call succeeds. -/
def io_common_fails : phy_event → Int
  | phy_event.write_reg_pairs temp_table.mt7601u_high_temp => -5
  | phy_event.write_reg_pairs temp_table.mt7601u_normal_temp => -5
  | phy_event.write_reg_pairs temp_table.mt7601u_low_temp => -5
  | _ => 0

/-- A firmware layer in which the DPD calibration fails with `-EIO` (-5) and
every other call succeeds. -/
def io_dpd_fails : phy_event → Int
  | phy_event.mcu_calibrate_dpd _ => -5
  | _ => 0

/-- A device for concrete inputs whose temperature reading gives 780, above
the high threshold and more than 450 away from the DPD reference. -/
def hot_dev : mt7601u_dev := { sample_dev with b49_temp := 40 }

/-- The DPD calibration requests among a list of calls, by their argument. -/
def dpd_requests : List phy_event → List Int
  | [] => []
  | phy_event.mcu_calibrate_dpd v :: ev => v :: dpd_requests ev
  | _ :: ev => dpd_requests ev

/-- A device for concrete inputs whose temperature reading gives -195: 20 MHz,
low temperature mode. -/
def cool_dev : mt7601u_dev := { sample_dev with b49_temp := 15, temp_mode := 2 }

/-- A device for concrete inputs that is adjusting with the frequency value at
its lower limit. -/
def floor_dev : mt7601u_dev := { sample_dev with freq := 0, adjusting := true }

/-! ## phy.c: channel switch -/

/-- Value of `NL80211_CHAN_HT40MINUS` (`enum nl80211_channel_type` of the
kernel's `nl80211.h`). -/
def NL80211_CHAN_HT40MINUS : Nat := 2

/-- Value of `NL80211_CHAN_HT40PLUS` (`enum nl80211_channel_type`). -/
def NL80211_CHAN_HT40PLUS : Nat := 3

/-- Value of `NL80211_CHAN_WIDTH_40` (`enum nl80211_chan_width`). -/
def NL80211_CHAN_WIDTH_40 : Nat := 2

/-- The table `freq_plan` of `__mt7601u_phy_set_channel` (phy.c:298-313). -/
def freq_plan : List (List Nat) :=
  [[0x99, 0x99, 0x09, 0x50],
   [0x46, 0x44, 0x0a, 0x50],
   [0xec, 0xee, 0x0a, 0x50],
   [0x99, 0x99, 0x0b, 0x50],
   [0x46, 0x44, 0x08, 0x51],
   [0xec, 0xee, 0x08, 0x51],
   [0x99, 0x99, 0x09, 0x51],
   [0x46, 0x44, 0x0a, 0x51],
   [0xec, 0xee, 0x0a, 0x51],
   [0x99, 0x99, 0x0b, 0x51],
   [0x46, 0x44, 0x08, 0x52],
   [0xec, 0xee, 0x08, 0x52],
   [0x99, 0x99, 0x09, 0x52],
   [0x33, 0x33, 0x0b, 0x52]]

/-- The computation of `chan_idx` in `__mt7601u_phy_set_channel`
(phy.c:324-335): the index, and whether the message
`"Error: invalid 40MHz channel!!"` is printed.  `hw_value` is the `u16` channel
number, `width` is `chandef->width` and `chan_type` the value of
`cfg80211_get_chandef_type(chandef)`. -/
def set_channel_chan_idx (hw_value width chan_type : Nat) : Int × Bool :=
  let chan_idx : Int := (hw_value : Int) - 1
  if width = NL80211_CHAN_WIDTH_40 then
    if chan_idx > 1 ∧ chan_type = NL80211_CHAN_HT40MINUS then (to_s32 (chan_idx - 2), false)
    else if chan_idx < 12 ∧ chan_type = NL80211_CHAN_HT40PLUS then (to_s32 (chan_idx + 2), false)
    else (chan_idx, true)
  else (chan_idx, false)

/-- Element `t[i]` of a C array given as a list, for an `int` index: `none` when
the index is outside the array. -/
def array_at {α : Type} (t : List α) (i : Int) : Option α :=
  if i < 0 then none else t[i.toNat]?

/-- The two table reads of `__mt7601u_phy_set_channel` that use `chan_idx`
(phy.c:347-348 and 355-356): the row `freq_plan[chan_idx]` that goes into
`channel_freq_plan`, and the value `dev->ee->chan_pwr[chan_idx] & 0x3f` written
to `MT_TX_ALC_CFG_0`.  `chan_pwr` is the per-channel power table of the EEPROM
data. -/
def set_channel_lookups (chan_pwr : List Nat) (hw_value width chan_type : Nat) :
    Option (List Nat) × Option Nat :=
  let chan_idx := (set_channel_chan_idx hw_value width chan_type).1
  (array_at freq_plan chan_idx, (array_at chan_pwr chan_idx).map (fun p => p &&& 0x3f))

/-! ## dma.c: one RX segment -/

/-- What `mt7601u_rx_process_seg` does with a segment, in program order. -/
inductive seg_event where
  /-- The `printk("Error: dma_len does not match fce_len\n")`. -/
  | err_fce_len
  /-- Call `alloc_skb(len, GFP_ATOMIC)`. -/
  | alloc_skb (len : Nat)
  /-- The `printk("Error: rx failed to allocate skb\n")`. -/
  | err_alloc
  /-- Call `memcpy(skb_put(skb, len), data, len)`, with `data` at distance `src`
  from the start of the segment. -/
  | memcpy (src len : Nat)
  /-- Call `dev_kfree_skb(skb)`. -/
  | kfree_skb
  /-- Call `ieee80211_rx_ni(dev->hw, skb)` with a frame of `len` bytes. -/
  | rx_ni (len : Nat)
  deriving DecidableEq, Repr

/-- The `u32` payload length that `mt7601u_rx_process_seg` computes from
`seg_len` by its three subtractions (dma.c:60, 63, 67). -/
def rx_seg_payload_len (c : dma_consts) (seg_len : Nat) : Nat :=
  let seg_len := to_u32 ((seg_len : Int) - (c.MT_FCE_INFO_LEN : Int))
  let seg_len := to_u32 ((seg_len : Int) - (c.MT_DMA_HDR_LEN : Int))
  to_u32 ((seg_len : Int) - (c.sizeof_rxwi : Int))

/-- Function `mt7601u_rx_process_seg` (dma.c:50-90).  The environment supplies
the length field of the FCE word read from the segment (`fce_len`), whether
`alloc_skb` succeeds and whether `mt76_mac_process_rx` accepts the frame. -/
def mt7601u_rx_process_seg (c : dma_consts) (fce_len : Nat) (alloc_ok mac_ok : Bool)
    (seg_len : Nat) : List seg_event :=
  let ev_fce := if to_u32 ((seg_len : Int) - (c.MT_DMA_HDRS : Int)) ≠ fce_len
    then [seg_event.err_fce_len] else []
  let len := rx_seg_payload_len c seg_len
  if alloc_ok = false then ev_fce ++ [seg_event.alloc_skb len, seg_event.err_alloc]
  else
    let ev := ev_fce ++ [seg_event.alloc_skb len,
      seg_event.memcpy (c.MT_DMA_HDR_LEN + c.sizeof_rxwi) len]
    if mac_ok = false then ev ++ [seg_event.kfree_skb] else ev ++ [seg_event.rx_ni len]

/-- The segments handed to `mt7601u_rx_process_seg` among the events, as pairs
of offset and length. -/
def rx_segs : List rx_event → List (Nat × Nat)
  | [] => []
  | rx_event.process_seg off len :: ev => (off, len) :: rx_segs ev
  | _ :: ev => rx_segs ev

/-- Whether each segment of the list starts where the one before it ended, the
first one at `off`. -/
def segs_contiguous : Nat → List (Nat × Nat) → Bool
  | _, [] => true
  | off, s :: rest => s.1 == off && segs_contiguous (s.1 + s.2) rest

/-- A received buffer of 40 bytes, with the mainline header sizes, whose header
declares a length of 4. -/
def short_seg_buf : List Nat := [4, 0] ++ List.replicate 38 0

/-! ## dma.c: order of the TX ring -/

/-- The frames handed to `mt7601u_tx_status` among the events, in order. -/
def tx_status_frames : List tx_event → List sk_buff
  | [] => []
  | tx_event.tx_status skb :: ev => skb :: tx_status_frames ev
  | _ :: ev => tx_status_frames ev

/-- The TX queue and the device bits with a record of the frames whose
submission succeeded (`submitted`) and of the frames handed to the status path by
completions (`completed`), each in order. -/
structure tx_fifo_log where
  q : mt7601u_tx_queue
  state : dev_state
  submitted : List sk_buff
  completed : List sk_buff
  deriving DecidableEq, Repr

/-- One operation on the TX queue, with the record kept. -/
def tx_step_log (s : tx_fifo_log) (op : tx_op) : tx_fifo_log :=
  { q := (tx_step s.q s.state op).q
    state := (tx_step s.q s.state op).state
    submitted := match op with
      | tx_op.submit skb _ _ _ =>
        if (tx_step s.q s.state op).ret = 0 then s.submitted ++ [skb] else s.submitted
      | tx_op.complete _ => s.submitted
    completed := s.completed ++ tx_status_frames (tx_step s.q s.state op).events }

/-- A sequence of operations on the TX queue, with the record kept. -/
def tx_run_log (s : tx_fifo_log) (ops : List tx_op) : tx_fifo_log :=
  ops.foldl tx_step_log s

/-- Whether a completion is for the oldest frame in flight: a frame is in
flight and the completing urb is the one of the slot at `start`. -/
def tx_op_oldest (q : mt7601u_tx_queue) : tx_op → Bool
  | tx_op.submit _ _ _ _ => true
  | tx_op.complete u => decide (0 < q.used) && decide (tx_completion_accepted q u)

/-- Whether every completion of a sequence of operations is for the oldest
frame in flight at its time. -/
def tx_oldest_first (q : mt7601u_tx_queue) (state : dev_state) : List tx_op → Bool
  | [] => true
  | op :: ops =>
    tx_op_oldest q op && tx_oldest_first (tx_step q state op).q (tx_step q state op).state ops

/-- The frames in flight, oldest first: those of the slots `start`,
`start + 1`, ... modulo `entries`, `used` of them. -/
def tx_in_flight_frames (q : mt7601u_tx_queue) : List sk_buff :=
  (List.range q.used.toNat).filterMap
    (fun i => (q.e[(q.start + i) % q.entries]?).map (fun slot => slot.skb))

/-! ## tx.c: status collector -/

/-- What the status collector `mt7601u_tx_stat` reports to the kernel. -/
inductive stat_event where
  /-- Call `ieee80211_tx_status_noskb(dev->hw, sta, &info)` after
  `mt76_mac_fill_tx_status(dev, &info, &stat)`: `sta` is the station passed (`none`
  for `NULL`), `stat` the decoded status entry the report is filled from. -/
  | tx_status_noskb (sta : Option Nat) (stat : mt76_tx_status)
  /-- Call `queue_delayed_work(dev->stat_wq, &dev->stat_work, msecs_to_jiffies(ms))`. -/
  | queue_stat_work (ms : Nat)
  deriving DecidableEq, Repr

/-- The lookup `dev->wcid[i]` in the table of registered stations: the station
registered at index `i`, or `none` for a `NULL` slot.  The table has
`ARRAY_SIZE(dev->wcid)` slots. -/
def wcid_at (wcids : List (Option Nat)) (i : Nat) : Option Nat := (wcids[i]?).getD none

/-- The `while` loop of `mt7601u_tx_stat` (tx.c:269-291) on a device that is not
removed.  `fetched` lists the results of the successive calls of
`mt7601u_mac_fetch_tx_status`; the end of the list stands for an invalid entry.
`wcid` and `sta` are the values of the two locals of the function at the start of
the iteration: a station pointer is identified with its `wcid` pointer, from which
`container_of` derives it.  Returns the reports in order and the number of entries
cleaned. -/
def tx_stat_loop (retry_bits : Nat) (wcids : List (Option Nat)) :
    Option Nat → Option Nat → List mt76_tx_status → List stat_event × Int
  | _, _, [] => ([], 0)
  | wcid, sta, stat :: fetched =>
    if stat.valid = false then ([], 0)
    else
      let stat := mt7601u_tx_pktid_dec retry_bits stat
      let wcid := if stat.wcid < wcids.length then wcid_at wcids stat.wcid else wcid
      let sta := if wcid.isSome then wcid else sta
      let rest := tx_stat_loop retry_bits wcids wcid sta fetched
      (stat_event.tx_status_noskb sta stat :: rest.1, rest.2 + 1)

/-- The rescheduling tail of `mt7601u_tx_stat` (tx.c:294-303), run under
`dev->tx_lock` after a loop that cleaned `cleaned` entries. -/
def tx_stat_tail (state : dev_state) (cleaned : Int) : dev_state × List stat_event :=
  if cleaned ≠ 0 then (state, [stat_event.queue_stat_work 10])
  else if state.more_stats then
    ({ state with more_stats := false }, [stat_event.queue_stat_work 20])
  else ({ state with reading_stats := false }, [])

/-- Function `mt7601u_tx_stat` (tx.c:256-304) when the device bits do not change
while the loop runs: `wcid` and `sta` start as `NULL`. -/
def mt7601u_tx_stat (retry_bits : Nat) (wcids : List (Option Nat)) (state : dev_state)
    (fetched : List mt76_tx_status) : dev_state × List stat_event :=
  let r := if state.removed then ([], 0) else tx_stat_loop retry_bits wcids none none fetched
  let t := tx_stat_tail state r.2
  (t.1, r.1 ++ t.2)

/-- The reports forwarded to the MAC layer among the events: the station and
the status entry of each, in order. -/
def tx_reports : List stat_event → List (Option Nat × mt76_tx_status)
  | [] => []
  | stat_event.tx_status_noskb sta stat :: ev => (sta, stat) :: tx_reports ev
  | _ :: ev => tx_reports ev

/-- The entries that the loop of `mt7601u_tx_stat` fetches before the first
invalid one. -/
def fetched_valid : List mt76_tx_status → List mt76_tx_status
  | [] => []
  | stat :: fetched => if stat.valid = false then [] else stat :: fetched_valid fetched

/-- A status entry for concrete inputs: valid, for the station index `wcid`,
with packet id 3 and rate 2. -/
def sample_stat (wcid : Nat) : mt76_tx_status :=
  { valid := true, wcid := wcid, pktid := 3, rate := 2, is_probe := false, retry := 0 }

/-- Device bits for concrete inputs: initialised, not removed, both status
flags clear. -/
def idle_state : dev_state :=
  { initialized := true, removed := false, more_stats := false, reading_stats := false }

/-! ## Scheduling of the status collector -/

/-- Whether `queue_delayed_work` for the status collector is among the events
of a TX completion. -/
def queues_stat_work : List tx_event → Bool
  | [] => false
  | tx_event.queue_stat_work _ :: _ => true
  | _ :: ev => queues_stat_work ev

/-- The status flags together with the workqueue's view of `dev->stat_work`:
whether it is queued, whether its function is running, and how often a TX
completion called `queue_delayed_work` while it was queued or running. -/
structure stat_sched where
  state : dev_state
  queued : Bool
  running : Bool
  requeues : Nat
  deriving DecidableEq, Repr

/-- The steps that touch the status flags; each runs under `dev->tx_lock` or in
the workqueue. -/
inductive stat_op where
  /-- A call of `mt7601u_complete_tx` for urb `u` on a TX queue in state `q`. -/
  | complete (q : mt7601u_tx_queue) (u : urb)
  /-- The workqueue takes the queued work and starts `mt7601u_tx_stat`. -/
  | collector_start
  /-- A running `mt7601u_tx_stat` reaches its tail after cleaning `cleaned`
  entries. -/
  | collector_finish (cleaned : Int)
  deriving DecidableEq, Repr

/-- One step of the status flags and the workqueue. -/
def stat_sched_step (s : stat_sched) : stat_op → stat_sched
  | stat_op.complete q u =>
    let r := mt7601u_complete_tx q s.state u
    let queues := queues_stat_work r.events
    { state := r.state, queued := s.queued || queues, running := s.running,
      requeues := if queues && (s.queued || s.running) then s.requeues + 1 else s.requeues }
  | stat_op.collector_start =>
    if s.queued then { s with queued := false, running := true } else s
  | stat_op.collector_finish cleaned =>
    if s.running then
      let t := tx_stat_tail s.state cleaned
      { state := t.1, queued := s.queued || !t.2.isEmpty, running := false,
        requeues := s.requeues }
    else s

/-- A sequence of steps of the status flags and the workqueue. -/
def stat_sched_run (s : stat_sched) (ops : List stat_op) : stat_sched :=
  ops.foldl stat_sched_step s

/-! # Theorems -/

/-! ## Lemmas on the conversions -/

theorem eff_rate_eq_mod (stat : mt76_tx_status) :
    pktid_dec_eff_rate stat = stat.rate % 8 :=
  Nat.and_pow_two_sub_one_eq_mod stat.rate 3

theorem eff_rate_lt (stat : mt76_tx_status) : pktid_dec_eff_rate stat < 8 := by
  rw [eff_rate_eq_mod]; exact Nat.mod_lt _ (by decide)

theorem eight_le_two_pow (w : Nat) (hw : 3 ≤ w) : (8 : Int) ≤ (2 : Int) ^ w := by
  have h : (2 : Int) ^ 3 ≤ (2 : Int) ^ w := pow_le_pow_right₀ (by norm_num) hw
  simpa using h

/-- A difference of two small values that is not negative is stored unchanged. -/
theorem to_uw_sub_of_le (w a b : Nat) (hw : 3 ≤ w) (ha : a < 8) (hba : b ≤ a) :
    to_uw w ((a : Int) - (b : Int)) = a - b := by
  have h8 := eight_le_two_pow w hw
  unfold to_uw
  rw [Int.emod_eq_of_lt (by omega) (by omega)]
  omega

/-- A negative difference of two small values wraps around the field. -/
theorem to_uw_sub_of_lt (w a b : Nat) (hw : 3 ≤ w) (hb : b < 8) (hab : a < b) :
    (to_uw w ((a : Int) - (b : Int)) : Int) = (2 : Int) ^ w - ((b : Int) - (a : Int)) := by
  have h8 := eight_le_two_pow w hw
  unfold to_uw
  have h1 : ((a : Int) - (b : Int)) % (2 : Int) ^ w
      = (a : Int) - (b : Int) + (2 : Int) ^ w := by
    rw [← Int.add_emod_self]
    exact Int.emod_eq_of_lt (by omega) (by omega)
  rw [h1, Int.toNat_of_nonneg (by omega)]
  omega


/-- The decoder's locals as a function of the packet id and the effective rate. -/
theorem pktid_dec_req_rate_eq (stat : mt76_tx_status) :
    pktid_dec_req_rate stat =
      (let req_rate := to_u8 ((to_u8 stat.pktid : Int) - 1)
       if req_rate > 7 then
         (if to_u8 ((req_rate : Int) - 8) = 0 ∧ stat.rate % 8 ≠ 0 then (7, true)
          else (to_u8 ((req_rate : Int) - 8), true))
       else (req_rate, stat.is_probe)) := by
  simp [pktid_dec_req_rate, eff_rate_eq_mod]

/-! ## Packet-id coding (tx.c) -/

/-- C1, amended: for every rate in 0..7, probe flag and reported rate `r`
(effective rate `r & 7`), decoding the id produced by the encoder, with `is_probe`
initially false, recovers the probe flag and decodes the requested rate; the
stored retry count plus the effective rate is the rate when the effective rate
does not exceed it, and the rate plus `2^w` (the difference wrapped into the
`w`-bit retry field) when it does.  The two probe inputs rate 0 and rate 7 share
id 9, for which the decoder yields `is_probe = true` and requested rate 7 when the
effective rate is nonzero, 0 when it is zero; there the retry count plus the
effective rate is that requested rate. -/
theorem pktid_roundtrip (w rate r : Nat) (probe : Bool) (st : mt76_tx_status)
    (hw : 3 ≤ w) (hrate : rate ≤ 7) :
    let stat := { st with pktid := mt7601u_tx_pktid_enc rate probe, rate := r, is_probe := false }
    let eff := pktid_dec_eff_rate stat
    let req := (pktid_dec_req_rate stat).1
    let out := mt7601u_tx_pktid_dec w stat
    eff = r % 8
    ∧ (out.retry + eff) % 2 ^ w = req
    ∧ (eff ≤ req → out.retry + eff = req)
    ∧ (req < eff → out.retry + eff = req + 2 ^ w)
    ∧ (¬ (probe = true ∧ (rate = 0 ∨ rate = 7)) →
        req = rate ∧ out.is_probe = probe ∧
        (eff ≤ rate → out.retry + eff = rate) ∧
        (rate < eff → out.retry + eff = rate + 2 ^ w))
    ∧ (probe = true ∧ (rate = 0 ∨ rate = 7) →
        stat.pktid = 9 ∧ out.is_probe = true ∧ req = (if eff = 0 then 0 else 7) ∧
        out.retry + eff = (if eff = 0 then 0 else 7)) := by
  intro stat eff req out
  have heff : eff = r % 8 := eff_rate_eq_mod stat
  have hlt : r % 8 < 8 := Nat.mod_lt _ (by decide)
  have hreq : req < 8
      ∧ (¬ (probe = true ∧ (rate = 0 ∨ rate = 7)) → req = rate ∧ out.is_probe = probe)
      ∧ (probe = true ∧ (rate = 0 ∨ rate = 7) →
          stat.pktid = 9 ∧ out.is_probe = true ∧ req = if r % 8 = 0 then 0 else 7) := by
    simp only [req, out, mt7601u_tx_pktid_dec, pktid_dec_req_rate_eq, stat]
    generalize r % 8 = e at hlt
    interval_cases rate <;> cases probe <;> interval_cases e <;> decide
  have hpow : 8 ≤ 2 ^ w := by
    have h8 := eight_le_two_pow w hw
    exact_mod_cast h8
  have hle : eff ≤ req → out.retry + eff = req := by
    intro hle
    have hret : out.retry = req - eff := to_uw_sub_of_le w req eff hw hreq.1 hle
    omega
  have hgt : req < eff → out.retry + eff = req + 2 ^ w := by
    intro hgt
    have hret : (out.retry : Int) = (2 : Int) ^ w - ((eff : Int) - (req : Int)) :=
      to_uw_sub_of_lt w req eff hw (by rw [heff]; exact hlt) (by omega)
    have hcast : ((2 ^ w : Nat) : Int) = (2 : Int) ^ w := by push_cast; rfl
    omega
  refine ⟨heff, ?_, hle, hgt, ?_, ?_⟩
  · by_cases h : eff ≤ req
    · rw [hle h]
      exact Nat.mod_eq_of_lt (by omega)
    · rw [hgt (by omega), Nat.add_mod_right]
      exact Nat.mod_eq_of_lt (by omega)
  · intro hn
    obtain ⟨h1, h2⟩ := hreq.2.1 hn
    refine ⟨h1, h2, ?_, ?_⟩
    · intro h
      rw [← h1]
      exact hle (by rw [h1]; exact h)
    · intro h
      rw [← h1]
      exact hgt (by rw [h1]; exact h)
  · intro hc
    obtain ⟨h1, h2, h3⟩ := hreq.2.2 hc
    rw [← heff] at h3
    refine ⟨h1, h2, h3, ?_⟩
    rw [← h3]
    apply hle
    rw [h3]
    split_ifs with h0
    · omega
    · rw [heff]
      omega

/-- C1 fails as stated: rate 0 sent without the probe flag and completed at the
effective rate 3, with an 8-bit retry field.  The probe flag is recovered, but
the retry count stored is 253, so the retry count plus the effective rate is 256,
not the rate 0. -/
theorem pktid_retry_sum_overshoots :
    (let stat : mt76_tx_status :=
        { valid := true, wcid := 1, pktid := mt7601u_tx_pktid_enc 0 false, rate := 3,
          is_probe := false, retry := 0 }
     let out := mt7601u_tx_pktid_dec 8 stat
     pktid_dec_eff_rate stat = 3 ∧ out.is_probe = false ∧ out.retry = 253 ∧
     out.retry + pktid_dec_eff_rate stat = 256 ∧ out.retry + pktid_dec_eff_rate stat ≠ 0) := by
  decide

/-- Witness of C1 as amended: rate 5 sent as a probe and completed at rate 3,
with an 8-bit retry field. -/
theorem pktid_roundtrip_witness :
    3 ≤ 8 ∧ 5 ≤ 7 ∧
    (let stat : mt76_tx_status :=
        { valid := true, wcid := 1, pktid := mt7601u_tx_pktid_enc 5 true, rate := 3,
          is_probe := false, retry := 0 }
     let eff := pktid_dec_eff_rate stat
     let req := (pktid_dec_req_rate stat).1
     let out := mt7601u_tx_pktid_dec 8 stat
     eff = 3 % 8
     ∧ (out.retry + eff) % 2 ^ 8 = req
     ∧ (eff ≤ req → out.retry + eff = req)
     ∧ (req < eff → out.retry + eff = req + 2 ^ 8)
     ∧ (¬ (true = true ∧ (5 = 0 ∨ 5 = 7)) →
         req = 5 ∧ out.is_probe = true ∧
         (eff ≤ 5 → out.retry + eff = 5) ∧
         (5 < eff → out.retry + eff = 5 + 2 ^ 8))
     ∧ (true = true ∧ (5 = 0 ∨ 5 = 7) →
         stat.pktid = 9 ∧ out.is_probe = true ∧ req = (if eff = 0 then 0 else 7) ∧
         out.retry + eff = (if eff = 0 then 0 else 7))) :=
  ⟨by decide, by decide,
   pktid_roundtrip 8 5 3 true
     { valid := true, wcid := 1, pktid := 0, rate := 0, is_probe := false, retry := 0 }
     (by decide) (by decide)⟩

/-- C2: for every rate in 0..7 and probe flag the encoder returns
`rate + 1 + (8 if is_probe else 0)`, except that rate 7 with the probe flag gives
9; the id is never 0 and never above 15. -/
theorem pktid_enc_value (rate : Nat) (is_probe : Bool) (h : rate ≤ 7) :
    mt7601u_tx_pktid_enc rate is_probe =
      (if is_probe = true ∧ rate = 7 then 9 else rate + 1 + (if is_probe then 8 else 0))
    ∧ mt7601u_tx_pktid_enc rate is_probe ≠ 0
    ∧ mt7601u_tx_pktid_enc rate is_probe ≤ 15 := by
  interval_cases rate <;> cases is_probe <;> decide

/-- Witness of C2: rate 7 with the probe flag. -/
theorem pktid_enc_value_witness :
    7 ≤ 7 ∧ mt7601u_tx_pktid_enc 7 true = 9 ∧ mt7601u_tx_pktid_enc 7 true ≠ 0
      ∧ mt7601u_tx_pktid_enc 7 true ≤ 15 :=
  ⟨by decide, pktid_enc_value 7 true (by decide)⟩

/-- C3 fails as stated: packet id 1 (rate 0, no probe) completed at effective
rate 3 stores retry 253 in an 8-bit field, neither 0 nor at most 7. -/
theorem pktid_dec_retry_wraps :
    let stat : mt76_tx_status :=
      { valid := true, wcid := 1, pktid := 1, rate := 3, is_probe := false, retry := 0 }
    (pktid_dec_req_rate stat).1 = 0 ∧ pktid_dec_eff_rate stat = 3 ∧
    (mt7601u_tx_pktid_dec 8 stat).retry = 253 ∧
    (mt7601u_tx_pktid_dec 8 stat).retry ≠ 0 ∧ ¬ (mt7601u_tx_pktid_dec 8 stat).retry ≤ 7 := by
  decide

/-- C3 as amended: for every packet id in 1..15 and every reported rate the
decoded requested rate is in 0..7; the stored retry count is requested minus
effective rate when that is not negative, and otherwise the wrapped value
`2^w - (effective - requested)` of the `w`-bit retry field (`w ≥ 3`), which is
not 0: the decoder has no clamp. -/
theorem pktid_dec_retry_value (w : Nat) (stat : mt76_tx_status)
    (hw : 3 ≤ w) (h1 : 1 ≤ stat.pktid) (h15 : stat.pktid ≤ 15) :
    let req := (pktid_dec_req_rate stat).1
    let eff := pktid_dec_eff_rate stat
    let out := mt7601u_tx_pktid_dec w stat
    req ≤ 7 ∧ eff ≤ 7
    ∧ (eff ≤ req → out.retry = req - eff ∧ out.retry ≤ 7)
    ∧ (req < eff →
        (out.retry : Int) = (2 : Int) ^ w - ((eff : Int) - (req : Int)) ∧ out.retry ≠ 0) := by
  intro req eff out
  have heff : eff < 8 := eff_rate_lt stat
  have hreq : req ≤ 7 := by
    have hlt : stat.rate % 8 < 8 := Nat.mod_lt _ (by decide)
    simp only [req, pktid_dec_req_rate_eq]
    generalize stat.rate % 8 = e at hlt
    generalize stat.pktid = p at h1 h15
    generalize stat.is_probe = b
    interval_cases p <;> interval_cases e <;> cases b <;> decide
  refine ⟨hreq, by omega, ?_, ?_⟩
  · intro hle
    have hret : out.retry = req - eff := to_uw_sub_of_le w req eff hw (by omega) hle
    omega
  · intro hlt
    have hret : (out.retry : Int) = (2 : Int) ^ w - ((eff : Int) - (req : Int)) :=
      to_uw_sub_of_lt w req eff hw heff hlt
    have h8 := eight_le_two_pow w hw
    refine ⟨hret, ?_⟩
    omega

/-- Witness of C3 as amended: packet id 1 completed at rate 3, 8-bit field. -/
theorem pktid_dec_retry_value_witness :
    3 ≤ 8 ∧
    (let stat : mt76_tx_status :=
        { valid := true, wcid := 1, pktid := 1, rate := 3, is_probe := false, retry := 0 }
     1 ≤ stat.pktid ∧ stat.pktid ≤ 15 ∧
     (let req := (pktid_dec_req_rate stat).1
      let eff := pktid_dec_eff_rate stat
      let out := mt7601u_tx_pktid_dec 8 stat
      req ≤ 7 ∧ eff ≤ 7
      ∧ (eff ≤ req → out.retry = req - eff ∧ out.retry ≤ 7)
      ∧ (req < eff →
          (out.retry : Int) = (2 : Int) ^ 8 - ((eff : Int) - (req : Int)) ∧ out.retry ≠ 0))) :=
  ⟨by decide, by decide, by decide,
   pktid_dec_retry_value 8
     { valid := true, wcid := 1, pktid := 1, rate := 3, is_probe := false, retry := 0 }
     (by decide) (by decide) (by decide)⟩

/-! ## RX queue (dma.c) -/

theorem rx_step_entries (q : mt7601u_rx_queue) (op : rx_op) :
    (rx_step q op).entries = q.entries := by
  cases op with
  | complete u =>
    simp only [rx_step, mt7601u_complete_rx]
    split_ifs <;> rfl
  | drain =>
    simp only [rx_step, mt7601u_rx_get_pending_entry]
    split_ifs <;> rfl

/-- The ring increment `(a + 1) % n` as an integer. -/
theorem cast_succ_mod (a n : Nat) :
    (((a + 1) % n : Nat) : Int) = (a : Int) + 1 - (n : Int) * (((a : Int) + 1) / (n : Int)) := by
  have h := Int.emod_add_ediv ((a : Int) + 1) (n : Int)
  push_cast
  linarith

/-- One operation keeps the indices in range and `pending` congruent to
`end - start` modulo `entries`. -/
theorem rx_step_keeps (q : mt7601u_rx_queue) (op : rx_op)
    (hN : 0 < q.entries) (hs : q.start < q.entries) (he : q.end_ < q.entries)
    (hc : (q.entries : Int) ∣ (q.pending : Int) - ((q.end_ : Int) - (q.start : Int))) :
    (rx_step q op).start < q.entries ∧ (rx_step q op).end_ < q.entries ∧
    (q.entries : Int) ∣ ((rx_step q op).pending : Int)
        - (((rx_step q op).end_ : Int) - ((rx_step q op).start : Int)) := by
  obtain ⟨k, hk⟩ := hc
  cases op with
  | complete u =>
    simp only [rx_step, mt7601u_complete_rx]
    split_ifs
    · exact ⟨hs, he, ⟨k, hk⟩⟩
    · refine ⟨hs, Nat.mod_lt _ hN, ⟨k + ((q.end_ : Int) + 1) / (q.entries : Int), ?_⟩⟩
      simp only [cast_succ_mod]
      push_cast
      linear_combination hk
  | drain =>
    simp only [rx_step, mt7601u_rx_get_pending_entry]
    by_cases h0 : q.pending = 0
    · rw [if_pos h0]
      exact ⟨hs, he, ⟨k, hk⟩⟩
    · rw [if_neg h0]
      refine ⟨Nat.mod_lt _ hN, he, ⟨k - ((q.start : Int) + 1) / (q.entries : Int), ?_⟩⟩
      simp only [cast_succ_mod]
      have hp : ((q.pending - 1 : Nat) : Int) = (q.pending : Int) - 1 := by omega
      rw [hp]
      linear_combination hk

theorem rx_run_keeps (n : Nat) (ops : List rx_op) (q : mt7601u_rx_queue) (hq : q.entries = n)
    (hN : 0 < n) (hs : q.start < n) (he : q.end_ < n)
    (hc : (n : Int) ∣ (q.pending : Int) - ((q.end_ : Int) - (q.start : Int))) :
    (rx_run q ops).entries = n ∧
    (rx_run q ops).start < n ∧ (rx_run q ops).end_ < n ∧
    (n : Int) ∣ ((rx_run q ops).pending : Int)
        - (((rx_run q ops).end_ : Int) - ((rx_run q ops).start : Int)) := by
  induction ops generalizing q with
  | nil => exact ⟨hq, hs, he, hc⟩
  | cons op ops ih =>
    subst hq
    have hstep := rx_step_keeps q op hN hs he hc
    exact ih (rx_step q op) (rx_step_entries q op) hstep.1 hstep.2.1 hstep.2.2

/-- Two ring indices that are congruent modulo the ring size are equal. -/
theorem ring_index_eq (n a b : Nat) (ha : a < n) (hb : b < n)
    (h : ((a : Int) - (b : Int)) % (n : Int) = 0) : a = b := by
  by_cases hab : b ≤ a
  · rw [Int.emod_eq_of_lt (by omega) (by omega)] at h
    omega
  · rw [← Int.add_emod_self, Int.emod_eq_of_lt (by omega) (by omega)] at h
    omega

set_option maxRecDepth 8000 in
/-- C4 fails as stated: from a freshly allocated ring of 16 buffers, the
completions of all 16 urbs before any drain leave `pending = 16` with
`end = start = 0`, so `(end - start) mod entries` is 0 and differs from
`pending`. -/
theorem rx_full_ring_breaks_equality :
    let q := rx_run (mt7601u_alloc_rx 16 sixteen_bufs) sixteen_completions
    q.pending = 16 ∧ q.start = 0 ∧ q.end_ = 0 ∧ q.entries = 16 ∧
    rx_ring_distance q = 0 ∧ (q.pending : Int) ≠ rx_ring_distance q := by
  decide

/-- C4 as amended: from a freshly allocated RX queue, after every sequence of
completions and drains, `start` and `end` are below `entries` and `pending` is
congruent to `end - start` modulo `entries`; so `pending = (end - start) mod
entries` whenever `pending < entries`, and a full ring (`pending = entries`) has
`end = start`. -/
theorem rx_pending_congruent (n : Nat) (bufs : List mt7601u_dma_buf) (ops : List rx_op)
    (hn : 0 < n) :
    let q := rx_run (mt7601u_alloc_rx n bufs) ops
    q.entries = n ∧ q.start < n ∧ q.end_ < n ∧
    (q.pending : Int) % (q.entries : Int) = rx_ring_distance q ∧
    (q.pending < q.entries → (q.pending : Int) = rx_ring_distance q) ∧
    (q.pending = q.entries → q.end_ = q.start ∧ rx_ring_distance q = 0) := by
  intro q
  have h : q.entries = n ∧ q.start < n ∧ q.end_ < n ∧
      (n : Int) ∣ (q.pending : Int) - ((q.end_ : Int) - (q.start : Int)) :=
    rx_run_keeps n ops (mt7601u_alloc_rx n bufs) rfl hn hn hn (by simp [mt7601u_alloc_rx])
  clear_value q
  obtain ⟨h1, h2, h3, h4⟩ := h
  have hmod : (q.pending : Int) % (q.entries : Int) = rx_ring_distance q := by
    rw [h1]
    unfold rx_ring_distance
    rw [h1]
    exact Int.emod_eq_emod_iff_emod_sub_eq_zero.mpr (Int.emod_eq_zero_of_dvd h4)
  refine ⟨h1, h2, h3, hmod, ?_, ?_⟩
  · intro hlt
    rw [← hmod]
    exact (Int.emod_eq_of_lt (by omega) (by omega)).symm
  · intro heq
    have h0 : rx_ring_distance q = 0 := by
      rw [← hmod, heq]
      exact Int.emod_self
    refine ⟨?_, h0⟩
    unfold rx_ring_distance at h0
    rw [h1] at h0
    exact ring_index_eq n q.end_ q.start h3 h2 h0

/-- Witness of C4 as amended: sixteen buffers, all sixteen urbs completed. -/
theorem rx_pending_congruent_witness :
    0 < 16 ∧
    (let q := rx_run (mt7601u_alloc_rx 16 sixteen_bufs) sixteen_completions
     q.entries = 16 ∧ q.start < 16 ∧ q.end_ < 16 ∧
     (q.pending : Int) % (q.entries : Int) = rx_ring_distance q ∧
     (q.pending < q.entries → (q.pending : Int) = rx_ring_distance q) ∧
     (q.pending = q.entries → q.end_ = q.start ∧ rx_ring_distance q = 0)) :=
  ⟨by decide, rx_pending_congruent 16 sixteen_bufs sixteen_completions (by decide)⟩

/-! ## TX queue (dma.c) -/

/-- What `usb_kick_out` does to the counters. -/
theorem usb_kick_out_counters (q : mt7601u_tx_queue) (state : dev_state) (skb : sk_buff)
    (dma : Nat) (dma_error : Bool) (submit_ret : Int) :
    let r := usb_kick_out q state skb dma dma_error submit_ret
    r.q.entries = q.entries ∧ r.q.start = q.start ∧
    ((r.ret ≠ 0 ∧ r.q.used = q.used ∧ r.q.end_ = q.end_) ∨
     (r.ret = 0 ∧ q.used < q.entries ∧ dma_error = false ∧ submit_ret = 0 ∧
      r.q.used = q.used + 1 ∧ r.q.end_ = (q.end_ + 1) % q.entries)) := by
  simp only [usb_kick_out]
  split_ifs <;> simp_all [ENOSPC]

/-- What `mt7601u_complete_tx` does to the counters. -/
theorem complete_tx_counters (q : mt7601u_tx_queue) (state : dev_state) (u : urb) :
    let r := mt7601u_complete_tx q state u
    r.q.entries = q.entries ∧ r.q.end_ = q.end_ ∧
    ((¬ tx_completion_accepted q u ∧ r.q = q) ∨
     (tx_completion_accepted q u ∧ r.q.used = q.used - 1 ∧
      r.q.start = (q.start + 1) % q.entries)) := by
  simp only [mt7601u_complete_tx, tx_completion_accepted]
  cases hslot : q.e[q.start]? with
  | none => simp
  | some slot =>
    simp only [Option.map_some', Option.some.injEq]
    split_ifs <;> simp_all

/-- The bounds on `used` are kept along a run in which the transport completes
only urbs in flight: no more urbs are in flight than `used` counts. -/
theorem tx_run_used_bounds (n : Nat) (ops : List tx_op) (in_flight : List Nat)
    (q : mt7601u_tx_queue) (state : dev_state) (hq : q.entries = n)
    (h0 : (in_flight.length : Int) ≤ q.used) (hle : q.used ≤ n)
    (hok : tx_transport_ok in_flight q state ops) :
    (tx_run q state ops).1.entries = n ∧ 0 ≤ (tx_run q state ops).1.used ∧
      (tx_run q state ops).1.used ≤ n := by
  induction ops generalizing q state in_flight with
  | nil =>
    have hnn : (0 : Int) ≤ (in_flight.length : Int) := Int.natCast_nonneg _
    exact ⟨hq, le_trans hnn h0, hle⟩
  | cons op ops ih =>
    cases op with
    | submit skb dma dma_error submit_ret =>
      have hc := usb_kick_out_counters q state skb dma dma_error submit_ret
      simp only [tx_run, tx_step]
      simp only [tx_transport_ok] at hok
      refine ih _ _ _ (by rw [hc.1, hq]) ?_ ?_ hok
      · rcases hc.2.2 with ⟨hr, hu, _⟩ | ⟨hr, _, _, _, hu, _⟩
        · rw [if_neg hr, hu]; exact h0
        · rw [if_pos hr, hu, List.length_cons]; push_cast; omega
      · have := hc.1; omega
    | complete u =>
      have hc := complete_tx_counters q state u
      simp only [tx_run, tx_step]
      simp only [tx_transport_ok] at hok
      obtain ⟨hmem, hrest⟩ := hok
      have hlen : ((in_flight.erase u.id).length : Int) = (in_flight.length : Int) - 1 := by
        rw [List.length_erase_of_mem hmem]
        have := List.length_pos_of_mem hmem
        omega
      refine ih _ _ _ (by rw [hc.1, hq]) ?_ ?_ hrest
      · rcases hc.2.2 with ⟨_, h⟩ | ⟨_, h, _⟩
        · rw [h]; omega
        · omega
      · rcases hc.2.2 with ⟨_, h⟩ | ⟨_, h, _⟩
        · rw [h]; exact hle
        · omega

/-- C5: starting from an empty TX queue, after every sequence of submissions
(whatever the mapping and transport outcomes) and completions (matching the
slot at `start` or not), `used <= entries` holds and `used` has not gone below 0.
The sequences are those the transport can produce: it completes only urbs that
it accepted and has not completed yet (`tx_transport_ok`, from nothing in
flight). -/
theorem tx_used_le_entries (n : Nat) (urbs : List Nat) (state : dev_state) (ops : List tx_op)
    (hok : tx_transport_ok [] (mt7601u_alloc_tx_queue n urbs) state ops) :
    let q := (tx_run (mt7601u_alloc_tx_queue n urbs) state ops).1
    q.entries = n ∧ 0 ≤ q.used ∧ q.used ≤ q.entries := by
  intro q
  have h := tx_run_used_bounds n ops [] (mt7601u_alloc_tx_queue n urbs) state rfl
    (by simp [mt7601u_alloc_tx_queue]) (by simp [mt7601u_alloc_tx_queue]) hok
  exact ⟨h.1, h.2.1, by rw [h.1]; exact h.2.2⟩

/-- C6: for every TX queue state with `used <= entries`, `usb_kick_out` signals
pause exactly when the submission succeeds and leaves `used = entries`, and never
signals resume; `mt7601u_complete_tx` signals resume exactly when the completion
is accepted and takes the queue from `used = entries` to `used < entries`, and
never signals pause; failed submissions and mismatched completions signal
nothing. -/
theorem tx_flow_control_signals (q : mt7601u_tx_queue) (state : dev_state) (skb : sk_buff)
    (dma : Nat) (dma_error : Bool) (submit_ret : Int) (u : urb)
    (h : q.used ≤ q.entries) :
    let r := usb_kick_out q state skb dma dma_error submit_ret
    let c := mt7601u_complete_tx q state u
    (pauses r.events = if r.ret = 0 ∧ r.q.used = r.q.entries then 1 else 0) ∧
    resumes r.events = 0 ∧
    (r.ret ≠ 0 → pauses r.events = 0 ∧ resumes r.events = 0) ∧
    (resumes c.events =
      if tx_completion_accepted q u ∧ q.used = q.entries ∧ c.q.used < c.q.entries
      then 1 else 0) ∧
    pauses c.events = 0 ∧
    (¬ tx_completion_accepted q u → pauses c.events = 0 ∧ resumes c.events = 0) := by
  have hk : (pauses (usb_kick_out q state skb dma dma_error submit_ret).events =
        if (usb_kick_out q state skb dma dma_error submit_ret).ret = 0 ∧
           (usb_kick_out q state skb dma dma_error submit_ret).q.used =
             (usb_kick_out q state skb dma dma_error submit_ret).q.entries then 1 else 0) ∧
      resumes (usb_kick_out q state skb dma dma_error submit_ret).events = 0 := by
    simp only [usb_kick_out]
    split_ifs <;> simp_all [pauses, resumes, ENOSPC]
    omega
  have hcpl : (resumes (mt7601u_complete_tx q state u).events =
        if tx_completion_accepted q u ∧ q.used = q.entries ∧
           (mt7601u_complete_tx q state u).q.used < (mt7601u_complete_tx q state u).q.entries
        then 1 else 0) ∧
      pauses (mt7601u_complete_tx q state u).events = 0 := by
    simp only [mt7601u_complete_tx, tx_completion_accepted]
    cases hslot : q.e[q.start]? with
    | none => simp [pauses, resumes]
    | some slot =>
      simp only [Option.map_some', Option.some.injEq]
      split_ifs <;> simp_all [pauses, resumes] <;> omega
  intro r c
  refine ⟨hk.1, hk.2, ?_, hcpl.1, hcpl.2, ?_⟩
  · intro hret
    have h1 := hk.1
    rw [if_neg (fun hh => hret hh.1)] at h1
    exact ⟨h1, hk.2⟩
  · intro hacc
    have h1 := hcpl.1
    rw [if_neg (fun hh => hacc hh.1)] at h1
    exact ⟨hcpl.2, h1⟩

/-- C8: when `used >= entries`, `usb_kick_out` returns `-ENOSPC` (-28) and leaves
the queue (start, end, used and every slot) and the device bits unchanged; its
only event is the warning, so nothing is mapped or submitted and no flow-control
signal is sent. -/
theorem usb_kick_out_full (q : mt7601u_tx_queue) (state : dev_state) (skb : sk_buff)
    (dma : Nat) (dma_error : Bool) (submit_ret : Int) (h : (q.entries : Int) ≤ q.used) :
    let r := usb_kick_out q state skb dma dma_error submit_ret
    r.ret = -28 ∧ r.q = q ∧ r.state = state ∧ r.events = [tx_event.warn_queue_full] ∧
    pauses r.events = 0 ∧ resumes r.events = 0 := by
  simp [usb_kick_out, h, ENOSPC, pauses, resumes]


theorem tx_trace_append (a b : List tx_op) (q : mt7601u_tx_queue) (state : dev_state) :
    tx_trace q state (a ++ b) =
      tx_trace q state a ++ tx_trace (tx_run q state a).1 (tx_run q state a).2 b := by
  induction a generalizing q state with
  | nil => rfl
  | cons op a ih => simp [tx_trace, tx_run, ih]

/-- A submission that is mapped and accepted by the transport, on a queue that
is not full. -/
theorem usb_kick_out_accepted (q : mt7601u_tx_queue) (state : dev_state) (skb : sk_buff)
    (dma : Nat) (hlt : q.used < q.entries) :
    usb_kick_out q state skb dma false 0 =
      { q := { q with
                e := (match q.e[q.end_]? with
                      | some slot => q.e.set q.end_ { slot with skb := skb, dma := dma }
                      | none => q.e)
                end_ := (q.end_ + 1) % q.entries
                used := q.used + 1 }
        state := state
        ret := 0
        events := [tx_event.dma_map skb,
                   tx_event.submit_urb (((q.e[q.end_]?).map (fun slot => slot.urb)).getD 0) skb dma]
                  ++ (if (q.entries : Int) ≤ q.used + 1
                      then [tx_event.stop_queue skb.queue_mapping] else []) } := by
  simp [usb_kick_out, not_le.mpr hlt]

/-- The first `k` accepted submissions on a queue holding `j` frames, `j + k`
not above the capacity. -/
theorem tx_submits_fill (n : Nat) (skb : Nat → sk_buff) (dma : Nat → Nat) (u0 : Nat) (k : Nat) :
    ∀ (j : Nat) (q : mt7601u_tx_queue) (state : dev_state),
      q.entries = n → q.start = 0 → q.end_ = j % n → q.used = (j : Int) → j + k ≤ n →
      (q.e[0]?).map (fun slot => slot.urb) = some u0 →
      (0 < j → q.e[0]? = some { urb := u0, skb := skb 0, dma := dma 0 }) →
      (tx_trace q state (tx_submits skb dma j k)).map tx_sig =
          (if 0 < k ∧ j + k = n then List.replicate (k - 1) (0, 0, 0) ++ [(0, 1, 0)]
           else List.replicate k (0, 0, 0)) ∧
      (tx_run q state (tx_submits skb dma j k)).2 = state ∧
      (tx_run q state (tx_submits skb dma j k)).1.entries = n ∧
      (tx_run q state (tx_submits skb dma j k)).1.start = 0 ∧
      (tx_run q state (tx_submits skb dma j k)).1.end_ = (j + k) % n ∧
      (tx_run q state (tx_submits skb dma j k)).1.used = ((j + k : Nat) : Int) ∧
      ((tx_run q state (tx_submits skb dma j k)).1.e[0]?).map (fun slot => slot.urb) = some u0 ∧
      (0 < j + k →
        (tx_run q state (tx_submits skb dma j k)).1.e[0]?
          = some { urb := u0, skb := skb 0, dma := dma 0 }) := by
  induction k with
  | zero =>
    intro j q state hn hs he hu hjk h0 h1
    exact ⟨by simp [tx_submits, tx_trace], rfl, hn, hs, by simpa using he, by simpa using hu,
      h0, by simpa using h1⟩
  | succ k ih =>
    intro j q state hn hs he hu hjk h0 h1
    have hjn : j < n := by omega
    have hlt : q.used < q.entries := by rw [hu, hn]; omega
    have hej : q.end_ = j := by rw [he, Nat.mod_eq_of_lt hjn]
    simp only [tx_submits, tx_trace, tx_run, tx_step, List.map_cons]
    rw [usb_kick_out_accepted q state (skb j) (dma j) hlt]
    simp only
    obtain ⟨slot0, hslot0, hurb0⟩ : ∃ s, q.e[0]? = some s ∧ s.urb = u0 := by
      cases hq0 : q.e[0]? with
      | none => rw [hq0] at h0; simp at h0
      | some s => rw [hq0] at h0; exact ⟨s, rfl, by simpa using h0⟩
    have hk := ih (j + 1)
      { q with
          e := (match q.e[q.end_]? with
                | some slot => q.e.set q.end_ { slot with skb := skb j, dma := dma j }
                | none => q.e)
          end_ := (q.end_ + 1) % q.entries
          used := q.used + 1 }
      state hn hs (by simp only [hej, hn]) (by simp only [hu]; push_cast; ring) (by omega)
      (by
        simp only
        cases hqe : q.e[q.end_]? with
        | none => simpa using h0
        | some slot =>
          simp only
          by_cases hz : q.end_ = 0
          · rw [hz] at hqe
            rw [hz, List.getElem?_set_self (by
              have := List.getElem?_eq_some.mp hqe
              obtain ⟨hl, _⟩ := this
              exact hl)]
            rw [hslot0] at hqe
            cases hqe
            simpa using hurb0
          · rw [List.getElem?_set_ne hz]
            exact h0)
      (by
        intro _
        simp only
        cases hqe : q.e[q.end_]? with
        | none =>
          simp only
          by_cases hj0 : j = 0
          · rw [hej, hj0, hslot0] at hqe
            cases hqe
          · exact h1 (by omega)
        | some slot =>
          simp only
          by_cases hj0 : j = 0
          · subst hj0
            rw [hej] at hqe ⊢
            rw [List.getElem?_set_self (by
              have := List.getElem?_eq_some.mp hqe
              obtain ⟨hl, _⟩ := this
              exact hl)]
            rw [hslot0] at hqe
            cases hqe
            rw [← hurb0]
          · rw [List.getElem?_set_ne (by omega)]
            exact h1 (by omega))
    obtain ⟨hk1, hk2, hk3, hk4, hk5, hk6, hk7, hk8⟩ := hk
    refine ⟨?_, hk2, hk3, hk4, ?_, ?_, hk7, fun _ => hk8 (by omega)⟩
    · rw [hk1]
      simp only [tx_sig, hn, hu]
      by_cases hfull : j + (k + 1) = n
      · have hfull2 : j + 1 + k = n := by omega
        cases k with
        | zero =>
          have hle : (n : Int) ≤ (j : Int) + 1 := by omega
          simp [pauses, resumes, hle, hfull]
        | succ k1 =>
          have hne : ¬ ((n : Int) ≤ (j : Int) + 1) := by omega
          simp [pauses, resumes, hne, hfull, hfull2, List.replicate_succ]
      · have hfull2 : ¬ (j + 1 + k = n) := by omega
        have hne : ¬ ((n : Int) ≤ (j : Int) + 1) := by omega
        simp [pauses, resumes, hne, hfull, hfull2, List.replicate_succ]
    · rw [hk5]; congr 1; omega
    · rw [hk6]; congr 1; omega


theorem tx_run_append (a b : List tx_op) (q : mt7601u_tx_queue) (state : dev_state) :
    tx_run q state (a ++ b) = tx_run (tx_run q state a).1 (tx_run q state a).2 b := by
  induction a generalizing q state with
  | nil => rfl
  | cons op a ih => simp [tx_run, ih]

theorem tx_trace_length (ops : List tx_op) (q : mt7601u_tx_queue) (state : dev_state) :
    (tx_trace q state ops).length = ops.length := by
  induction ops generalizing q state with
  | nil => rfl
  | cons op ops ih => simp [tx_trace, ih]

theorem tx_submits_length (skb : Nat → sk_buff) (dma : Nat → Nat) (k j : Nat) :
    (tx_submits skb dma j k).length = k := by
  induction k generalizing j with
  | zero => rfl
  | succ k ih => simp [tx_submits, ih]

/-- An accepted completion: the signals, the frame reported and the counters. -/
theorem complete_tx_accepted (q : mt7601u_tx_queue) (state : dev_state) (u : urb)
    (slot : tx_entry) (hslot : q.e[q.start]? = some slot) (hurb : slot.urb = u.id) :
    tx_sig (mt7601u_complete_tx q state u)
        = (0, 0, if (q.entries : Int) ≤ q.used then 1 else 0) ∧
    tx_event.tx_status slot.skb ∈ (mt7601u_complete_tx q state u).events ∧
    (mt7601u_complete_tx q state u).q.entries = q.entries ∧
    (mt7601u_complete_tx q state u).q.used = q.used - 1 := by
  simp only [mt7601u_complete_tx, hslot, tx_sig]
  split_ifs <;> simp_all [pauses, resumes]

/-- Signals and counters of a mapped and accepted submission. -/
theorem usb_kick_out_accepted_sig (q : mt7601u_tx_queue) (state : dev_state) (skb : sk_buff)
    (dma : Nat) (hlt : q.used < q.entries) :
    tx_sig (usb_kick_out q state skb dma false 0)
        = (0, if (q.entries : Int) ≤ q.used + 1 then 1 else 0, 0) ∧
    (usb_kick_out q state skb dma false 0).q.entries = q.entries ∧
    (usb_kick_out q state skb dma false 0).q.used = q.used + 1 := by
  rw [usb_kick_out_accepted q state skb dma hlt]
  simp only [tx_sig]
  split_ifs <;> simp [pauses, resumes]

/-- Signals and queue of a submission to a full queue. -/
theorem kick_out_on_full_sig (q : mt7601u_tx_queue) (state : dev_state) (skb : sk_buff)
    (dma : Nat) (dma_error : Bool) (submit_ret : Int) (h : (q.entries : Int) ≤ q.used) :
    tx_sig (usb_kick_out q state skb dma dma_error submit_ret) = (-28, 0, 0) ∧
    (usb_kick_out q state skb dma dma_error submit_ret).q = q := by
  simp [usb_kick_out, h, ENOSPC, pauses, resumes, tx_sig]

/-- C7: from an empty TX queue of capacity `n` with a transport that accepts
every transfer, `n` submissions all return 0 and only the `n`-th signals pause
(once); completing the urb of slot 0 then reports the oldest frame `skb 0` and
signals resume once; the next submission returns 0 and signals pause again, and
the one after that is rejected with `-ENOSPC` (-28) and no signal, leaving
`used = n`. -/
theorem tx_fill_complete_refill (n : Nat) (urbs : List Nat) (state : dev_state)
    (skb : Nat → sk_buff) (dma : Nat → Nat) (status : Int) (actual_length : Nat)
    (hn : 0 < n) (hlen : urbs.length = n) :
    let q0 := mt7601u_alloc_tx_queue n urbs
    let u0 : urb := { id := urbs.headD 0, status := status, actual_length := actual_length }
    let ops := tx_submits skb dma 0 n ++ tx_op.complete u0 :: tx_submits skb dma n 2
    (tx_trace q0 state ops).map tx_sig =
      List.replicate (n - 1) (0, 0, 0) ++ [(0, 1, 0), (0, 0, 1), (0, 1, 0), (-28, 0, 0)] ∧
    (∀ r, (tx_trace q0 state ops)[n]? = some r → tx_event.tx_status (skb 0) ∈ r.events) ∧
    (tx_run q0 state ops).1.used = (n : Int) := by
  intro q0 u0 ops
  obtain ⟨a, rest, hurbs⟩ : ∃ a rest, urbs = a :: rest := by
    cases urbs with
    | nil => simp at hlen; omega
    | cons a rest => exact ⟨a, rest, rfl⟩
  have hq0 : (q0.e[0]?).map (fun slot => slot.urb) = some u0.id := by
    simp [q0, u0, mt7601u_alloc_tx_queue, hurbs]
  have hfill := tx_submits_fill n skb dma u0.id n 0 q0 state rfl rfl (by simp [q0, mt7601u_alloc_tx_queue])
    (by simp [q0, mt7601u_alloc_tx_queue]) (by omega) hq0 (by omega)
  simp only [Nat.zero_add] at hfill
  obtain ⟨f1, f2, f3, f4, f5, f6, f7, f8⟩ := hfill
  rw [if_pos ⟨hn, trivial⟩] at f1
  have hc := complete_tx_accepted (tx_run q0 state (tx_submits skb dma 0 n)).1 state u0
    { urb := u0.id, skb := skb 0, dma := dma 0 } (by rw [f4]; exact f8 hn) rfl
  rw [f3, f6, if_pos (le_refl _)] at hc
  obtain ⟨c1, c2, c3, c4⟩ := hc
  have hk := usb_kick_out_accepted_sig
    (mt7601u_complete_tx (tx_run q0 state (tx_submits skb dma 0 n)).1 state u0).q
    (mt7601u_complete_tx (tx_run q0 state (tx_submits skb dma 0 n)).1 state u0).state
    (skb n) (dma n) (by rw [c3, c4]; omega)
  rw [c3, c4, if_pos (by omega)] at hk
  obtain ⟨k1, k2, k3⟩ := hk
  have hfull := kick_out_on_full_sig
    (usb_kick_out
      (mt7601u_complete_tx (tx_run q0 state (tx_submits skb dma 0 n)).1 state u0).q
      (mt7601u_complete_tx (tx_run q0 state (tx_submits skb dma 0 n)).1 state u0).state
      (skb n) (dma n) false 0).q
    (usb_kick_out
      (mt7601u_complete_tx (tx_run q0 state (tx_submits skb dma 0 n)).1 state u0).q
      (mt7601u_complete_tx (tx_run q0 state (tx_submits skb dma 0 n)).1 state u0).state
      (skb n) (dma n) false 0).state
    (skb (n + 1)) (dma (n + 1)) false 0 (by rw [k2, k3]; omega)
  have htrace : tx_trace q0 state ops =
      tx_trace q0 state (tx_submits skb dma 0 n) ++
        [mt7601u_complete_tx (tx_run q0 state (tx_submits skb dma 0 n)).1 state u0,
         usb_kick_out
          (mt7601u_complete_tx (tx_run q0 state (tx_submits skb dma 0 n)).1 state u0).q
          (mt7601u_complete_tx (tx_run q0 state (tx_submits skb dma 0 n)).1 state u0).state
          (skb n) (dma n) false 0,
         usb_kick_out
          (usb_kick_out
            (mt7601u_complete_tx (tx_run q0 state (tx_submits skb dma 0 n)).1 state u0).q
            (mt7601u_complete_tx (tx_run q0 state (tx_submits skb dma 0 n)).1 state u0).state
            (skb n) (dma n) false 0).q
          (usb_kick_out
            (mt7601u_complete_tx (tx_run q0 state (tx_submits skb dma 0 n)).1 state u0).q
            (mt7601u_complete_tx (tx_run q0 state (tx_submits skb dma 0 n)).1 state u0).state
            (skb n) (dma n) false 0).state
          (skb (n + 1)) (dma (n + 1)) false 0] := by
    simp only [ops, tx_trace_append, f2, tx_trace, tx_submits, tx_step]
  refine ⟨?_, ?_, ?_⟩
  · rw [htrace, List.map_append, f1]
    simp only [List.map_cons, List.map_nil, c1, k1, hfull.1, List.append_assoc,
      List.singleton_append]
  · intro r hr
    rw [htrace, List.getElem?_append_right (by rw [tx_trace_length, tx_submits_length]),
      tx_trace_length, tx_submits_length, Nat.sub_self] at hr
    simp only [List.getElem?_cons_zero, Option.some.injEq] at hr
    rw [← hr]
    exact c2
  · simp only [ops, tx_run_append, f2, tx_run, tx_submits, tx_step]
    rw [hfull.2, k3]
    omega


/-! ## RX segmentation (dma.c) -/

theorem get_unaligned_le16_lt (data : List Nat) : get_unaligned_le16 data < 65536 := by
  unfold get_unaligned_le16
  omega

theorem and_three_eq_mod (x : Nat) : x &&& 0x3 = x % 4 :=
  Nat.and_pow_two_sub_one_eq_mod x 2

/-- The value of `mt7601u_rx_next_seg_len` as its `u16` return type holds it. -/
theorem rx_next_seg_u16 (c : dma_consts) (data : List Nat) (data_len : Nat) :
    mt7601u_rx_next_seg_len c data data_len =
      (if min_seg_len c ≤ data_len ∧ get_unaligned_le16 data ≠ 0 ∧
          get_unaligned_le16 data % 4 = 0 ∧
          get_unaligned_le16 data + c.MT_DMA_HDRS ≤ data_len
        then (get_unaligned_le16 data + c.MT_DMA_HDRS) % 65536 else 0) := by
  simp only [mt7601u_rx_next_seg_len, rx_next_seg, and_three_eq_mod, nat_to_u16]
  split_ifs <;> simp_all <;> omega

/-- C9: for the lengths a receive buffer can have (below 64 KiB), with `L` the
little-endian 16-bit length at the start of `data`, `mt7601u_rx_next_seg_len`
returns `L + MT_DMA_HDRS` exactly when `data_len >= min_seg_len`, `L != 0`, `L` is a
multiple of 4 and `L + MT_DMA_HDRS <= data_len`; in every other case it returns
0. -/
theorem rx_next_seg_len_value (c : dma_consts) (data : List Nat) (data_len : Nat)
    (hlen : data_len < 65536) :
    let L := get_unaligned_le16 data
    let ok := min_seg_len c ≤ data_len ∧ L ≠ 0 ∧ L % 4 = 0 ∧ L + c.MT_DMA_HDRS ≤ data_len
    L = data.getD 0 0 % 256 + 256 * (data.getD 1 0 % 256) ∧
    mt7601u_rx_next_seg_len c data data_len = (if ok then L + c.MT_DMA_HDRS else 0) ∧
    (ok → mt7601u_rx_next_seg_len c data data_len = L + c.MT_DMA_HDRS) ∧
    (¬ ok → mt7601u_rx_next_seg_len c data data_len = 0) := by
  intro L ok
  have hval : mt7601u_rx_next_seg_len c data data_len =
      (if ok then L + c.MT_DMA_HDRS else 0) := by
    rw [rx_next_seg_u16]
    by_cases hok : ok
    · rw [if_pos hok, if_pos hok]
      exact Nat.mod_eq_of_lt (by have := hok.2.2.2; omega)
    · rw [if_neg hok, if_neg hok]
  refine ⟨rfl, hval, fun hok => ?_, fun hok => ?_⟩
  · rw [hval, if_pos hok]
  · rw [hval, if_neg hok]

theorem get_unaligned_le16_drop (buf : List Nat) (off : Nat) :
    get_unaligned_le16 (buf.drop off)
      = buf.getD off 0 % 256 + 256 * (buf.getD (off + 1) 0 % 256) := by
  simp [get_unaligned_le16, List.getD_eq_getElem?_getD, List.getElem?_drop]

/-- A well-formed header: the segment length is the declared length plus the
DMA headers, and nothing is logged. -/
theorem rx_next_seg_wellformed (c : dma_consts) (data : List Nat) (data_len L : Nat)
    (hL : get_unaligned_le16 data = L) (hmin : min_seg_len c ≤ data_len) (h0 : L ≠ 0)
    (h4 : L % 4 = 0) (hfit : L + c.MT_DMA_HDRS ≤ data_len) (hsmall : L + c.MT_DMA_HDRS < 65536) :
    rx_next_seg c data data_len = (L + c.MT_DMA_HDRS, []) := by
  simp only [rx_next_seg, and_three_eq_mod, nat_to_u16, hL]
  rw [if_neg (by omega), if_neg h0, if_neg (by omega), if_neg (by omega)]
  rw [Nat.mod_eq_of_lt (by omega), Nat.add_comm]

/-- Fewer bytes left than a minimal segment: the loop ends, nothing is logged. -/
theorem rx_next_seg_short (c : dma_consts) (data : List Nat) (data_len : Nat)
    (h : data_len < min_seg_len c) : rx_next_seg c data data_len = (0, []) := by
  simp [rx_next_seg, h]

/-- C10: for a received buffer of `(64 + MT_DMA_HDRS) + (40 + MT_DMA_HDRS)`
bytes whose two headers declare lengths 64 and 40, the loop of
`mt7601u_rx_process_entry` processes exactly two segments, at offset 0 with length
`64 + MT_DMA_HDRS` and at offset `64 + MT_DMA_HDRS` with length
`40 + MT_DMA_HDRS`, then stops; no warning is among the events.  The header sizes
are parameters with `0 < min_seg_len <= 40 + MT_DMA_HDRS`. -/
theorem rx_two_segments (c : dma_consts) (state : dev_state) (buf : List Nat)
    (id : Nat) (status : Int)
    (hinit : state.initialized = true)
    (hmin0 : 0 < min_seg_len c) (hmin : min_seg_len c ≤ 40 + c.MT_DMA_HDRS)
    (hsmall : 64 + c.MT_DMA_HDRS < 65536)
    (hb0 : buf.getD 0 0 % 256 = 64) (hb1 : buf.getD 1 0 % 256 = 0)
    (hb2 : buf.getD (64 + c.MT_DMA_HDRS) 0 % 256 = 40)
    (hb3 : buf.getD (64 + c.MT_DMA_HDRS + 1) 0 % 256 = 0) :
    mt7601u_rx_process_entry c state
        { urb := { id := id, status := status,
                   actual_length := (64 + c.MT_DMA_HDRS) + (40 + c.MT_DMA_HDRS) },
          buf := buf }
      = [rx_event.process_seg 0 (64 + c.MT_DMA_HDRS),
         rx_event.process_seg (64 + c.MT_DMA_HDRS) (40 + c.MT_DMA_HDRS),
         rx_event.trace_rx_dma_aggr 2] := by
  have s1 : rx_next_seg c (buf.drop 0) ((64 + c.MT_DMA_HDRS) + (40 + c.MT_DMA_HDRS))
      = (64 + c.MT_DMA_HDRS, []) :=
    rx_next_seg_wellformed c _ _ 64
      (by rw [get_unaligned_le16_drop, Nat.zero_add, hb0, hb1])
      (by omega) (by decide) (by decide) (by omega) hsmall
  have s2 : rx_next_seg c (buf.drop (64 + c.MT_DMA_HDRS)) (40 + c.MT_DMA_HDRS)
      = (40 + c.MT_DMA_HDRS, []) :=
    rx_next_seg_wellformed c _ _ 40 (by rw [get_unaligned_le16_drop, hb2, hb3])
      hmin (by decide) (by decide) (by omega) (by omega)
  have s3 : rx_next_seg c (buf.drop (64 + c.MT_DMA_HDRS + (40 + c.MT_DMA_HDRS))) 0 = (0, []) :=
    rx_next_seg_short c _ 0 hmin0
  have l1 : to_u32 ((((64 + c.MT_DMA_HDRS) + (40 + c.MT_DMA_HDRS) : Nat) : Int)
      - ((64 + c.MT_DMA_HDRS : Nat) : Int)) = 40 + c.MT_DMA_HDRS := by
    unfold to_u32; omega
  have l2 : to_u32 (((40 + c.MT_DMA_HDRS : Nat) : Int) - ((40 + c.MT_DMA_HDRS : Nat) : Int)) = 0 := by
    unfold to_u32; omega
  have hloop : rx_process_loop c buf 0 ((64 + c.MT_DMA_HDRS) + (40 + c.MT_DMA_HDRS)) 0
      = ([rx_event.process_seg 0 (64 + c.MT_DMA_HDRS),
          rx_event.process_seg (64 + c.MT_DMA_HDRS) (40 + c.MT_DMA_HDRS)], 2) := by
    rw [rx_process_loop]
    simp only [s1]
    rw [dif_neg (by omega), l1, rx_process_loop]
    simp only [Nat.zero_add, s2]
    rw [dif_neg (by omega), l2, rx_process_loop]
    simp only [s3]
    simp
  simp only [mt7601u_rx_process_entry, hinit, hloop]
  simp


/-! ## Witnesses -/

/-- Witness of C5: a queue of two slots with urbs 10 and 11; two accepted
submissions, one failed mapping, the completion of urb 11 (not the oldest, so
mismatched) and the completion of urb 10 (accepted). -/
theorem tx_used_le_entries_witness :
    tx_transport_ok [] (mt7601u_alloc_tx_queue 2 [10, 11])
      { initialized := true, removed := false, more_stats := false, reading_stats := false }
      [tx_op.submit { id := 1, len := 100, queue_mapping := 2 } 4096 false 0,
       tx_op.submit { id := 2, len := 100, queue_mapping := 2 } 8192 false 0,
       tx_op.submit { id := 3, len := 100, queue_mapping := 2 } 12288 true 0,
       tx_op.complete { id := 11, status := 0, actual_length := 0 },
       tx_op.complete { id := 10, status := 0, actual_length := 100 }] ∧
    (let q := (tx_run (mt7601u_alloc_tx_queue 2 [10, 11])
        { initialized := true, removed := false, more_stats := false, reading_stats := false }
        [tx_op.submit { id := 1, len := 100, queue_mapping := 2 } 4096 false 0,
         tx_op.submit { id := 2, len := 100, queue_mapping := 2 } 8192 false 0,
         tx_op.submit { id := 3, len := 100, queue_mapping := 2 } 12288 true 0,
         tx_op.complete { id := 11, status := 0, actual_length := 0 },
         tx_op.complete { id := 10, status := 0, actual_length := 100 }]).1
     q.entries = 2 ∧ 0 ≤ q.used ∧ q.used ≤ q.entries) :=
  ⟨by simp only [tx_transport_ok]; decide,
   tx_used_le_entries 2 [10, 11] _ _ (by simp only [tx_transport_ok]; decide)⟩

/-- Witness of C6: an empty queue of one slot, which one submission fills. -/
theorem tx_flow_control_signals_witness :
    (mt7601u_alloc_tx_queue 1 [10]).used ≤ ((mt7601u_alloc_tx_queue 1 [10]).entries : Int) ∧
    (let q := mt7601u_alloc_tx_queue 1 [10]
     let state : dev_state :=
       { initialized := true, removed := false, more_stats := false, reading_stats := false }
     let skb : sk_buff := { id := 1, len := 100, queue_mapping := 2 }
     let u : urb := { id := 10, status := 0, actual_length := 100 }
     let r := usb_kick_out q state skb 4096 false 0
     let c := mt7601u_complete_tx q state u
     (pauses r.events = if r.ret = 0 ∧ r.q.used = r.q.entries then 1 else 0) ∧
     resumes r.events = 0 ∧
     (r.ret ≠ 0 → pauses r.events = 0 ∧ resumes r.events = 0) ∧
     (resumes c.events =
       if tx_completion_accepted q u ∧ q.used = q.entries ∧ c.q.used < c.q.entries
       then 1 else 0) ∧
     pauses c.events = 0 ∧
     (¬ tx_completion_accepted q u → pauses c.events = 0 ∧ resumes c.events = 0)) :=
  ⟨by decide,
   tx_flow_control_signals (mt7601u_alloc_tx_queue 1 [10])
     { initialized := true, removed := false, more_stats := false, reading_stats := false }
     { id := 1, len := 100, queue_mapping := 2 } 4096 false 0
     { id := 10, status := 0, actual_length := 100 } (by decide)⟩

/-- Witness of C8: a full queue of one slot. -/
theorem usb_kick_out_full_witness :
    (let q : mt7601u_tx_queue :=
       { e := [{ urb := 10, skb := { id := 1, len := 100, queue_mapping := 2 }, dma := 4096 }],
         start := 0, end_ := 0, entries := 1, used := 1 }
     (q.entries : Int) ≤ q.used ∧
     (let state : dev_state :=
        { initialized := true, removed := false, more_stats := false, reading_stats := false }
      let r := usb_kick_out q state { id := 2, len := 60, queue_mapping := 2 } 8192 false 0
      r.ret = -28 ∧ r.q = q ∧ r.state = state ∧ r.events = [tx_event.warn_queue_full] ∧
      pauses r.events = 0 ∧ resumes r.events = 0)) :=
  ⟨by decide,
   usb_kick_out_full
     { e := [{ urb := 10, skb := { id := 1, len := 100, queue_mapping := 2 }, dma := 4096 }],
       start := 0, end_ := 0, entries := 1, used := 1 }
     { initialized := true, removed := false, more_stats := false, reading_stats := false }
     { id := 2, len := 60, queue_mapping := 2 } 8192 false 0 (by decide)⟩

/-- Witness of C7: capacity 2, urbs 10 and 11, frames of length 100 on mac80211
queue 2. -/
theorem tx_fill_complete_refill_witness :
    0 < 2 ∧ [10, 11].length = 2 ∧
    (let skb : Nat → sk_buff := fun i => { id := i + 1, len := 100, queue_mapping := 2 }
     let dma : Nat → Nat := fun i => 4096 * (i + 1)
     let state : dev_state :=
       { initialized := true, removed := false, more_stats := false, reading_stats := false }
     let q0 := mt7601u_alloc_tx_queue 2 [10, 11]
     let u0 : urb := { id := [10, 11].headD 0, status := 0, actual_length := 100 }
     let ops := tx_submits skb dma 0 2 ++ tx_op.complete u0 :: tx_submits skb dma 2 2
     (tx_trace q0 state ops).map tx_sig =
       List.replicate (2 - 1) (0, 0, 0) ++ [(0, 1, 0), (0, 0, 1), (0, 1, 0), (-28, 0, 0)] ∧
     (∀ r, (tx_trace q0 state ops)[2]? = some r → tx_event.tx_status (skb 0) ∈ r.events) ∧
     (tx_run q0 state ops).1.used = ((2 : Nat) : Int)) :=
  ⟨by decide, by decide,
   tx_fill_complete_refill 2 [10, 11]
     { initialized := true, removed := false, more_stats := false, reading_stats := false }
     (fun i => { id := i + 1, len := 100, queue_mapping := 2 }) (fun i => 4096 * (i + 1))
     0 100 (by decide) (by decide)⟩


/-- Witness of C10: the buffer `two_segment_buf` received on an initialised
device, with the mainline header sizes. -/
theorem rx_two_segments_witness :
    mt7601u_rx_process_entry mainline_consts
        { initialized := true, removed := false, more_stats := false, reading_stats := false }
        { urb := { id := 1, status := 0,
                   actual_length := (64 + mainline_consts.MT_DMA_HDRS)
                     + (40 + mainline_consts.MT_DMA_HDRS) },
          buf := two_segment_buf }
      = [rx_event.process_seg 0 (64 + mainline_consts.MT_DMA_HDRS),
         rx_event.process_seg (64 + mainline_consts.MT_DMA_HDRS)
           (40 + mainline_consts.MT_DMA_HDRS),
         rx_event.trace_rx_dma_aggr 2] :=
  rx_two_segments mainline_consts
    { initialized := true, removed := false, more_stats := false, reading_stats := false }
    two_segment_buf 1 0 rfl (by decide) (by decide) (by decide) (by decide) (by decide)
    (by decide) (by decide)

/-- Witness of C9: the first header of `two_segment_buf`, 120 bytes received,
with the mainline header sizes. -/
theorem rx_next_seg_len_value_witness :
    (120 : Nat) < 65536 ∧
    (let L := get_unaligned_le16 two_segment_buf
     let ok := min_seg_len mainline_consts ≤ 120 ∧ L ≠ 0 ∧ L % 4 = 0 ∧
       L + mainline_consts.MT_DMA_HDRS ≤ 120
     L = two_segment_buf.getD 0 0 % 256 + 256 * (two_segment_buf.getD 1 0 % 256) ∧
     mt7601u_rx_next_seg_len mainline_consts two_segment_buf 120 =
       (if ok then L + mainline_consts.MT_DMA_HDRS else 0) ∧
     (ok → mt7601u_rx_next_seg_len mainline_consts two_segment_buf 120 =
       L + mainline_consts.MT_DMA_HDRS) ∧
     (¬ ok → mt7601u_rx_next_seg_len mainline_consts two_segment_buf 120 = 0)) :=
  ⟨by decide, rx_next_seg_len_value mainline_consts two_segment_buf 120 (by decide)⟩

/-! ## RX tasklet (dma.c) -/

/-- A header that declares more than was received: one warning, no segment. -/
theorem rx_next_seg_overrun (c : dma_consts) (data : List Nat) (data_len : Nat)
    (hmin : min_seg_len c ≤ data_len)
    (hover : get_unaligned_le16 data + c.MT_DMA_HDRS > data_len) :
    rx_next_seg c data data_len
      = (0, [if get_unaligned_le16 data = 0 then rx_event.warn_zero_len
             else rx_event.warn_seg_overrun]) := by
  simp only [rx_next_seg]
  rw [if_neg (by omega)]
  by_cases h0 : get_unaligned_le16 data = 0
  · rw [if_pos h0, if_pos h0]
  · rw [if_neg h0, if_neg h0, if_pos hover]

/-- The events of draining a successfully completed buffer whose first header
declares more than was received, on an initialised device. -/
theorem rx_overrun_entry_events (c : dma_consts) (state : dev_state) (slot : Nat)
    (e : mt7601u_dma_buf) (hinit : state.initialized = true) (hst : e.urb.status = 0)
    (hmin : min_seg_len c ≤ e.urb.actual_length)
    (hover : get_unaligned_le16 e.buf + c.MT_DMA_HDRS > e.urb.actual_length) :
    rx_tasklet_entry c state slot e
      = [if get_unaligned_le16 e.buf = 0 then rx_event.warn_zero_len
         else rx_event.warn_seg_overrun, rx_event.submit_buf slot] := by
  have hseg := rx_next_seg_overrun c (e.buf.drop 0) e.urb.actual_length hmin
    (by simpa using hover)
  have hloop : rx_process_loop c e.buf 0 e.urb.actual_length 0
      = ([if get_unaligned_le16 e.buf = 0 then rx_event.warn_zero_len
          else rx_event.warn_seg_overrun], 0) := by
    rw [rx_process_loop]
    simp only [hseg]
    simp
  simp only [rx_tasklet_entry, mt7601u_rx_entry_check, hst, mt7601u_rx_process_entry, hinit,
    hloop]
  simp

/-- The tasklet on a queue with exactly one pending buffer. -/
theorem rx_tasklet_single (c : dma_consts) (state : dev_state) (q : mt7601u_rx_queue)
    (e : mt7601u_dma_buf) (hp : q.pending = 1) (he : q.e[q.start]? = some e)
    (hend : q.end_ = (q.start + 1) % q.entries) :
    (mt7601u_rx_tasklet c state q).2 = rx_tasklet_entry c state q.start e := by
  rw [mt7601u_rx_tasklet]
  have h1 : mt7601u_rx_get_pending_entry q
      = (some q.start, { q with pending := 0, start := (q.start + 1) % q.entries }, []) := by
    simp [mt7601u_rx_get_pending_entry, hp]
  have h2 : mt7601u_rx_get_pending_entry
      { q with pending := 0, start := (q.start + 1) % q.entries }
      = (none, { q with pending := 0, start := (q.start + 1) % q.entries }, []) := by
    simp [mt7601u_rx_get_pending_entry, hend]
  split
  · rename_i h
    rw [h1] at h
    cases h
  · rename_i slot h
    rw [h1] at h
    cases h
    rw [h1]
    simp only [he, List.nil_append]
    rw [mt7601u_rx_tasklet]
    split
    · rw [h2]
      simp
    · rename_i slot2 h
      rw [h2] at h
      cases h


/-- C11 as amended: on an initialised device, for every successfully completed RX
buffer of at least `min_seg_len` bytes whose first header declares a length `L`
with `L + MT_DMA_HDRS` above the bytes received, draining it passes no segment to
`mt7601u_rx_process_seg` (no frame is delivered), raises exactly one warning and
hands the buffer back to the transport; the same events are those of
`mt7601u_rx_tasklet` on a queue whose only pending buffer it is. -/
theorem rx_overrun_drained (c : dma_consts) (state : dev_state) (slot : Nat)
    (e : mt7601u_dma_buf) (hinit : state.initialized = true) (hst : e.urb.status = 0)
    (hmin : min_seg_len c ≤ e.urb.actual_length)
    (hover : get_unaligned_le16 e.buf + c.MT_DMA_HDRS > e.urb.actual_length) :
    let ev := rx_tasklet_entry c state slot e
    ev = [if get_unaligned_le16 e.buf = 0 then rx_event.warn_zero_len
          else rx_event.warn_seg_overrun, rx_event.submit_buf slot] ∧
    rx_segments ev = 0 ∧ rx_warnings ev = 1 ∧ rx_resubmits ev = 1 ∧
    (∀ q : mt7601u_rx_queue, q.pending = 1 → q.start = slot → q.e[slot]? = some e →
      q.end_ = (q.start + 1) % q.entries → (mt7601u_rx_tasklet c state q).2 = ev) := by
  intro ev
  have hev := rx_overrun_entry_events c state slot e hinit hst hmin hover
  refine ⟨hev, ?_, ?_, ?_, ?_⟩
  · simp only [ev, hev]
    split_ifs <;> rfl
  · simp only [ev, hev]
    split_ifs <;> rfl
  · simp only [ev, hev]
    split_ifs <;> rfl
  · intro q hp hs he hend
    subst hs
    exact rx_tasklet_single c state q e hp he hend

/-- C11 fails as stated: before `MT7601U_STATE_INITIALIZED` is set, the buffer
`overrun_buf` (40 bytes received, header declaring 64) is handed back to the
transport without being looked at: no warning is raised. -/
theorem rx_overrun_uninitialised :
    let state : dev_state :=
      { initialized := false, removed := false, more_stats := false, reading_stats := false }
    overrun_buf.urb.status = 0 ∧
    min_seg_len mainline_consts ≤ overrun_buf.urb.actual_length ∧
    get_unaligned_le16 overrun_buf.buf + mainline_consts.MT_DMA_HDRS
      > overrun_buf.urb.actual_length ∧
    rx_tasklet_entry mainline_consts state 0 overrun_buf = [rx_event.submit_buf 0] ∧
    rx_warnings (rx_tasklet_entry mainline_consts state 0 overrun_buf) = 0 := by
  decide

/-- C12 fails as stated: the buffer `failed_buf`, whose transfer failed with
`-EPROTO`, is logged and skipped; it is not handed back to the transport. -/
theorem rx_failed_not_resubmitted :
    let state : dev_state :=
      { initialized := true, removed := false, more_stats := false, reading_stats := false }
    mt7601u_urb_has_error failed_buf.urb = true ∧
    rx_tasklet_entry mainline_consts state 0 failed_buf = [rx_event.err_rx_urb_failed (-71)] ∧
    rx_resubmits (rx_tasklet_entry mainline_consts state 0 failed_buf) = 0 := by
  decide

/-- C12 as amended: for every drained RX buffer whose transfer status is a
genuine transport error (`mt7601u_urb_has_error`), the tasklet logs the error,
passes none of the buffer's contents on and does not hand the buffer back to the
transport; the same events are those of `mt7601u_rx_tasklet` on a queue whose
only pending buffer it is. -/
theorem rx_failed_entry_dropped (c : dma_consts) (state : dev_state) (slot : Nat)
    (e : mt7601u_dma_buf) (herr : mt7601u_urb_has_error e.urb = true) :
    let ev := rx_tasklet_entry c state slot e
    ev = [rx_event.err_rx_urb_failed e.urb.status] ∧
    rx_segments ev = 0 ∧ rx_resubmits ev = 0 ∧
    (∀ q : mt7601u_rx_queue, q.pending = 1 → q.start = slot → q.e[slot]? = some e →
      q.end_ = (q.start + 1) % q.entries → (mt7601u_rx_tasklet c state q).2 = ev) := by
  intro ev
  have hst : e.urb.status ≠ 0 := by
    intro h0
    simp [mt7601u_urb_has_error, h0] at herr
  have hev : ev = [rx_event.err_rx_urb_failed e.urb.status] := by
    simp [ev, rx_tasklet_entry, mt7601u_rx_entry_check, hst, herr]
  refine ⟨hev, ?_, ?_, ?_⟩
  · rw [hev]; rfl
  · rw [hev]; rfl
  · intro q hp hs he hend
    subst hs
    exact rx_tasklet_single c state q e hp he hend


/-- The record is kept by every operation: the completed slots are the drained
ones followed by the pending ones, `start` is in range and `end` is `start +
pending` modulo `entries`. -/
theorem rx_step_log_keeps (n : Nat) (s : rx_fifo_log) (op : rx_op) (hn : 0 < n)
    (hq : s.q.entries = n) (hs : s.q.start < n)
    (he : s.q.end_ = (s.q.start + s.q.pending) % n)
    (hc : s.completed = s.drained ++ rx_pending_slots s.q) :
    (rx_step_log s op).q.entries = n ∧ (rx_step_log s op).q.start < n ∧
    (rx_step_log s op).q.end_
      = ((rx_step_log s op).q.start + (rx_step_log s op).q.pending) % n ∧
    (rx_step_log s op).completed
      = (rx_step_log s op).drained ++ rx_pending_slots (rx_step_log s op).q := by
  cases op with
  | complete u =>
    simp only [rx_step_log, mt7601u_complete_rx, rx_completion_accepted]
    by_cases hacc : (s.q.e[s.q.end_]?).map (fun b => b.urb.id) = some u.id
    · rw [if_neg (not_not.mpr hacc), if_pos hacc]
      refine ⟨hq, hs, ?_, ?_⟩
      · simp only [hq, he]
        rw [Nat.mod_add_mod, Nat.add_assoc]
      · simp only [rx_pending_slots, hc, List.range_succ, List.map_append, List.map_cons,
          List.map_nil, List.append_assoc, hq, he]
    · rw [if_pos hacc, if_neg hacc]
      exact ⟨hq, hs, he, hc⟩
  | drain =>
    simp only [rx_step_log, mt7601u_rx_get_pending_entry]
    by_cases h0 : s.q.pending = 0
    · rw [if_pos h0]
      exact ⟨hq, hs, he, hc⟩
    · rw [if_neg h0]
      obtain ⟨p, hp⟩ : ∃ p, s.q.pending = p + 1 := ⟨s.q.pending - 1, by omega⟩
      refine ⟨hq, by rw [hq]; exact Nat.mod_lt _ hn, ?_, ?_⟩
      · simp only [hq, he, hp, Nat.add_sub_cancel]
        rw [Nat.mod_add_mod]
        congr 1
        omega
      · simp only [hc, rx_pending_slots, hp, Nat.add_sub_cancel, hq, List.append_assoc,
          List.singleton_append, List.range_succ_eq_map, List.map_cons, List.map_map,
          Nat.add_zero, Nat.mod_eq_of_lt hs]
        congr 2
        apply List.map_congr_left
        intro i _
        simp only [Function.comp, Nat.mod_add_mod]
        congr 1
        omega

theorem rx_run_log_keeps (n : Nat) (ops : List rx_op) (s : rx_fifo_log) (hn : 0 < n)
    (hq : s.q.entries = n) (hs : s.q.start < n)
    (he : s.q.end_ = (s.q.start + s.q.pending) % n)
    (hc : s.completed = s.drained ++ rx_pending_slots s.q) :
    (rx_run_log s ops).q.entries = n ∧ (rx_run_log s ops).q.start < n ∧
    (rx_run_log s ops).completed
      = (rx_run_log s ops).drained ++ rx_pending_slots (rx_run_log s ops).q := by
  induction ops generalizing s with
  | nil => exact ⟨hq, hs, hc⟩
  | cons op ops ih =>
    have h := rx_step_log_keeps n s op hn hq hs he hc
    exact ih (rx_step_log s op) h.1 h.2.1 h.2.2.1 h.2.2.2

/-- Ring positions `a + i` and `a + j` with `i, j` below the ring size are
different slots unless `i = j`. -/
theorem ring_offset_inj (n a i j : Nat) (hi : i < n) (hj : j < n)
    (h : (a + i) % n = (a + j) % n) : i = j := by
  have hn : 0 < n := by omega
  by_contra hne
  rcases Nat.lt_or_gt_of_ne hne with hlt | hgt
  · have hd : n ∣ (a + j) - (a + i) := (Nat.modEq_iff_dvd' (by omega)).mp h
    have hle := Nat.le_of_dvd (by omega) hd
    omega
  · have hd : n ∣ (a + i) - (a + j) := (Nat.modEq_iff_dvd' (by omega)).mp h.symm
    have hle := Nat.le_of_dvd (by omega) hd
    omega

/-- C13: from a freshly allocated RX queue, after every interleaving of
completions and drains, the slots returned by the successful calls of
`mt7601u_rx_get_pending_entry` are, in the same order, the first of the slots
whose completions `mt7601u_complete_rx` accepted (the k-th drained is the k-th
completed), the remaining completed slots being the pending ones; while at most
`entries` buffers are pending, the pending slots are pairwise different. -/
theorem rx_fifo_order (n : Nat) (bufs : List mt7601u_dma_buf) (ops : List rx_op)
    (hn : 0 < n) :
    let s := rx_run_log { q := mt7601u_alloc_rx n bufs, completed := [], drained := [] } ops
    s.completed = s.drained ++ rx_pending_slots s.q ∧
    s.drained.length ≤ s.completed.length ∧
    (∀ k, k < s.drained.length → s.drained[k]? = s.completed[k]?) ∧
    (s.q.pending ≤ s.q.entries → (rx_pending_slots s.q).Nodup) := by
  intro s
  have h : s.q.entries = n ∧ s.q.start < n ∧
      s.completed = s.drained ++ rx_pending_slots s.q :=
    rx_run_log_keeps n ops { q := mt7601u_alloc_rx n bufs, completed := [], drained := [] }
      hn rfl hn (by simp [mt7601u_alloc_rx, Nat.mod_eq_of_lt hn])
      (by simp [mt7601u_alloc_rx, rx_pending_slots])
  clear_value s
  obtain ⟨h1, h2, h3⟩ := h
  refine ⟨h3, by rw [h3, List.length_append]; omega, ?_, ?_⟩
  · intro k hk
    rw [h3, List.getElem?_append_left hk]
  · intro hp
    unfold rx_pending_slots
    apply List.Nodup.map_on _ (List.nodup_range _)
    intro i hi j hj hij
    rw [List.mem_range] at hi hj
    rw [h1] at hij hp
    exact ring_offset_inj n s.q.start i j (by omega) (by omega) hij


/-- Witness of C11 as amended: `overrun_buf` drained from slot 0 of an
initialised device, with the mainline header sizes. -/
theorem rx_overrun_drained_witness :
    (let state : dev_state :=
       { initialized := true, removed := false, more_stats := false, reading_stats := false }
     let ev := rx_tasklet_entry mainline_consts state 0 overrun_buf
     ev = [if get_unaligned_le16 overrun_buf.buf = 0 then rx_event.warn_zero_len
           else rx_event.warn_seg_overrun, rx_event.submit_buf 0] ∧
     rx_segments ev = 0 ∧ rx_warnings ev = 1 ∧ rx_resubmits ev = 1 ∧
     (∀ q : mt7601u_rx_queue, q.pending = 1 → q.start = 0 → q.e[0]? = some overrun_buf →
       q.end_ = (q.start + 1) % q.entries →
       (mt7601u_rx_tasklet mainline_consts state q).2 = ev)) :=
  rx_overrun_drained mainline_consts
    { initialized := true, removed := false, more_stats := false, reading_stats := false }
    0 overrun_buf rfl (by decide) (by decide) (by decide)

/-- Witness of C12 as amended: `failed_buf` drained from slot 0. -/
theorem rx_failed_entry_dropped_witness :
    mt7601u_urb_has_error failed_buf.urb = true ∧
    (let state : dev_state :=
       { initialized := true, removed := false, more_stats := false, reading_stats := false }
     let ev := rx_tasklet_entry mainline_consts state 0 failed_buf
     ev = [rx_event.err_rx_urb_failed failed_buf.urb.status] ∧
     rx_segments ev = 0 ∧ rx_resubmits ev = 0 ∧
     (∀ q : mt7601u_rx_queue, q.pending = 1 → q.start = 0 → q.e[0]? = some failed_buf →
       q.end_ = (q.start + 1) % q.entries →
       (mt7601u_rx_tasklet mainline_consts state q).2 = ev)) :=
  ⟨by decide,
   rx_failed_entry_dropped mainline_consts
     { initialized := true, removed := false, more_stats := false, reading_stats := false }
     0 failed_buf (by decide)⟩

/-- Witness of C13: sixteen buffers, three completions and two drains. -/
theorem rx_fifo_order_witness :
    0 < 16 ∧
    (let s := rx_run_log
        { q := mt7601u_alloc_rx 16 sixteen_bufs, completed := [], drained := [] }
        [rx_op.complete { id := 0, status := 0, actual_length := 0 },
         rx_op.complete { id := 1, status := 0, actual_length := 0 },
         rx_op.drain,
         rx_op.complete { id := 2, status := 0, actual_length := 0 },
         rx_op.drain]
     s.completed = s.drained ++ rx_pending_slots s.q ∧
     s.drained.length ≤ s.completed.length ∧
     (∀ k, k < s.drained.length → s.drained[k]? = s.completed[k]?) ∧
     (s.q.pending ≤ s.q.entries → (rx_pending_slots s.q).Nodup)) :=
  ⟨by decide, rx_fifo_order 16 sixteen_bufs _ (by decide)⟩

/-! ## Linear to dB conversion (phy.c) -/

theorem fls_aux_zero (bits : Nat) : fls_aux bits 0 = 0 := by
  cases bits <;> simp [fls_aux]

theorem fls_aux_eq_of (k : Nat) :
    ∀ (bits x : Nat), 2 ^ k ≤ x → x < 2 ^ (k + 1) → k < bits → fls_aux bits x = k + 1 := by
  induction k with
  | zero =>
    intro bits x h1 h2 hb
    have hx : x = 1 := by omega
    subst hx
    obtain ⟨b, rfl⟩ : ∃ b, bits = b + 1 := ⟨bits - 1, by omega⟩
    simp [fls_aux, fls_aux_zero]
  | succ k ih =>
    intro bits x h1 h2 hb
    obtain ⟨b, rfl⟩ : ∃ b, bits = b + 1 := ⟨bits - 1, by omega⟩
    have hpos : 0 < 2 ^ k := Nat.two_pow_pos k
    have hx : x ≠ 0 := by
      rw [Nat.pow_succ] at h1
      omega
    have h := ih b (x / 2) (by rw [Nat.pow_succ] at h1; omega)
      (by rw [Nat.pow_succ] at h2; omega) (by omega)
    simp [fls_aux, hx, h]

theorem fls_eq_of (x k : Nat) (h1 : 2 ^ k ≤ x) (h2 : x < 2 ^ (k + 1)) (hk : k < 32) :
    fls x = k + 1 :=
  fls_aux_eq_of k 32 x h1 h2 hk

theorem to_s32_of_range (x : Int) (h1 : -2147483648 ≤ x) (h2 : x < 2147483648) :
    to_s32 x = x := by
  unfold to_s32
  rw [Int.emod_eq_of_lt (by omega) (by omega)]
  omega

theorem to_s16_of_range (x : Int) (h1 : -32768 ≤ x) (h2 : x < 32768) : to_s16 x = x := by
  unfold to_s16
  rw [Int.emod_eq_of_lt (by omega) (by omega)]
  omega

/-- On the inputs with `fls = k` the function is `lin2dBd_oct k`: nothing wraps
and the clamp of `app` is not reached. -/
theorem lin2dBd_eq_oct (k x : Nat) (hk1 : 1 ≤ k) (hk16 : k ≤ 16)
    (hlo : 2 ^ (k - 1) ≤ x) (hhi : x < 2 ^ k) :
    lin2dBd x = (lin2dBd_oct k x : Int) := by
  have hfls : fls x = k := by
    have := fls_eq_of x (k - 1) hlo (by rw [Nat.sub_add_cancel hk1]; exact hhi) (by omega)
    omega
  have hx : x ≠ 0 := by
    have : 0 < 2 ^ (k - 1) := Nat.two_pow_pos _
    omega
  have hm : 32768 ≤ x <<< (16 - k) ∧ x <<< (16 - k) < 65536 := by
    rw [Nat.shiftLeft_eq]
    interval_cases k <;> norm_num at hlo hhi ⊢ <;> omega
  unfold lin2dBd lin2dBd_oct
  rw [if_neg hx]
  lift_lets
  extract_lets mantisa exp mantisa2 app app2 dBd dBd2 dBd3 m napp nd
  have hexp : exp = (k : Int) - 16 := by
    simp only [exp, mantisa, hfls, to_s16]
    omega
  have hm2 : mantisa2 = m := by
    simp only [mantisa2, m, mantisa]
    rw [if_neg (by omega)]
    have hab : exp.natAbs = 16 - k := by omega
    rw [hab]
    simp only [to_u32]
    omega
  have hmb : 32768 ≤ m ∧ m < 65536 := hm
  have s3 : m >>> 3 = m / 8 := by rw [Nat.shiftRight_eq_div_pow]
  have s4 : m >>> 4 = m / 16 := by rw [Nat.shiftRight_eq_div_pow]
  have s6 : m >>> 6 = m / 64 := by rw [Nat.shiftRight_eq_div_pow]
  have happ : app2 = (napp : Int) ∧ napp ≤ 40000 := by
    simp only [app2, app, napp, hm2, s3, s4, s6, to_s32, to_u32]
    split_ifs <;> omega
  have hd : dBd = (nd : Int) := by
    simp only [dBd, nd, to_s32, happ.1, hexp]
    have := happ.2
    push_cast
    omega
  have hnd : nd ≤ 600000 := by
    simp only [nd]
    have := happ.2
    omega
  simp only [dBd3, dBd2, hd]
  clear hd happ hm2 hexp hmb s3 s4 s6 hm hfls hlo hhi
  clear_value nd
  rw [to_s32_of_range _ (by omega) (by omega), to_s16_of_range _ (by omega) (by omega)]
  push_cast
  rfl


theorem all_from_spec (p : Nat → Bool) (n : Nat) :
    ∀ lo, all_from p lo n = true → ∀ x, lo ≤ x → x < lo + n → p x = true := by
  induction n with
  | zero => intro lo _ x h1 h2; omega
  | succ n ih =>
    intro lo h x h1 h2
    simp only [all_from, Bool.and_eq_true] at h
    by_cases hx : x = lo
    · rw [hx]; exact h.1
    · exact ih (lo + 1) h.2 x (by omega) (by omega)

set_option maxHeartbeats 4000000 in
set_option maxRecDepth 1000000 in
/-- The check of every block of every octave, by evaluation. -/
theorem lin2dBd_chunks_ok (k j : Nat) (hk1 : 1 ≤ k) (hk16 : k ≤ 16) (hj : j < 8) :
    lin2dBd_chunk_ok k j = true := by
  interval_cases k <;> interval_cases j <;> decide!

/-- The check at every joint of two octaves, by evaluation. -/
theorem lin2dBd_joints_ok (k : Nat) (hk1 : 1 ≤ k) (hk15 : k ≤ 15) :
    lin2dBd_joint_ok k = true := by
  interval_cases k <;> decide!


/-- Every positive 16-bit value lies in one octave. -/
theorem octave_of (x : Nat) (h1 : 1 ≤ x) (h2 : x < 65536) :
    ∃ k, 1 ≤ k ∧ k ≤ 16 ∧ 2 ^ (k - 1) ≤ x ∧ x < 2 ^ k := by
  have hx : x ≠ 0 := by omega
  refine ⟨Nat.log2 x + 1, by omega, ?_, ?_, ?_⟩
  · have : Nat.log2 x < 16 := (Nat.log2_lt hx).mpr (by norm_num; omega)
    omega
  · simpa using Nat.log2_self_le hx
  · exact Nat.lt_log2_self

/-- The checked facts, for the function itself: every positive 16-bit input
gives at least 3, and the next input gives no less, except after 2944, 5888 and
47104. -/
theorem lin2dBd_steps (x : Nat) (h1 : 1 ≤ x) (h2 : x ≤ 65535) :
    3 ≤ lin2dBd x ∧
    (x + 1 ≤ 65535 → x ≠ 2944 → x ≠ 5888 → x ≠ 47104 → lin2dBd x ≤ lin2dBd (x + 1)) := by
  obtain ⟨k, hk1, hk16, hlo, hhi⟩ := octave_of x h1 (by omega)
  have hpow : 2 ^ k = 2 * 2 ^ (k - 1) := by
    obtain ⟨i, rfl⟩ : ∃ i, k = i + 1 := ⟨k - 1, by omega⟩
    rw [Nat.add_sub_cancel, Nat.pow_succ]
    omega
  have hP : 2 ^ (k - 1) ≤ 32768 := by
    have : 2 ^ (k - 1) ≤ 2 ^ 15 := Nat.pow_le_pow_right (by decide) (by omega)
    simpa using this
  have hchunk := lin2dBd_chunks_ok k ((x - 2 ^ (k - 1)) / 4096) hk1 hk16 (by omega)
  unfold lin2dBd_chunk_ok at hchunk
  rw [if_pos (by omega)] at hchunk
  have hstep := all_from_spec _ _ _ hchunk x (by omega) (by
    rcases Nat.lt_or_ge (2 ^ (k - 1)) 4096 with hs | hs
    · rw [Nat.min_eq_right (by omega)]
      omega
    · rw [Nat.min_eq_left hs]
      omega)
  simp only [lin2dBd_step_ok, Bool.and_eq_true, Bool.or_eq_true, Nat.ble_eq, beq_iff_eq] at hstep
  have hx := lin2dBd_eq_oct k x hk1 hk16 hlo hhi
  refine ⟨by rw [hx]; exact_mod_cast hstep.1, ?_⟩
  intro hnext hd1 hd2 hd3
  rcases Nat.lt_or_ge (x + 1) (2 ^ k) with hin | hout
  · have hx1 := lin2dBd_eq_oct k (x + 1) hk1 hk16 (by omega) hin
    rw [hx, hx1]
    rcases hstep.2 with (((h | h) | h) | h) | h
    · omega
    · omega
    · omega
    · omega
    · exact_mod_cast h
  · have hk15 : k ≤ 15 := by
      by_contra hcon
      have hk : k = 16 := by omega
      rw [hk] at hout
      norm_num at hout
      omega
    have hxe : x = 2 ^ k - 1 := by omega
    have hx1 := lin2dBd_eq_oct (k + 1) (x + 1) (by omega) (by omega)
      (by rw [Nat.add_sub_cancel]; exact hout) (by rw [Nat.pow_succ]; omega)
    have hj := lin2dBd_joints_ok k hk1 hk15
    simp only [lin2dBd_joint_ok, Nat.ble_eq] at hj
    rw [hx, hx1, hxe]
    have hxe1 : 2 ^ k - 1 + 1 = 2 ^ k := by omega
    rw [hxe1]
    exact_mod_cast hj


/-- The values of `lin2dBd` around its three steps down. -/
theorem lin2dBd_dip_values :
    lin2dBd 2944 = 2223 ∧ lin2dBd 2945 = 2222 ∧ lin2dBd 5888 = 2416 ∧ lin2dBd 5889 = 2415 ∧
    lin2dBd 47104 = 2994 ∧ lin2dBd 47105 = 2993 := by
  decide

/-- Between two of the three steps down the function does not decrease. -/
theorem lin2dBd_mono_between (a b : Nat) (h1 : 1 ≤ a) (hab : a ≤ b) (hb : b ≤ 65535)
    (hd1 : ¬ (a ≤ 2944 ∧ 2944 < b)) (hd2 : ¬ (a ≤ 5888 ∧ 5888 < b))
    (hd3 : ¬ (a ≤ 47104 ∧ 47104 < b)) : lin2dBd a ≤ lin2dBd b := by
  induction b, hab using Nat.le_induction with
  | base => exact le_refl _
  | succ n han ih =>
    have hstep := (lin2dBd_steps n (by omega) (by omega)).2 (by omega) (by omega) (by omega)
      (by omega)
    have := ih (by omega) (by omega) (by omega) (by omega)
    omega

/-- C14 as amended: for 16-bit values `1 <= a <= b <= 65535`, `lin2dBd(a) <=
lin2dBd(b)` whenever none of 2944, 5888, 47104 lies in `a .. b - 1`, that is on
each of the ranges 1..2944, 2945..5888, 5889..47104 and 47105..65535; at the
three range ends the value steps down by exactly 1, so that in general
`lin2dBd(a) <= lin2dBd(b) + 1`. -/
theorem lin2dBd_nearly_monotone (a b : Nat) (h1 : 1 ≤ a) (hab : a ≤ b) (hb : b ≤ 65535) :
    ((¬ (a ≤ 2944 ∧ 2944 < b) ∧ ¬ (a ≤ 5888 ∧ 5888 < b) ∧ ¬ (a ≤ 47104 ∧ 47104 < b)) →
      lin2dBd a ≤ lin2dBd b) ∧
    lin2dBd a ≤ lin2dBd b + 1 ∧
    lin2dBd 2945 = lin2dBd 2944 - 1 ∧ lin2dBd 5889 = lin2dBd 5888 - 1 ∧
    lin2dBd 47105 = lin2dBd 47104 - 1 := by
  obtain ⟨v1, v2, v3, v4, v5, v6⟩ := lin2dBd_dip_values
  refine ⟨fun h => lin2dBd_mono_between a b h1 hab hb h.1 h.2.1 h.2.2, ?_,
    by rw [v1, v2]; rfl, by rw [v3, v4]; rfl, by rw [v5, v6]; rfl⟩
  -- from `a` up to the end of its range, and from the start of the range of `b` up to `b`
  have m12 := lin2dBd_mono_between 2945 5888 (by decide) (by decide) (by decide)
    (by decide) (by decide) (by decide)
  have m23 := lin2dBd_mono_between 5889 47104 (by decide) (by decide) (by decide)
    (by decide) (by decide) (by decide)
  by_cases ha1 : a ≤ 2944
  · have hA := lin2dBd_mono_between a 2944 h1 ha1 (by decide) (by omega) (by omega) (by omega)
    by_cases hb1 : b ≤ 2944
    · have := lin2dBd_mono_between a b h1 hab hb (by omega) (by omega) (by omega)
      omega
    · by_cases hb2 : b ≤ 5888
      · have := lin2dBd_mono_between 2945 b (by decide) (by omega) hb (by omega) (by omega)
          (by omega)
        omega
      · by_cases hb3 : b ≤ 47104
        · have := lin2dBd_mono_between 5889 b (by decide) (by omega) hb (by omega) (by omega)
            (by omega)
          omega
        · have := lin2dBd_mono_between 47105 b (by decide) (by omega) hb (by omega) (by omega)
            (by omega)
          omega
  · by_cases ha2 : a ≤ 5888
    · have hA := lin2dBd_mono_between a 5888 h1 ha2 (by decide) (by omega) (by omega) (by omega)
      by_cases hb2 : b ≤ 5888
      · have := lin2dBd_mono_between a b h1 hab hb (by omega) (by omega) (by omega)
        omega
      · by_cases hb3 : b ≤ 47104
        · have := lin2dBd_mono_between 5889 b (by decide) (by omega) hb (by omega) (by omega)
            (by omega)
          omega
        · have := lin2dBd_mono_between 47105 b (by decide) (by omega) hb (by omega) (by omega)
            (by omega)
          omega
    · by_cases ha3 : a ≤ 47104
      · have hA := lin2dBd_mono_between a 47104 h1 ha3 (by decide) (by omega) (by omega)
          (by omega)
        by_cases hb3 : b ≤ 47104
        · have := lin2dBd_mono_between a b h1 hab hb (by omega) (by omega) (by omega)
          omega
        · have := lin2dBd_mono_between 47105 b (by decide) (by omega) hb (by omega) (by omega)
            (by omega)
          omega
      · have := lin2dBd_mono_between a b h1 hab hb (by omega) (by omega) (by omega)
        omega

/-- C14 fails as stated: `lin2dBd(47104) = 2994` but `lin2dBd(47105) = 2993`; 47104
is `0xb800`, where the approximation changes from its first to its second
formula. -/
theorem lin2dBd_not_monotone :
    1 ≤ 47104 ∧ 47104 ≤ 47105 ∧ 47105 ≤ 65535 ∧
    lin2dBd 47104 = 2994 ∧ lin2dBd 47105 = 2993 ∧ ¬ (lin2dBd 47104 ≤ lin2dBd 47105) := by
  decide

/-- C15: `lin2dBd(0)` is the sentinel -10000, returned by the first branch before
any normalisation, and every positive 16-bit input gives at least 3, so none
returns the sentinel. -/
theorem lin2dBd_sentinel :
    lin2dBd 0 = -10000 ∧
    ∀ x, 1 ≤ x → x ≤ 65535 → 3 ≤ lin2dBd x ∧ lin2dBd x ≠ -10000 := by
  refine ⟨rfl, fun x h1 h2 => ?_⟩
  have h := (lin2dBd_steps x h1 h2).1
  exact ⟨h, by omega⟩


/-- Witness of C14 as amended: the inputs 100 and 40000, with the steps at 2944
and 5888 in between. -/
theorem lin2dBd_nearly_monotone_witness :
    1 ≤ 100 ∧ 100 ≤ 40000 ∧ 40000 ≤ 65535 ∧
    (((¬ (100 ≤ 2944 ∧ 2944 < 40000) ∧ ¬ (100 ≤ 5888 ∧ 5888 < 40000) ∧
        ¬ (100 ≤ 47104 ∧ 47104 < 40000)) →
      lin2dBd 100 ≤ lin2dBd 40000) ∧
    lin2dBd 100 ≤ lin2dBd 40000 + 1 ∧
    lin2dBd 2945 = lin2dBd 2944 - 1 ∧ lin2dBd 5889 = lin2dBd 5888 - 1 ∧
    lin2dBd 47105 = lin2dBd 47104 - 1) :=
  ⟨by decide, by decide, by decide,
   lin2dBd_nearly_monotone 100 40000 (by decide) (by decide) (by decide)⟩

/-- Witness of C15: the input 1. -/
theorem lin2dBd_sentinel_witness :
    1 ≤ 1 ∧ 1 ≤ 65535 ∧ 3 ≤ lin2dBd 1 ∧ lin2dBd 1 ≠ -10000 :=
  ⟨by decide, by decide, lin2dBd_sentinel.2 1 (by decide) (by decide)⟩

/-! ## TSSI calibration (phy.c) -/

/-- The sign of the exclusive or of two integers: negative exactly when one
operand is negative and the other is not. -/
theorem int_xor_neg_iff (a b : Int) :
    Int.xor a b < 0 ↔ (a < 0 ∧ 0 ≤ b) ∨ (0 ≤ a ∧ b < 0) := by
  cases a <;> cases b <;> simp [Int.xor, Int.negSucc_lt_zero, Int.ofNat_nonneg]
  all_goals omega

/-- On an `int` above `INT_MIN`, `abs32` is the absolute value. -/
theorem abs32_eq_abs (x : Int) (h : -2147483648 < x ∧ x < 2147483648) : abs32 x = |x| := by
  unfold abs32
  split
  · rw [to_s32_of_range _ (by omega) (by omega), abs_of_neg (by assumption)]
  · rw [abs_of_nonneg (by omega)]

/-- C division by 4096 truncates toward zero. -/
theorem tdiv_4096_bounds (x : Int) :
    (0 ≤ x → 4096 * Int.tdiv x 4096 ≤ x ∧ x < 4096 * Int.tdiv x 4096 + 4096) ∧
    (x ≤ 0 → x ≤ 4096 * Int.tdiv x 4096 ∧ 4096 * Int.tdiv x 4096 - 4096 < x) := by
  constructor
  · intro h
    rw [Int.tdiv_eq_ediv h (by decide)]
    omega
  · intro h
    have e : Int.tdiv x 4096 = -((-x) / 4096) := by
      rw [← Int.tdiv_eq_ediv (by omega) (by decide), Int.neg_tdiv, neg_neg]
    rw [e]
    omega

/-- The damping condition of `mt7601u_tssi_cal` in mathematical terms, for a
previous correction above `INT_MIN`. -/
theorem tssi_cal_damp_cond_iff (prev diff : Int)
    (hp : -2147483648 < prev ∧ prev < 2147483648)
    (hd : -2147483648 ≤ diff ∧ diff < 2147483648) :
    tssi_cal_damp_cond prev diff = true ↔
      (((prev < 0 ∧ 0 ≤ diff) ∨ (0 ≤ prev ∧ diff < 0)) ∧ |diff| < 4096 ∧
        (|diff| > |prev| ∨ (0 < diff ∧ diff = -prev))) := by
  unfold tssi_cal_damp_cond
  simp only [Bool.and_eq_true, Bool.or_eq_true, decide_eq_true_eq, int_xor_neg_iff]
  rw [abs32_eq_abs prev hp, to_s32_of_range (-prev) (by omega) (by omega)]
  by_cases hmin : diff = -2147483648
  · subst hmin
    have e1 : abs32 (-2147483648) = -2147483648 := by decide
    have e2 : |(-2147483648 : Int)| = 2147483648 := by decide
    rw [e1, e2]
    have := abs_nonneg prev
    constructor
    · rintro ⟨⟨_, _⟩, h3⟩
      omega
    · rintro ⟨_, h2, _⟩
      omega
  · rw [abs32_eq_abs diff (by omega)]
    exact and_assoc

/-- Claim C18, amended.  In `mt7601u_tssi_cal`, for every previous correction
`prev` (an `int` above `INT_MIN`) and every correction `diff` left by the
saturation checks, the correction is suppressed (set to 0, `prev_pwr_diff`
unchanged) exactly when the sign bits of `diff` and `prev` differ,
`|diff| < 4096`, and either `|diff| > |prev|` or `diff` is positive and equal to
`-prev`; in every other case the correction is kept and `prev_pwr_diff` becomes
`diff`. -/
theorem tssi_damp_rule (prev diff : Int)
    (hp : -2147483648 < prev ∧ prev < 2147483648)
    (hd : -2147483648 ≤ diff ∧ diff < 2147483648) :
    ((((prev < 0 ∧ 0 ≤ diff) ∨ (0 ≤ prev ∧ diff < 0)) ∧ |diff| < 4096 ∧
        (|diff| > |prev| ∨ (0 < diff ∧ diff = -prev))) →
      tssi_cal_damp prev diff = (0, prev)) ∧
    (¬ (((prev < 0 ∧ 0 ≤ diff) ∨ (0 ≤ prev ∧ diff < 0)) ∧ |diff| < 4096 ∧
        (|diff| > |prev| ∨ (0 < diff ∧ diff = -prev))) →
      tssi_cal_damp prev diff = (diff, diff)) := by
  have h := tssi_cal_damp_cond_iff prev diff hp hd
  constructor
  · intro hc
    unfold tssi_cal_damp
    rw [if_pos (h.mpr hc)]
  · intro hc
    unfold tssi_cal_damp
    rw [if_neg (fun hh => hc (h.mp hh))]

/-- Claim C18, counterexample.  With `prev = 100` and `diff = -100` the signs
are opposite, `|diff| < 4096` and `diff = -prev`, yet the correction is kept and
`prev_pwr_diff` becomes `-100`: the sign-flip clause of the code asks for a
positive `diff`. -/
theorem tssi_damp_negative_flip_kept :
    (0 ≤ (100 : Int) ∧ (-100 : Int) < 0) ∧ |(-100 : Int)| < 4096 ∧ (-100 : Int) = -100 ∧
    tssi_cal_damp 100 (-100) = (-100, -100) ∧ tssi_cal_damp 100 (-100) ≠ (0, 100) := by
  decide

/-- Claim C19.  In `mt7601u_tssi_cal`, for every damped correction `diff` with
`|diff| ≤ 2^31 - 1 - 2048`, the rounded value `r` (add 2048 when `diff > 0` and
subtract it otherwise, then divide by 4096 with truncation) is the nearest
integer to `diff / 4096`: `|4096 * r - diff| ≤ 2048`, `r` has the sign of `diff`
or is 0, and `r = 0` whenever `|diff| < 2048`. -/
theorem tssi_round_nearest (diff : Int) (h : |diff| ≤ 2 ^ 31 - 1 - 2048) :
    |4096 * tssi_cal_round diff - diff| ≤ 2048 ∧
    (0 < tssi_cal_round diff → 0 < diff) ∧
    (tssi_cal_round diff < 0 → diff < 0) ∧
    (|diff| < 2048 → tssi_cal_round diff = 0) := by
  have hb := abs_le.mp h
  norm_num at hb
  unfold tssi_cal_round
  by_cases hpos : diff > 0
  · rw [if_pos hpos, to_s32_of_range _ (by omega) (by omega)]
    have t := (tdiv_4096_bounds (diff + 2048)).1 (by omega)
    refine ⟨abs_le.mpr ⟨by omega, by omega⟩, fun _ => hpos, fun hr => by omega, fun hs => ?_⟩
    have := abs_lt.mp hs
    omega
  · rw [if_neg hpos, to_s32_of_range _ (by omega) (by omega)]
    have t := (tdiv_4096_bounds (diff + -2048)).2 (by omega)
    refine ⟨abs_le.mpr ⟨by omega, by omega⟩, fun hr => by omega, fun hr => by omega, fun hs => ?_⟩
    have := abs_lt.mp hs
    omega

/-- A correction of 0 stays 0 through the damping step, whatever the previous
correction is. -/
theorem tssi_cal_damp_zero (prev : Int) : (tssi_cal_damp prev 0).1 = 0 := by
  unfold tssi_cal_damp
  split <;> rfl

/-- Claim C16.  In `mt7601u_tssi_cal`, on the path that reaches the register
update (TSSI enabled, a read triggered and ready), whenever the measured
`tssi0` is 127 and the computed power difference is positive, the rounded
correction is 0 for every previous correction, slope, offset and target power,
and the power compensation value handed to `int_to_s6` for the write is the
value decoded from the register that was read: the calls made are the
saturation message, the write of `MT_TX_ALC_CFG_1` and the next read kick. -/
theorem tssi_upper_saturation_zero (c : phy_consts) (io : phy_event → Int) (e : tssi_env)
    (dev : mt7601u_dev)
    (hs6 : ∀ reg, -2147483648 ≤ c.s6_to_int reg ∧ c.s6_to_int reg < 2147483648)
    (hen : e.tssi_enabled = true) (htrig : dev.tssi_read_trig = true)
    (hready : e.read_ready = true) (h127 : e.params.tssi0 = 127)
    (hpos : 0 < tssi_cal_diff_pwr e) :
    tssi_cal_correction e dev = 0 ∧
    (mt7601u_tssi_cal c io e dev).events =
      [phy_event.printk_upper_saturation,
       phy_event.wr_tx_alc_cfg_1 (to_u32 ((clear_bits e.tx_alc_cfg_1 c.MT_TX_ALC_CFG_1_TEMP_COMP |||
         c.int_to_s6 (c.s6_to_int
           (c.MT76_GET c.MT_TX_ALC_CFG_1_TEMP_COMP e.tx_alc_cfg_1)) : Nat) : Int)),
       phy_event.mcu_tssi_read_kick (mt7601u_use_hvga e)] := by
  have hsat : tssi_cal_saturate e.params.tssi0 (tssi_cal_init e) (tssi_cal_diff_pwr e) =
      (0, [phy_event.printk_upper_saturation]) := by
    unfold tssi_cal_saturate
    simp [h127, hpos]
  have hround : tssi_cal_round 0 = 0 := by decide
  have hcorr : tssi_cal_correction e dev = 0 := by
    unfold tssi_cal_correction
    rw [hsat, tssi_cal_damp_zero, hround]
  refine ⟨hcorr, ?_⟩
  unfold mt7601u_tssi_cal
  simp only [hen, htrig, hready, Bool.true_eq_false, if_false, hsat, tssi_cal_damp_zero, hround,
    zero_add]
  rw [to_s32_of_range _ (hs6 _).1 (hs6 _).2]
  rfl

/-! ## Frequency calibration (phy.c) -/

/-- Claim C20.  In `__mt7601u_phy_freq_cal`, for every valid beacon offset
and every PHY mode among CCK, OFDM, HT and HT-greenfield, the thresholds are
(19, 5), (102, 32) and (82, 20); after the threshold evaluation the adjusting flag
is true if `|offset| ≥ activate`, false if `|offset| ≤ deactivate`, and keeps its
previous value otherwise; when it is false the frequency value is unchanged, no
call is made and the monitoring interval is returned. -/
theorem freq_cal_threshold_evaluation (c : phy_consts) (dev : mt7601u_dev) (last_offset : Int)
    (phy_mode : Nat)
    (hdist : c.MT_PHY_TYPE_CCK ≠ c.MT_PHY_TYPE_OFDM ∧ c.MT_PHY_TYPE_CCK ≠ c.MT_PHY_TYPE_HT ∧
      c.MT_PHY_TYPE_CCK ≠ c.MT_PHY_TYPE_HT_GF ∧ c.MT_PHY_TYPE_OFDM ≠ c.MT_PHY_TYPE_HT ∧
      c.MT_PHY_TYPE_OFDM ≠ c.MT_PHY_TYPE_HT_GF)
    (hvalid : last_offset ≠ c.MT7601U_FREQ_OFFSET_INVALID)
    (hmode : phy_mode = c.MT_PHY_TYPE_CCK ∨ phy_mode = c.MT_PHY_TYPE_OFDM ∨
      phy_mode = c.MT_PHY_TYPE_HT ∨ phy_mode = c.MT_PHY_TYPE_HT_GF) :
    ∃ activate deactivate : Nat,
      freq_cal_thresholds c phy_mode = some (activate, deactivate) ∧
      (phy_mode = c.MT_PHY_TYPE_CCK → activate = 19 ∧ deactivate = 5) ∧
      (phy_mode = c.MT_PHY_TYPE_OFDM → activate = 102 ∧ deactivate = 32) ∧
      (phy_mode = c.MT_PHY_TYPE_HT ∨ phy_mode = c.MT_PHY_TYPE_HT_GF →
        activate = 82 ∧ deactivate = 20) ∧
      (|last_offset| ≥ activate →
        freq_cal_evaluate dev.adjusting last_offset activate deactivate = true) ∧
      (|last_offset| ≤ deactivate →
        freq_cal_evaluate dev.adjusting last_offset activate deactivate = false) ∧
      (deactivate < |last_offset| ∧ |last_offset| < activate →
        freq_cal_evaluate dev.adjusting last_offset activate deactivate = dev.adjusting) ∧
      (freq_cal_evaluate dev.adjusting last_offset activate deactivate = false →
        __mt7601u_phy_freq_cal c dev last_offset phy_mode =
          { dev := { dev with adjusting := false }, ret := c.MT_FREQ_CAL_CHECK_INTERVAL,
            events := [] }) := by
  obtain ⟨d1, d2, d3, d4, d5⟩ := hdist
  have habs : |last_offset| = (last_offset.natAbs : Int) := Int.abs_eq_natAbs last_offset
  have key : ∀ a d : Nat, d < a → freq_cal_thresholds c phy_mode = some (a, d) →
      (|last_offset| ≥ a → freq_cal_evaluate dev.adjusting last_offset a d = true) ∧
      (|last_offset| ≤ d → freq_cal_evaluate dev.adjusting last_offset a d = false) ∧
      (d < |last_offset| ∧ |last_offset| < a →
        freq_cal_evaluate dev.adjusting last_offset a d = dev.adjusting) ∧
      (freq_cal_evaluate dev.adjusting last_offset a d = false →
        __mt7601u_phy_freq_cal c dev last_offset phy_mode =
          { dev := { dev with adjusting := false }, ret := c.MT_FREQ_CAL_CHECK_INTERVAL,
            events := [] }) := by
    intro a d hda hth
    rw [habs]
    refine ⟨fun h => ?_, fun h => ?_, fun h => ?_, fun h => ?_⟩
    · unfold freq_cal_evaluate
      rw [if_pos (by omega)]
    · unfold freq_cal_evaluate
      rw [if_neg (by omega), if_pos (by omega)]
    · unfold freq_cal_evaluate
      rw [if_neg (by omega), if_neg (by omega)]
    · unfold __mt7601u_phy_freq_cal
      rw [if_neg hvalid, hth]
      simp only [h, if_true]
  rcases hmode with h | h | h | h
  · have hth : freq_cal_thresholds c phy_mode = some (19, 5) := by
      unfold freq_cal_thresholds
      rw [if_pos h]
    exact ⟨19, 5, hth, fun _ => ⟨rfl, rfl⟩, fun h2 => absurd (h.symm.trans h2) d1,
      fun h2 => h2.elim (fun h3 => absurd (h.symm.trans h3) d2)
        (fun h3 => absurd (h.symm.trans h3) d3), key 19 5 (by decide) hth⟩
  · have hth : freq_cal_thresholds c phy_mode = some (102, 32) := by
      unfold freq_cal_thresholds
      rw [if_neg (fun h2 => d1 (h2.symm.trans h)), if_pos h]
    exact ⟨102, 32, hth, fun h2 => absurd (h2.symm.trans h) d1, fun _ => ⟨rfl, rfl⟩,
      fun h2 => h2.elim (fun h3 => absurd (h.symm.trans h3) d4)
        (fun h3 => absurd (h.symm.trans h3) d5), key 102 32 (by decide) hth⟩
  · have hth : freq_cal_thresholds c phy_mode = some (82, 20) := by
      unfold freq_cal_thresholds
      rw [if_neg (fun h2 => d2 (h2.symm.trans h)), if_neg (fun h2 => d4 (h2.symm.trans h)),
        if_pos (Or.inl h)]
    exact ⟨82, 20, hth, fun h2 => absurd (h2.symm.trans h) d2,
      fun h2 => absurd (h2.symm.trans h) d4, fun _ => ⟨rfl, rfl⟩, key 82 20 (by decide) hth⟩
  · have hth : freq_cal_thresholds c phy_mode = some (82, 20) := by
      unfold freq_cal_thresholds
      rw [if_neg (fun h2 => d3 (h2.symm.trans h)), if_neg (fun h2 => d5 (h2.symm.trans h)),
        if_pos (Or.inr h)]
    exact ⟨82, 20, hth, fun h2 => absurd (h2.symm.trans h) d3,
      fun h2 => absurd (h2.symm.trans h) d5, fun _ => ⟨rfl, rfl⟩, key 82 20 (by decide) hth⟩

/-! ## Temperature compensation (phy.c) -/

theorem mode_table_writes_append (a b : List phy_event) :
    mode_table_writes (a ++ b) = mode_table_writes a ++ mode_table_writes b := by
  induction a with
  | nil => rfl
  | cons x xs ih =>
    cases x <;> simp [mode_table_writes, ih]

/-- Function `mt7601u_bbp_temp` leaves the device in the requested mode. -/
theorem bbp_temp_mode (c : phy_consts) (io : phy_event → Int) (dev : mt7601u_dev) (mode : Int)
    (common bw20 bw40 : temp_table) :
    (mt7601u_bbp_temp c io dev mode common bw20 bw40).dev = { dev with temp_mode := mode } := by
  unfold mt7601u_bbp_temp
  by_cases h : dev.temp_mode = mode
  · rw [if_pos h]
    cases dev
    simp only at h
    simp [h]
  · rw [if_neg h]
    simp only
    split_ifs <;> rfl

/-- Function `mt7601u_bbp_temp` makes no call when the mode is the current
one. -/
theorem bbp_temp_same (c : phy_consts) (io : phy_event → Int) (dev : mt7601u_dev) (mode : Int)
    (common bw20 bw40 : temp_table) (h : dev.temp_mode = mode) :
    mt7601u_bbp_temp c io dev mode common bw20 bw40 = { dev := dev, ret := 0, events := [] } := by
  unfold mt7601u_bbp_temp
  rw [if_pos h]

/-- With a known bandwidth the tail of `mt7601u_temp_comp` leaves the device in
the selected mode. -/
theorem temp_comp_mode_sets (c : phy_consts) (io : phy_event → Int) (dev : mt7601u_dev)
    (on_ : Bool) (temp : Int) (hbw : dev.bw = c.MT_BW_20 ∨ dev.bw = c.MT_BW_40) :
    (temp_comp_mode c io dev on_ temp).dev.temp_mode = temp_comp_selected_mode c on_ temp := by
  unfold temp_comp_mode temp_comp_selected_mode
  simp only
  rw [if_neg (by tauto)]
  split_ifs <;> rw [bbp_temp_mode]

/-- The tail of `mt7601u_temp_comp` writes no table when the device is in the
selected mode already, or when the bandwidth is unknown. -/
theorem temp_comp_mode_quiet (c : phy_consts) (io : phy_event → Int) (dev : mt7601u_dev)
    (on_ : Bool) (temp : Int)
    (h : dev.temp_mode = temp_comp_selected_mode c on_ temp ∨
      (dev.bw ≠ c.MT_BW_20 ∧ dev.bw ≠ c.MT_BW_40)) :
    mode_table_writes (temp_comp_mode c io dev on_ temp).events = [] := by
  unfold temp_comp_mode
  simp only
  by_cases hbw : dev.bw ≠ c.MT_BW_20 ∧ dev.bw ≠ c.MT_BW_40
  · rw [if_pos hbw]
    rfl
  · rw [if_neg hbw]
    have hm := h.resolve_right hbw
    unfold temp_comp_selected_mode at hm
    split_ifs at hm ⊢ <;> rw [bbp_temp_same _ _ _ _ _ _ _ hm] <;> rfl

/-- The PLL lock protect block keeps the bandwidth and the temperature mode and
writes no table. -/
theorem temp_comp_pll_keeps (dev : mt7601u_dev) (temp : Int) :
    (temp_comp_pll dev temp).1.bw = dev.bw ∧
    (temp_comp_pll dev temp).1.temp_mode = dev.temp_mode ∧
    mode_table_writes (temp_comp_pll dev temp).2 = [] := by
  unfold temp_comp_pll
  split_ifs <;> exact ⟨rfl, rfl, rfl⟩

/-- What `mt7601u_temp_comp` does when it does not stop at a failed DPD
calibration: the mode and the table writes are those of its tail, run on a device
with the same bandwidth and temperature mode. -/
theorem temp_comp_tail (c : phy_consts) (io : phy_event → Int) (dev : mt7601u_dev) (on_ : Bool)
    (h : ¬ (temp_comp_dpd_due (temp_comp_temp c dev) dev.dpd_temp = true ∧
      io (phy_event.mcu_calibrate_dpd (temp_comp_temp c dev)) ≠ 0)) :
    ∃ d : mt7601u_dev, d.bw = dev.bw ∧ d.temp_mode = dev.temp_mode ∧
      (mt7601u_temp_comp c io dev on_).dev =
        (temp_comp_mode c io d on_ (temp_comp_temp c dev)).dev ∧
      mode_table_writes (mt7601u_temp_comp c io dev on_).events =
        mode_table_writes (temp_comp_mode c io d on_ (temp_comp_temp c dev)).events := by
  unfold mt7601u_temp_comp
  simp only
  rw [if_neg h]
  obtain ⟨k1, k2, k3⟩ := temp_comp_pll_keeps
    (if temp_comp_dpd_due (temp_comp_temp c dev) dev.dpd_temp = true then
      { dev with curr_temp := temp_comp_temp c dev, dpd_temp := temp_comp_temp c dev }
     else { dev with curr_temp := temp_comp_temp c dev }) (temp_comp_temp c dev)
  refine ⟨_, ?_, ?_, rfl, ?_⟩
  · rw [k1]
    split_ifs <;> rfl
  · rw [k2]
    split_ifs <;> rfl
  · simp only [mode_table_writes_append, k3, List.append_nil]
    have : mode_table_writes (if temp_comp_dpd_due (temp_comp_temp c dev) dev.dpd_temp = true then
        phy_event.mcu_calibrate_dpd (temp_comp_temp c dev) :: mt7601u_vco_cal else []) = [] := by
      split_ifs <;> rfl
    rw [this, List.nil_append]

/-- Function `mt7601u_temp_comp` writes no table when the device is in the
selected mode already. -/
theorem temp_comp_quiet (c : phy_consts) (io : phy_event → Int) (dev : mt7601u_dev) (on_ : Bool)
    (h : dev.temp_mode = temp_comp_selected_mode c on_ (temp_comp_temp c dev) ∨
      (dev.bw ≠ c.MT_BW_20 ∧ dev.bw ≠ c.MT_BW_40)) :
    mode_table_writes (mt7601u_temp_comp c io dev on_).events = [] := by
  by_cases hd : temp_comp_dpd_due (temp_comp_temp c dev) dev.dpd_temp = true ∧
      io (phy_event.mcu_calibrate_dpd (temp_comp_temp c dev)) ≠ 0
  · unfold mt7601u_temp_comp
    simp only
    rw [if_pos hd]
    rfl
  · obtain ⟨d, hb, hm, _, hw⟩ := temp_comp_tail c io dev on_ hd
    rw [hw]
    apply temp_comp_mode_quiet
    rw [hb, hm]
    exact h

/-- Claim C17, amended.  Function `mt7601u_bbp_temp`: when the requested mode
equals the current `temp_mode`, no register pair is written and the state is
unchanged; when it differs, `temp_mode` becomes the requested mode and the common
table of the mode is written once, followed, if that write succeeded, by the bw20
table when `bw` is `MT_BW_20` and the bw40 table otherwise, once; if the write of
the common table failed, no further table is written and its error is returned.
Hence, of two `mt7601u_temp_comp` calls with the same temperature reading,
bandwidth and `on` flag, the second writes no mode table, provided the first did
not stop at a failed DPD calibration. -/
theorem bbp_temp_writes_once (c : phy_consts) (io io2 : phy_event → Int) (dev dev2 : mt7601u_dev)
    (mode : Int) (common bw20 bw40 : temp_table) (on_ : Bool) :
    (dev.temp_mode = mode →
      mt7601u_bbp_temp c io dev mode common bw20 bw40 = { dev := dev, ret := 0, events := [] }) ∧
    (dev.temp_mode ≠ mode →
      (mt7601u_bbp_temp c io dev mode common bw20 bw40).dev = { dev with temp_mode := mode } ∧
      (io (phy_event.write_reg_pairs common) = 0 →
        (mt7601u_bbp_temp c io dev mode common bw20 bw40).events =
          [phy_event.write_reg_pairs common,
           phy_event.write_reg_pairs (if dev.bw = c.MT_BW_20 then bw20 else bw40)]) ∧
      (io (phy_event.write_reg_pairs common) ≠ 0 →
        (mt7601u_bbp_temp c io dev mode common bw20 bw40).events =
          [phy_event.write_reg_pairs common] ∧
        (mt7601u_bbp_temp c io dev mode common bw20 bw40).ret =
          io (phy_event.write_reg_pairs common))) ∧
    (¬ (temp_comp_dpd_due (temp_comp_temp c dev) dev.dpd_temp = true ∧
        io (phy_event.mcu_calibrate_dpd (temp_comp_temp c dev)) ≠ 0) →
      dev2.temp_mode = (mt7601u_temp_comp c io dev on_).dev.temp_mode →
      dev2.b49_temp = dev.b49_temp → dev2.ref_temp = dev.ref_temp → dev2.bw = dev.bw →
      mode_table_writes (mt7601u_temp_comp c io2 dev2 on_).events = []) := by
  refine ⟨bbp_temp_same c io dev mode common bw20 bw40, fun hne => ⟨bbp_temp_mode _ _ _ _ _ _ _,
    fun h0 => ?_, fun h1 => ?_⟩, fun hd hm hb hr hbw => ?_⟩
  · unfold mt7601u_bbp_temp
    rw [if_neg hne]
    simp only [h0, ne_eq, not_true_eq_false, if_false]
    split_ifs <;> rfl
  · unfold mt7601u_bbp_temp
    rw [if_neg hne]
    simp only [ne_eq, h1, not_false_eq_true, if_true, and_self]
  · have ht : temp_comp_temp c dev2 = temp_comp_temp c dev := by
      unfold temp_comp_temp
      rw [hb, hr]
    apply temp_comp_quiet
    rw [ht, hbw]
    by_cases hk : dev.bw = c.MT_BW_20 ∨ dev.bw = c.MT_BW_40
    · left
      obtain ⟨d, hdb, _, hdev, _⟩ := temp_comp_tail c io dev on_ hd
      rw [hm, hdev]
      exact temp_comp_mode_sets c io d on_ _ (by rw [hdb]; exact hk)
    · right
      tauto

/-- Claim C17, counterexample.  First, a mode change whose common-table write
fails writes the common table only, not the bw20 table.  Second, when the first
of two consecutive `mt7601u_temp_comp` calls (same reading, same bandwidth) stops
at a failed DPD calibration, the second call writes the mode tables. -/
theorem bbp_temp_failed_write_skips :
    (mt7601u_bbp_temp mainline_phy_consts io_common_fails sample_dev 1
        temp_table.mt7601u_high_temp temp_table.mt7601u_high_temp_bw20
        temp_table.mt7601u_high_temp_bw40).events =
      [phy_event.write_reg_pairs temp_table.mt7601u_high_temp] ∧
    sample_dev.temp_mode ≠ 1 ∧
    mode_table_writes (mt7601u_temp_comp mainline_phy_consts io_ok
        (mt7601u_temp_comp mainline_phy_consts io_dpd_fails hot_dev true).dev true).events =
      [temp_table.mt7601u_high_temp, temp_table.mt7601u_high_temp_bw20] ∧
    (mt7601u_temp_comp mainline_phy_consts io_dpd_fails hot_dev true).dev.b49_temp =
      hot_dev.b49_temp ∧
    (mt7601u_temp_comp mainline_phy_consts io_dpd_fails hot_dev true).dev.bw = hot_dev.bw := by
  decide

/-! ## Witnesses of the calibration claims -/

/-- The mainline `s6_to_int` returns a value of the `int` range. -/
theorem mainline_s6_range (reg : Nat) :
    -2147483648 ≤ mainline_s6_to_int reg ∧ mainline_s6_to_int reg < 2147483648 := by
  unfold mainline_s6_to_int
  have h : reg &&& 0x3f ≤ 0x3f := Nat.and_le_right
  simp only
  split <;> omega

/-- Witness of C16: `saturated_env` on `sample_dev`; the register value
`0x0a000025` is written back unchanged. -/
theorem tssi_upper_saturation_zero_witness :
    saturated_env.params.tssi0 = 127 ∧ 0 < tssi_cal_diff_pwr saturated_env ∧
    tssi_cal_correction saturated_env sample_dev = 0 ∧
    (mt7601u_tssi_cal mainline_phy_consts io_ok saturated_env sample_dev).events =
      [phy_event.printk_upper_saturation, phy_event.wr_tx_alc_cfg_1 0x0a000025,
       phy_event.mcu_tssi_read_kick true] :=
  ⟨rfl, by decide,
   tssi_upper_saturation_zero mainline_phy_consts io_ok saturated_env sample_dev
     mainline_s6_range rfl rfl rfl rfl (by decide)⟩

/-- Witness of C18 as amended: after a previous correction of -100, the
correction 100 is suppressed and the correction 50 is kept. -/
theorem tssi_damp_rule_witness :
    tssi_cal_damp (-100) 100 = (0, -100) ∧ tssi_cal_damp (-100) 50 = (50, 50) :=
  ⟨(tssi_damp_rule (-100) 100 (by decide) (by decide)).1 (by decide),
   (tssi_damp_rule (-100) 50 (by decide) (by decide)).2 (by decide)⟩

/-- Witness of C19: the correction 6000 rounds to 1. -/
theorem tssi_round_nearest_witness :
    |(6000 : Int)| ≤ 2 ^ 31 - 1 - 2048 ∧
    |4096 * tssi_cal_round 6000 - 6000| ≤ 2048 ∧
    (0 < tssi_cal_round 6000 → 0 < (6000 : Int)) ∧
    (tssi_cal_round 6000 < 0 → (6000 : Int) < 0) ∧
    (|(6000 : Int)| < 2048 → tssi_cal_round 6000 = 0) :=
  ⟨by decide, tssi_round_nearest 6000 (by decide)⟩

/-- Witness of C20: a CCK beacon with offset 3 on `sample_dev`, with the
mainline constants. -/
theorem freq_cal_threshold_evaluation_witness :
    (3 : Int) ≠ mainline_phy_consts.MT7601U_FREQ_OFFSET_INVALID ∧
    ∃ activate deactivate : Nat,
      freq_cal_thresholds mainline_phy_consts 0 = some (activate, deactivate) ∧
      (0 = mainline_phy_consts.MT_PHY_TYPE_CCK → activate = 19 ∧ deactivate = 5) ∧
      (0 = mainline_phy_consts.MT_PHY_TYPE_OFDM → activate = 102 ∧ deactivate = 32) ∧
      (0 = mainline_phy_consts.MT_PHY_TYPE_HT ∨ 0 = mainline_phy_consts.MT_PHY_TYPE_HT_GF →
        activate = 82 ∧ deactivate = 20) ∧
      (|(3 : Int)| ≥ activate →
        freq_cal_evaluate sample_dev.adjusting 3 activate deactivate = true) ∧
      (|(3 : Int)| ≤ deactivate →
        freq_cal_evaluate sample_dev.adjusting 3 activate deactivate = false) ∧
      (deactivate < |(3 : Int)| ∧ |(3 : Int)| < activate →
        freq_cal_evaluate sample_dev.adjusting 3 activate deactivate = sample_dev.adjusting) ∧
      (freq_cal_evaluate sample_dev.adjusting 3 activate deactivate = false →
        __mt7601u_phy_freq_cal mainline_phy_consts sample_dev 3 0 =
          { dev := { sample_dev with adjusting := false },
            ret := mainline_phy_consts.MT_FREQ_CAL_CHECK_INTERVAL, events := [] }) :=
  ⟨by decide,
   freq_cal_threshold_evaluation mainline_phy_consts sample_dev 3 0 (by decide) (by decide)
     (Or.inl rfl)⟩

/-- Witness of C17 as amended: on `hot_dev` (normal mode, 20 MHz) a request for
the normal mode writes nothing, a request for the high mode writes the high and
the high bw20 tables, and the second of two `mt7601u_temp_comp` calls writes no
table. -/
theorem bbp_temp_writes_once_witness :
    mt7601u_bbp_temp mainline_phy_consts io_ok hot_dev 0 temp_table.mt7601u_normal_temp
        temp_table.mt7601u_normal_temp_bw20 temp_table.mt7601u_normal_temp_bw40 =
      { dev := hot_dev, ret := 0, events := [] } ∧
    (mt7601u_bbp_temp mainline_phy_consts io_ok hot_dev 1 temp_table.mt7601u_high_temp
        temp_table.mt7601u_high_temp_bw20 temp_table.mt7601u_high_temp_bw40).events =
      [phy_event.write_reg_pairs temp_table.mt7601u_high_temp,
       phy_event.write_reg_pairs temp_table.mt7601u_high_temp_bw20] ∧
    mode_table_writes (mt7601u_temp_comp mainline_phy_consts io_ok hot_dev true).events =
      [temp_table.mt7601u_high_temp, temp_table.mt7601u_high_temp_bw20] ∧
    mode_table_writes (mt7601u_temp_comp mainline_phy_consts io_ok
      (mt7601u_temp_comp mainline_phy_consts io_ok hot_dev true).dev true).events = [] :=
  ⟨(bbp_temp_writes_once mainline_phy_consts io_ok io_ok hot_dev hot_dev 0
      temp_table.mt7601u_normal_temp temp_table.mt7601u_normal_temp_bw20
      temp_table.mt7601u_normal_temp_bw40 true).1 rfl,
   ((bbp_temp_writes_once mainline_phy_consts io_ok io_ok hot_dev hot_dev 1
      temp_table.mt7601u_high_temp temp_table.mt7601u_high_temp_bw20
      temp_table.mt7601u_high_temp_bw40 true).2.1 (by decide)).2.1 rfl,
   by decide,
   (bbp_temp_writes_once mainline_phy_consts io_ok io_ok hot_dev
      (mt7601u_temp_comp mainline_phy_consts io_ok hot_dev true).dev 1
      temp_table.mt7601u_high_temp temp_table.mt7601u_high_temp_bw20
      temp_table.mt7601u_high_temp_bw40 true).2.2 (by decide) rfl rfl rfl rfl⟩

/-! ## Frequency stepping (phy.c) -/

/-- Claim C21.  For every call of `__mt7601u_phy_freq_cal` with the frequency
value in `0 .. 0xbf` on entry, it is in `0 .. 0xbf` on return and differs from its
entry value by at most 1; while adjusting, an offset above the deactivate
threshold decrements it and an offset below the negated threshold increments it;
when that step would leave the range (decrement at 0, increment at 0xbf) the
value is unchanged, adjusting is cleared and the monitoring interval is
returned. -/
theorem freq_cal_freq_range (c : phy_consts) (dev : mt7601u_dev) (last_offset : Int)
    (phy_mode : Nat) (h : dev.freq ≤ 0xbf) :
    (__mt7601u_phy_freq_cal c dev last_offset phy_mode).dev.freq ≤ 0xbf ∧
    ((__mt7601u_phy_freq_cal c dev last_offset phy_mode).dev.freq = dev.freq ∨
      (__mt7601u_phy_freq_cal c dev last_offset phy_mode).dev.freq + 1 = dev.freq ∨
      (__mt7601u_phy_freq_cal c dev last_offset phy_mode).dev.freq = dev.freq + 1) ∧
    (∀ activate deactivate : Nat, last_offset ≠ c.MT7601U_FREQ_OFFSET_INVALID →
      freq_cal_thresholds c phy_mode = some (activate, deactivate) →
      freq_cal_evaluate dev.adjusting last_offset activate deactivate = true →
      (last_offset > deactivate → 0 < dev.freq →
        (__mt7601u_phy_freq_cal c dev last_offset phy_mode).dev.freq + 1 = dev.freq ∧
        (__mt7601u_phy_freq_cal c dev last_offset phy_mode).dev.adjusting = true ∧
        (__mt7601u_phy_freq_cal c dev last_offset phy_mode).ret = c.MT_FREQ_CAL_ADJ_INTERVAL) ∧
      (last_offset < -(deactivate : Int) → dev.freq < 0xbf →
        (__mt7601u_phy_freq_cal c dev last_offset phy_mode).dev.freq = dev.freq + 1 ∧
        (__mt7601u_phy_freq_cal c dev last_offset phy_mode).dev.adjusting = true ∧
        (__mt7601u_phy_freq_cal c dev last_offset phy_mode).ret = c.MT_FREQ_CAL_ADJ_INTERVAL) ∧
      (last_offset > deactivate → dev.freq = 0 →
        (__mt7601u_phy_freq_cal c dev last_offset phy_mode).dev.freq = 0 ∧
        (__mt7601u_phy_freq_cal c dev last_offset phy_mode).dev.adjusting = false ∧
        (__mt7601u_phy_freq_cal c dev last_offset phy_mode).ret =
          c.MT_FREQ_CAL_CHECK_INTERVAL) ∧
      (last_offset < -(deactivate : Int) → dev.freq = 0xbf →
        (__mt7601u_phy_freq_cal c dev last_offset phy_mode).dev.freq = 0xbf ∧
        (__mt7601u_phy_freq_cal c dev last_offset phy_mode).dev.adjusting = false ∧
        (__mt7601u_phy_freq_cal c dev last_offset phy_mode).ret =
          c.MT_FREQ_CAL_CHECK_INTERVAL)) := by
  have hu8 : ∀ n : Nat, n < 0xbf → to_u8 ((n : Int) + 1) = n + 1 := by
    intro n hn
    unfold to_u8
    omega
  have hfreq : (__mt7601u_phy_freq_cal c dev last_offset phy_mode).dev.freq = dev.freq ∨
      ((__mt7601u_phy_freq_cal c dev last_offset phy_mode).dev.freq = dev.freq - 1 ∧
        0 < dev.freq) ∨
      ((__mt7601u_phy_freq_cal c dev last_offset phy_mode).dev.freq = dev.freq + 1 ∧
        dev.freq < 0xbf) := by
    unfold __mt7601u_phy_freq_cal
    split_ifs with h1
    · exact Or.inl rfl
    · split
      · exact Or.inl rfl
      · simp only
        split_ifs
        all_goals first
          | exact Or.inl rfl
          | (refine Or.inr (Or.inl ⟨rfl, ?_⟩); assumption)
          | (refine Or.inr (Or.inr ⟨hu8 _ ?_, ?_⟩) <;> assumption)
  refine ⟨?_, ?_, ?_⟩
  · rcases hfreq with e | ⟨e, _⟩ | ⟨e, _⟩ <;> rw [e] <;> omega
  · rcases hfreq with e | ⟨e, _⟩ | ⟨e, _⟩ <;> rw [e] <;> omega
  · intro a d hv hth hflag
    unfold __mt7601u_phy_freq_cal
    rw [if_neg hv, hth]
    simp only [hflag, Bool.true_eq_false, if_false, if_true]
    refine ⟨fun h1 h2 => ?_, fun h1 h2 => ?_, fun h1 h2 => ?_, fun h1 h2 => ?_⟩
    · rw [if_pos h1, if_pos h2]
      simp only [if_true]
      exact ⟨by omega, trivial, trivial⟩
    · rw [if_neg (by omega), if_pos h1, if_pos h2]
      simp only [if_true]
      exact ⟨hu8 _ h2, trivial, trivial⟩
    · rw [if_pos h1, if_neg (by omega)]
      simp only [Bool.false_eq_true, if_false]
      exact ⟨h2, trivial, trivial⟩
    · rw [if_neg (by omega), if_pos h1, if_neg (by omega)]
      simp only [Bool.false_eq_true, if_false]
      exact ⟨h2, trivial, trivial⟩

/-! ## Temperature compensation: DPD and mode bands (phy.c) -/

theorem dpd_requests_append (a b : List phy_event) :
    dpd_requests (a ++ b) = dpd_requests a ++ dpd_requests b := by
  induction a with
  | nil => rfl
  | cons x xs ih =>
    cases x <;> simp [dpd_requests, ih]

/-- Function `mt7601u_bbp_temp` requests no DPD calibration. -/
theorem bbp_temp_no_dpd (c : phy_consts) (io : phy_event → Int) (dev : mt7601u_dev) (mode : Int)
    (common bw20 bw40 : temp_table) :
    dpd_requests (mt7601u_bbp_temp c io dev mode common bw20 bw40).events = [] := by
  unfold mt7601u_bbp_temp
  simp only
  split_ifs <;> rfl

/-- The tail of `mt7601u_temp_comp` changes no field but `temp_mode` and
requests no DPD calibration. -/
theorem temp_comp_mode_keeps (c : phy_consts) (io : phy_event → Int) (dev : mt7601u_dev)
    (on_ : Bool) (temp : Int) :
    (temp_comp_mode c io dev on_ temp).dev.curr_temp = dev.curr_temp ∧
    (temp_comp_mode c io dev on_ temp).dev.dpd_temp = dev.dpd_temp ∧
    dpd_requests (temp_comp_mode c io dev on_ temp).events = [] := by
  unfold temp_comp_mode
  simp only
  split_ifs
  · exact ⟨rfl, rfl, rfl⟩
  all_goals
    rw [bbp_temp_mode, bbp_temp_no_dpd]
    exact ⟨rfl, rfl, rfl⟩

/-- The PLL lock protect block keeps the two temperatures and requests no DPD
calibration. -/
theorem temp_comp_pll_temps (dev : mt7601u_dev) (temp : Int) :
    (temp_comp_pll dev temp).1.curr_temp = dev.curr_temp ∧
    (temp_comp_pll dev temp).1.dpd_temp = dev.dpd_temp ∧
    dpd_requests (temp_comp_pll dev temp).2 = [] := by
  unfold temp_comp_pll
  split_ifs <;> exact ⟨rfl, rfl, rfl⟩

/-- The temperatures and the calls of `mt7601u_temp_comp` around the DPD block,
in terms of the wrapped `int` arithmetic of the code. -/
theorem temp_comp_dpd_block (c : phy_consts) (io : phy_event → Int) (dev : mt7601u_dev)
    (on_ : Bool) :
    (mt7601u_temp_comp c io dev on_).dev.curr_temp = temp_comp_temp c dev ∧
    (temp_comp_dpd_due (temp_comp_temp c dev) dev.dpd_temp = true →
      (mt7601u_temp_comp c io dev on_).dev.dpd_temp = temp_comp_temp c dev ∧
      dpd_requests (mt7601u_temp_comp c io dev on_).events = [temp_comp_temp c dev] ∧
      (io (phy_event.mcu_calibrate_dpd (temp_comp_temp c dev)) = 0 →
        (phy_event.mcu_calibrate_dpd (temp_comp_temp c dev) :: mt7601u_vco_cal) <+:
          (mt7601u_temp_comp c io dev on_).events) ∧
      (io (phy_event.mcu_calibrate_dpd (temp_comp_temp c dev)) ≠ 0 →
        (mt7601u_temp_comp c io dev on_).events =
          [phy_event.mcu_calibrate_dpd (temp_comp_temp c dev)] ∧
        (mt7601u_temp_comp c io dev on_).ret =
          io (phy_event.mcu_calibrate_dpd (temp_comp_temp c dev)))) ∧
    (temp_comp_dpd_due (temp_comp_temp c dev) dev.dpd_temp = false →
      (mt7601u_temp_comp c io dev on_).dev.dpd_temp = dev.dpd_temp ∧
      dpd_requests (mt7601u_temp_comp c io dev on_).events = []) := by
  refine ⟨?_, fun hdue => ?_, fun hdue => ?_⟩
  · unfold mt7601u_temp_comp
    simp only
    split_ifs
    all_goals first
      | rfl
      | (show (temp_comp_mode _ _ _ _ _).dev.curr_temp = _
         rw [(temp_comp_mode_keeps _ _ _ _ _).1, (temp_comp_pll_temps _ _).1])
  · by_cases hio : io (phy_event.mcu_calibrate_dpd (temp_comp_temp c dev)) = 0
    · unfold mt7601u_temp_comp
      simp only
      rw [if_neg (by tauto), if_pos hdue, if_pos hdue]
      refine ⟨?_, ?_, fun _ => ?_, fun h => absurd hio h⟩
      · show (temp_comp_mode _ _ _ _ _).dev.dpd_temp = _
        rw [(temp_comp_mode_keeps _ _ _ _ _).2.1, (temp_comp_pll_temps _ _).2.1]
      · simp only [dpd_requests_append, (temp_comp_mode_keeps _ _ _ _ _).2.2,
          (temp_comp_pll_temps _ _).2.2, List.append_nil]
        rfl
      · simp only [List.cons_append, List.append_assoc]
        exact ⟨_, rfl⟩
    · unfold mt7601u_temp_comp
      simp only
      rw [if_pos ⟨hdue, hio⟩, if_pos hdue]
      exact ⟨rfl, rfl, fun h => absurd h hio, fun _ => ⟨rfl, rfl⟩⟩
  · have hdue2 : ¬ temp_comp_dpd_due (temp_comp_temp c dev) dev.dpd_temp = true := by
      rw [hdue]
      decide
    unfold mt7601u_temp_comp
    simp only
    rw [if_neg (by tauto), if_neg hdue2, if_neg hdue2]
    refine ⟨?_, ?_⟩
    · show (temp_comp_mode _ _ _ _ _).dev.dpd_temp = _
      rw [(temp_comp_mode_keeps _ _ _ _ _).2.1, (temp_comp_pll_temps _ _).2.1]
    · simp only [dpd_requests_append, (temp_comp_mode_keeps _ _ _ _ _).2.2,
        (temp_comp_pll_temps _ _).2.2, List.append_nil]
      rfl

/-- Claim C22, amended.  For `s8` temperature readings, a slope and a DPD
reference for which the `int` arithmetic does not wrap, `mt7601u_temp_comp`
computes `temp = (b49_temp - ref_temp) * MT7601_E2_TEMPERATURE_SLOPE` and requests
a DPD calibration if and only if `|temp - dpd_temp| > 450`, in which case
`dpd_temp` becomes `temp` and, when the request succeeds, the VCO calibration
follows (when it fails the function returns its error at once); otherwise
`dpd_temp` is unchanged and no DPD calibration is requested.  After every call
`|curr_temp - dpd_temp| ≤ 450`. -/
theorem temp_comp_dpd_rule (c : phy_consts) (io : phy_event → Int) (dev : mt7601u_dev)
    (on_ : Bool)
    (hb : -128 ≤ dev.b49_temp ∧ dev.b49_temp ≤ 127)
    (hr : -128 ≤ dev.ref_temp ∧ dev.ref_temp ≤ 127)
    (hp : -1073741824 ≤ (dev.b49_temp - dev.ref_temp) * c.MT7601_E2_TEMPERATURE_SLOPE ∧
      (dev.b49_temp - dev.ref_temp) * c.MT7601_E2_TEMPERATURE_SLOPE < 1073741824)
    (hd : -1073741824 ≤ dev.dpd_temp ∧ dev.dpd_temp < 1073741824) :
    (mt7601u_temp_comp c io dev on_).dev.curr_temp =
      (dev.b49_temp - dev.ref_temp) * c.MT7601_E2_TEMPERATURE_SLOPE ∧
    (|(dev.b49_temp - dev.ref_temp) * c.MT7601_E2_TEMPERATURE_SLOPE - dev.dpd_temp| > 450 →
      (mt7601u_temp_comp c io dev on_).dev.dpd_temp =
        (dev.b49_temp - dev.ref_temp) * c.MT7601_E2_TEMPERATURE_SLOPE ∧
      dpd_requests (mt7601u_temp_comp c io dev on_).events =
        [(dev.b49_temp - dev.ref_temp) * c.MT7601_E2_TEMPERATURE_SLOPE] ∧
      (io (phy_event.mcu_calibrate_dpd
          ((dev.b49_temp - dev.ref_temp) * c.MT7601_E2_TEMPERATURE_SLOPE)) = 0 →
        (phy_event.mcu_calibrate_dpd
          ((dev.b49_temp - dev.ref_temp) * c.MT7601_E2_TEMPERATURE_SLOPE) :: mt7601u_vco_cal) <+:
          (mt7601u_temp_comp c io dev on_).events) ∧
      (io (phy_event.mcu_calibrate_dpd
          ((dev.b49_temp - dev.ref_temp) * c.MT7601_E2_TEMPERATURE_SLOPE)) ≠ 0 →
        (mt7601u_temp_comp c io dev on_).events =
          [phy_event.mcu_calibrate_dpd
            ((dev.b49_temp - dev.ref_temp) * c.MT7601_E2_TEMPERATURE_SLOPE)] ∧
        (mt7601u_temp_comp c io dev on_).ret =
          io (phy_event.mcu_calibrate_dpd
            ((dev.b49_temp - dev.ref_temp) * c.MT7601_E2_TEMPERATURE_SLOPE)))) ∧
    (|(dev.b49_temp - dev.ref_temp) * c.MT7601_E2_TEMPERATURE_SLOPE - dev.dpd_temp| ≤ 450 →
      (mt7601u_temp_comp c io dev on_).dev.dpd_temp = dev.dpd_temp ∧
      dpd_requests (mt7601u_temp_comp c io dev on_).events = []) ∧
    |(mt7601u_temp_comp c io dev on_).dev.curr_temp -
      (mt7601u_temp_comp c io dev on_).dev.dpd_temp| ≤ 450 := by
  have htemp : temp_comp_temp c dev =
      (dev.b49_temp - dev.ref_temp) * c.MT7601_E2_TEMPERATURE_SLOPE := by
    unfold temp_comp_temp
    rw [to_s32_of_range (dev.b49_temp - dev.ref_temp) (by omega) (by omega),
      to_s32_of_range _ (by omega) (by omega)]
  obtain ⟨k1, k2, k3⟩ := temp_comp_dpd_block c io dev on_
  rw [htemp] at k1 k2 k3
  generalize (dev.b49_temp - dev.ref_temp) * c.MT7601_E2_TEMPERATURE_SLOPE = temp at *
  have hdue : temp_comp_dpd_due temp dev.dpd_temp = true ↔ |temp - dev.dpd_temp| > 450 := by
    unfold temp_comp_dpd_due
    rw [to_s32_of_range (temp - dev.dpd_temp) (by omega) (by omega)]
    simp only [Bool.or_eq_true, decide_eq_true_eq, gt_iff_lt, lt_abs]
    constructor
    · rintro (h | h)
      · exact Or.inl h
      · exact Or.inr (by omega)
    · rintro (h | h)
      · exact Or.inl h
      · exact Or.inr (by omega)
  refine ⟨k1, fun h => k2 (hdue.mpr h), fun h => k3 ?_, ?_⟩
  · cases hq : temp_comp_dpd_due temp dev.dpd_temp
    · rfl
    · exact absurd (hdue.mp hq) (not_lt.mpr h)
  · rw [k1]
    by_cases hq : |temp - dev.dpd_temp| > 450
    · rw [(k2 (hdue.mpr hq)).1, sub_self, abs_zero]
      decide
    · have hf : temp_comp_dpd_due temp dev.dpd_temp = false := by
        cases hq2 : temp_comp_dpd_due temp dev.dpd_temp
        · rfl
        · exact absurd (hdue.mp hq2) hq
      rw [(k3 hf).1]
      exact not_lt.mp hq

/-- Claim C22, counterexample.  On `hot_dev` the temperature is 780 and the
DPD reference 0, so the DPD calibration is due; when the firmware rejects the
request, the request is the only call made: no VCO calibration follows. -/
theorem temp_comp_dpd_failure_skips_vco :
    |(hot_dev.b49_temp - hot_dev.ref_temp) * mainline_phy_consts.MT7601_E2_TEMPERATURE_SLOPE -
      hot_dev.dpd_temp| > 450 ∧
    (mt7601u_temp_comp mainline_phy_consts io_dpd_fails hot_dev true).events =
      [phy_event.mcu_calibrate_dpd 780] ∧
    ¬ (phy_event.mcu_calibrate_dpd 780 :: mt7601u_vco_cal) <+:
      (mt7601u_temp_comp mainline_phy_consts io_dpd_fails hot_dev true).events := by
  decide

/-- Claim C23, amended.  When `mt7601u_temp_comp` reaches the mode selection
(known bandwidth, no failed DPD calibration), the temperature mode after the call
depends on the computed temperature and the `on` flag only: with `on = false` it
is High iff `temp > 400`, Low iff `temp ≤ -200` and Normal otherwise; with
`on = true` both thresholds are lowered by 50, i.e. it is High iff `temp > 350`,
Low iff `temp ≤ -250` and Normal otherwise. -/
theorem temp_comp_bands (c : phy_consts) (io : phy_event → Int) (dev : mt7601u_dev)
    (on_ : Bool)
    (hdist : c.MT_TEMP_MODE_HIGH ≠ c.MT_TEMP_MODE_NORMAL ∧
      c.MT_TEMP_MODE_HIGH ≠ c.MT_TEMP_MODE_LOW ∧ c.MT_TEMP_MODE_NORMAL ≠ c.MT_TEMP_MODE_LOW)
    (hbw : dev.bw = c.MT_BW_20 ∨ dev.bw = c.MT_BW_40)
    (hd : ¬ (temp_comp_dpd_due (temp_comp_temp c dev) dev.dpd_temp = true ∧
      io (phy_event.mcu_calibrate_dpd (temp_comp_temp c dev)) ≠ 0)) :
    (on_ = false →
      ((mt7601u_temp_comp c io dev on_).dev.temp_mode = c.MT_TEMP_MODE_HIGH ↔
        temp_comp_temp c dev > 400) ∧
      ((mt7601u_temp_comp c io dev on_).dev.temp_mode = c.MT_TEMP_MODE_LOW ↔
        temp_comp_temp c dev ≤ -200) ∧
      ((mt7601u_temp_comp c io dev on_).dev.temp_mode = c.MT_TEMP_MODE_NORMAL ↔
        -200 < temp_comp_temp c dev ∧ temp_comp_temp c dev ≤ 400)) ∧
    (on_ = true →
      ((mt7601u_temp_comp c io dev on_).dev.temp_mode = c.MT_TEMP_MODE_HIGH ↔
        temp_comp_temp c dev > 350) ∧
      ((mt7601u_temp_comp c io dev on_).dev.temp_mode = c.MT_TEMP_MODE_LOW ↔
        temp_comp_temp c dev ≤ -250) ∧
      ((mt7601u_temp_comp c io dev on_).dev.temp_mode = c.MT_TEMP_MODE_NORMAL ↔
        -250 < temp_comp_temp c dev ∧ temp_comp_temp c dev ≤ 350)) := by
  obtain ⟨d, hdb, _, hdev, _⟩ := temp_comp_tail c io dev on_ hd
  have hm : (mt7601u_temp_comp c io dev on_).dev.temp_mode =
      temp_comp_selected_mode c on_ (temp_comp_temp c dev) := by
    rw [hdev]
    exact temp_comp_mode_sets c io d on_ _ (by rw [hdb]; exact hbw)
  rw [hm]
  obtain ⟨d1, d2, d3⟩ := hdist
  generalize temp_comp_temp c dev = temp
  unfold temp_comp_selected_mode
  constructor
  · intro hon
    subst hon
    simp only [Bool.false_eq_true, if_false]
    refine ⟨?_, ?_, ?_⟩ <;> split_ifs <;> constructor <;> intro h <;> omega
  · intro hon
    subst hon
    simp only [if_true]
    refine ⟨?_, ?_, ?_⟩ <;> split_ifs <;> constructor <;> intro h <;> omega

/-- Claim C23, counterexample.  On `cool_dev` the temperature is -195, at most
-150; with `on = true` the mode after the call is Normal (0), not Low (2): the
low threshold is -250. -/
theorem temp_comp_on_shifts_low_band :
    temp_comp_temp mainline_phy_consts cool_dev = -195 ∧ (-195 : Int) ≤ -150 ∧
    (mt7601u_temp_comp mainline_phy_consts io_ok cool_dev true).dev.temp_mode =
      mainline_phy_consts.MT_TEMP_MODE_NORMAL ∧
    (mt7601u_temp_comp mainline_phy_consts io_ok cool_dev true).dev.temp_mode ≠
      mainline_phy_consts.MT_TEMP_MODE_LOW := by
  decide

/-! ## Channel switch (phy.c) -/

/-- Claim C30.  For every channel number `hw_value` in 1..14 and every channel
width and channel type, the index `chan_idx` that `__mt7601u_phy_set_channel`
uses lies in 0..13, so both the row of the 14-row `freq_plan` table and the entry
of a 14-entry per-channel power table exist. -/
theorem set_channel_chan_idx_range (chan_pwr : List Nat) (hw_value width chan_type : Nat)
    (h1 : 1 ≤ hw_value) (h14 : hw_value ≤ 14) (hlen : chan_pwr.length = 14) :
    0 ≤ (set_channel_chan_idx hw_value width chan_type).1 ∧
    (set_channel_chan_idx hw_value width chan_type).1 ≤ 13 ∧
    (set_channel_lookups chan_pwr hw_value width chan_type).1.isSome = true ∧
    (set_channel_lookups chan_pwr hw_value width chan_type).2.isSome = true := by
  have hr : 0 ≤ (set_channel_chan_idx hw_value width chan_type).1 ∧
      (set_channel_chan_idx hw_value width chan_type).1 ≤ 13 := by
    unfold set_channel_chan_idx
    simp only
    split_ifs with h2 h3 h4
    · simp only
      rw [to_s32_of_range _ (by omega) (by omega)]
      omega
    · simp only
      rw [to_s32_of_range _ (by omega) (by omega)]
      omega
    · simp only
      omega
    · simp only
      omega
  have hat : ∀ {α : Type} (t : List α), t.length = 14 →
      (array_at t (set_channel_chan_idx hw_value width chan_type).1).isSome = true := by
    intro α t ht
    unfold array_at
    rw [if_neg (by omega)]
    have : (set_channel_chan_idx hw_value width chan_type).1.toNat < t.length := by omega
    rw [List.getElem?_eq_getElem this]
    rfl
  refine ⟨hr.1, hr.2, hat freq_plan rfl, ?_⟩
  unfold set_channel_lookups
  simp only [Option.isSome_map']
  exact hat chan_pwr hlen

/-! ## Witnesses of the claims on frequency, temperature and channel -/

/-- Witness of C21: on `floor_dev` (adjusting, frequency value 0) a CCK beacon
with offset 30 cannot decrement: the value stays 0, adjusting is cleared and the
monitoring interval is returned. -/
theorem freq_cal_freq_range_witness :
    floor_dev.freq ≤ 0xbf ∧
    (__mt7601u_phy_freq_cal mainline_phy_consts floor_dev 30 0).dev.freq = 0 ∧
    (__mt7601u_phy_freq_cal mainline_phy_consts floor_dev 30 0).dev.adjusting = false ∧
    (__mt7601u_phy_freq_cal mainline_phy_consts floor_dev 30 0).ret =
      mainline_phy_consts.MT_FREQ_CAL_CHECK_INTERVAL :=
  ⟨by decide,
   ((freq_cal_freq_range mainline_phy_consts floor_dev 30 0 (by decide)).2.2 19 5 (by decide)
     rfl rfl).2.2.1 (by decide) rfl⟩

/-- Witness of C22 as amended: `hot_dev` with a firmware that accepts every
call. -/
theorem temp_comp_dpd_rule_witness :
    (mt7601u_temp_comp mainline_phy_consts io_ok hot_dev true).dev.dpd_temp = 780 ∧
    dpd_requests (mt7601u_temp_comp mainline_phy_consts io_ok hot_dev true).events = [780] ∧
    |(mt7601u_temp_comp mainline_phy_consts io_ok hot_dev true).dev.curr_temp -
      (mt7601u_temp_comp mainline_phy_consts io_ok hot_dev true).dev.dpd_temp| ≤ 450 :=
  ⟨((temp_comp_dpd_rule mainline_phy_consts io_ok hot_dev true (by decide) (by decide)
      (by decide) (by decide)).2.1 (by decide)).1,
   ((temp_comp_dpd_rule mainline_phy_consts io_ok hot_dev true (by decide) (by decide)
      (by decide) (by decide)).2.1 (by decide)).2.1,
   (temp_comp_dpd_rule mainline_phy_consts io_ok hot_dev true (by decide) (by decide)
      (by decide) (by decide)).2.2.2⟩

/-- Witness of C23 as amended: `cool_dev` with `on = true` ends in the Normal
mode. -/
theorem temp_comp_bands_witness :
    (mt7601u_temp_comp mainline_phy_consts io_ok cool_dev true).dev.temp_mode =
        mainline_phy_consts.MT_TEMP_MODE_NORMAL ↔
      -250 < temp_comp_temp mainline_phy_consts cool_dev ∧
        temp_comp_temp mainline_phy_consts cool_dev ≤ 350 :=
  ((temp_comp_bands mainline_phy_consts io_ok cool_dev true (by decide) (by decide)
    (by decide)).2 rfl).2.2

/-- Witness of C30: channel 13 with an upper extension channel, where the
index stays 12 and the error message is printed. -/
theorem set_channel_chan_idx_range_witness :
    (1 ≤ 13 ∧ 13 ≤ 14) ∧
    0 ≤ (set_channel_chan_idx 13 NL80211_CHAN_WIDTH_40 NL80211_CHAN_HT40PLUS).1 ∧
    (set_channel_chan_idx 13 NL80211_CHAN_WIDTH_40 NL80211_CHAN_HT40PLUS).1 ≤ 13 ∧
    (set_channel_lookups (List.replicate 14 9) 13 NL80211_CHAN_WIDTH_40
      NL80211_CHAN_HT40PLUS).1.isSome = true ∧
    (set_channel_lookups (List.replicate 14 9) 13 NL80211_CHAN_WIDTH_40
      NL80211_CHAN_HT40PLUS).2.isSome = true :=
  ⟨by decide,
   set_channel_chan_idx_range (List.replicate 14 9) 13 NL80211_CHAN_WIDTH_40
     NL80211_CHAN_HT40PLUS (by decide) (by decide) rfl⟩

/-! ## RX segments (dma.c) -/

/-- Claim C25, evaluation of the code at the failing input.  With the
mainline header sizes, for a buffer of 40 bytes whose header declares the length
4, `mt7601u_rx_next_seg_len` returns the non-zero segment length 12, below
`MT_DMA_HDR_LEN + sizeof(struct mt7601u_rxwi) + MT_FCE_INFO_LEN = 36`; the payload
length that `mt7601u_rx_process_seg` computes wraps to `2^32 - 24`, which is the
size it asks `alloc_skb` for and, if that succeeds, the number of bytes it
copies. -/
theorem rx_short_segment_wraps :
    mt7601u_rx_next_seg_len mainline_consts short_seg_buf 40 = 12 ∧
    12 < mainline_consts.MT_DMA_HDR_LEN + mainline_consts.sizeof_rxwi +
      mainline_consts.MT_FCE_INFO_LEN ∧
    rx_seg_payload_len mainline_consts 12 = 4294967272 ∧
    mt7601u_rx_process_entry mainline_consts
        { initialized := true, removed := false, more_stats := false, reading_stats := false }
        { urb := { id := 0, status := 0, actual_length := 40 }, buf := short_seg_buf } =
      [rx_event.process_seg 0 12] ∧
    mt7601u_rx_process_seg mainline_consts 4 true true 12 =
      [seg_event.alloc_skb 4294967272, seg_event.memcpy 32 4294967272,
       seg_event.rx_ni 4294967272] := by
  refine ⟨by decide, by decide, by decide, ?_, by decide⟩
  have s1 : rx_next_seg mainline_consts (short_seg_buf.drop 0) 40 = (12, []) := by decide
  have s2 : rx_next_seg mainline_consts (short_seg_buf.drop 12) 28 = (0, []) := by decide
  have l1 : to_u32 (((40 : Nat) : Int) - ((12 : Nat) : Int)) = 28 := by decide
  have hloop : rx_process_loop mainline_consts short_seg_buf 0 40 0 =
      ([rx_event.process_seg 0 12], 1) := by
    rw [rx_process_loop]
    simp only [s1]
    rw [dif_neg (by decide), l1, rx_process_loop]
    simp only [Nat.zero_add, s2]
    simp
  simp [mt7601u_rx_process_entry, hloop]

/-- The segment length that `mt7601u_rx_next_seg_len` returns is never larger
than the number of bytes left. -/
theorem rx_next_seg_le (c : dma_consts) (data : List Nat) (data_len : Nat) :
    (rx_next_seg c data data_len).1 ≤ data_len := by
  simp only [rx_next_seg, nat_to_u16]
  split_ifs <;> simp
  omega

/-- The warnings of `mt7601u_rx_next_seg_len` are no segments. -/
theorem rx_segs_next_seg (c : dma_consts) (data : List Nat) (data_len : Nat) :
    rx_segs (rx_next_seg c data data_len).2 = [] := by
  simp only [rx_next_seg]
  split_ifs <;> rfl

theorem rx_segs_append (a b : List rx_event) : rx_segs (a ++ b) = rx_segs a ++ rx_segs b := by
  induction a with
  | nil => rfl
  | cons x xs ih =>
    cases x <;> simp [rx_segs, ih]

/-- The segments of the loop of `mt7601u_rx_process_entry`, started at offset
`off` with `data_len` bytes left: they are contiguous from `off`, not empty, inside
the `data_len` bytes, their lengths add up to at most `data_len`, and the counter
counts them. -/
theorem rx_process_loop_segs (c : dma_consts) (buf : List Nat) :
    ∀ (data_len off cnt : Nat), data_len < 4294967296 →
      segs_contiguous off (rx_segs (rx_process_loop c buf off data_len cnt).1) = true ∧
      (∀ s ∈ rx_segs (rx_process_loop c buf off data_len cnt).1,
        0 < s.2 ∧ off ≤ s.1 ∧ s.1 + s.2 ≤ off + data_len) ∧
      ((rx_segs (rx_process_loop c buf off data_len cnt).1).map Prod.snd).sum ≤ data_len ∧
      (rx_process_loop c buf off data_len cnt).2 =
        cnt + (rx_segs (rx_process_loop c buf off data_len cnt).1).length := by
  intro data_len
  induction data_len using Nat.strong_induction_on with
  | _ data_len ih =>
    intro off cnt h32
    rw [rx_process_loop]
    have hle := rx_next_seg_le c (buf.drop off) data_len
    have hw := rx_segs_next_seg c (buf.drop off) data_len
    by_cases h0 : (rx_next_seg c (buf.drop off) data_len).1 = 0
    · simp only [h0, dite_true, hw]
      simp [segs_contiguous]
    · simp only [h0, dite_false]
      have hsub : to_u32 ((data_len : Int) - ((rx_next_seg c (buf.drop off) data_len).1 : Int)) =
          data_len - (rx_next_seg c (buf.drop off) data_len).1 := by
        unfold to_u32
        omega
      rw [hsub]
      obtain ⟨i1, i2, i3, i4⟩ := ih (data_len - (rx_next_seg c (buf.drop off) data_len).1)
        (by omega) (off + (rx_next_seg c (buf.drop off) data_len).1) (cnt + 1) (by omega)
      simp only [rx_segs_append, hw, List.nil_append, rx_segs]
      refine ⟨?_, ?_, ?_, ?_⟩
      · simp only [segs_contiguous, beq_self_eq_true, Bool.true_and]
        exact i1
      · intro s hs
        rcases List.mem_cons.mp hs with rfl | hs
        · exact ⟨Nat.pos_of_ne_zero h0, Nat.le_refl _, by omega⟩
        · have := i2 s hs
          omega
      · simp only [List.map_cons, List.sum_cons]
        omega
      · rw [i4, List.length_cons]
        omega

/-- Claim C26.  For every buffer content and every `actual_length` (a `u32`),
the segmentation loop of `mt7601u_rx_process_entry` ends after at most
`actual_length` segments; every segment it processes starts where the previous
one ended (the first at offset 0), is not empty and lies within the first
`actual_length` bytes; every segment length is at most the number of bytes left,
so the remaining-bytes counter never underflows, and the lengths consumed add up
to at most `actual_length`. -/
theorem rx_segments_within_buffer (c : dma_consts) (state : dev_state) (e : mt7601u_dma_buf)
    (h32 : e.urb.actual_length < 4294967296) :
    segs_contiguous 0 (rx_segs (mt7601u_rx_process_entry c state e)) = true ∧
    (∀ s ∈ rx_segs (mt7601u_rx_process_entry c state e),
      0 < s.2 ∧ s.1 + s.2 ≤ e.urb.actual_length) ∧
    ((rx_segs (mt7601u_rx_process_entry c state e)).map Prod.snd).sum ≤ e.urb.actual_length ∧
    (rx_segs (mt7601u_rx_process_entry c state e)).length ≤ e.urb.actual_length ∧
    (∀ (data : List Nat) (data_len : Nat), mt7601u_rx_next_seg_len c data data_len ≤ data_len) := by
  have hentry : rx_segs (mt7601u_rx_process_entry c state e) = [] ∨
      rx_segs (mt7601u_rx_process_entry c state e) =
        rx_segs (rx_process_loop c e.buf 0 e.urb.actual_length 0).1 := by
    unfold mt7601u_rx_process_entry
    by_cases hi : (!state.initialized) = true
    · rw [if_pos hi]
      exact Or.inl rfl
    · rw [if_neg hi]
      right
      simp only
      split_ifs
      · simp only [rx_segs_append]
        simp [rx_segs]
      · rfl
  obtain ⟨k1, k2, k3, _⟩ := rx_process_loop_segs c e.buf e.urb.actual_length 0 0 h32
  have hlen : ∀ (l : List (Nat × Nat)), (∀ s ∈ l, 0 < s.2) → l.length ≤ (l.map Prod.snd).sum := by
    intro l
    induction l with
    | nil => intro _; simp
    | cons x xs ih =>
      intro h
      have hx := h x (List.mem_cons_self _ _)
      have := ih (fun s hs => h s (List.mem_cons_of_mem _ hs))
      simp only [List.length_cons, List.map_cons, List.sum_cons]
      omega
  refine ⟨?_, ?_, ?_, ?_, fun data data_len => rx_next_seg_le c data data_len⟩
  · rcases hentry with h | h <;> rw [h]
    · rfl
    · exact k1
  · rcases hentry with h | h <;> rw [h]
    · intro s hs
      cases hs
    · intro s hs
      have := k2 s hs
      omega
  · rcases hentry with h | h <;> rw [h]
    · simp
    · exact k3
  · rcases hentry with h | h <;> rw [h]
    · simp
    · exact Nat.le_trans (hlen _ (fun s hs => (k2 s hs).1)) k3

/-- Witness of C26: the two segments of `two_segment_buf` with the mainline
header sizes. -/
theorem rx_segments_within_buffer_witness :
    (120 : Nat) < 4294967296 ∧
    segs_contiguous 0 (rx_segs (mt7601u_rx_process_entry mainline_consts
      { initialized := true, removed := false, more_stats := false, reading_stats := false }
      { urb := { id := 0, status := 0, actual_length := 120 }, buf := two_segment_buf })) = true ∧
    ((rx_segs (mt7601u_rx_process_entry mainline_consts
      { initialized := true, removed := false, more_stats := false, reading_stats := false }
      { urb := { id := 0, status := 0, actual_length := 120 }, buf := two_segment_buf })).map
        Prod.snd).sum ≤ 120 :=
  ⟨by decide,
   (rx_segments_within_buffer mainline_consts
      { initialized := true, removed := false, more_stats := false, reading_stats := false }
      { urb := { id := 0, status := 0, actual_length := 120 }, buf := two_segment_buf }
      (by decide)).1,
   (rx_segments_within_buffer mainline_consts
      { initialized := true, removed := false, more_stats := false, reading_stats := false }
      { urb := { id := 0, status := 0, actual_length := 120 }, buf := two_segment_buf }
      (by decide)).2.2.1⟩

/-! ## Order of the TX ring (dma.c) -/

theorem tx_status_frames_append (a b : List tx_event) :
    tx_status_frames (a ++ b) = tx_status_frames a ++ tx_status_frames b := by
  induction a with
  | nil => rfl
  | cons x xs ih =>
    cases x <;> simp [tx_status_frames, ih]

/-- Writing the slot at `start + k` leaves the `k` older slots of the ring as
they are. -/
theorem in_flight_set_end (n start k : Nat) (e : List tx_entry) (x : tx_entry) (hk : k < n) :
    (List.range k).filterMap
        (fun i => ((e.set ((start + k) % n) x)[(start + i) % n]?).map (fun slot => slot.skb)) =
      (List.range k).filterMap (fun i => (e[(start + i) % n]?).map (fun slot => slot.skb)) := by
  apply List.filterMap_congr
  intro i hi
  rw [List.mem_range] at hi
  have hne : (start + k) % n ≠ (start + i) % n := by
    intro h
    have := ring_offset_inj n start k i hk (by omega) h
    omega
  rw [List.getElem?_set_ne hne]

/-- The invariant of the TX ring and of its record is kept by every operation
in which a completion is for the oldest frame in flight. -/
theorem tx_step_log_keeps (n : Nat) (s : tx_fifo_log) (op : tx_op) (hn : 0 < n)
    (hq : s.q.entries = n) (hlen : s.q.e.length = n) (hs : s.q.start < n)
    (hu0 : 0 ≤ s.q.used) (hun : s.q.used ≤ n)
    (he : s.q.end_ = (s.q.start + s.q.used.toNat) % n)
    (hc : s.submitted = s.completed ++ tx_in_flight_frames s.q)
    (hop : tx_op_oldest s.q op = true) :
    (tx_step_log s op).q.entries = n ∧ (tx_step_log s op).q.e.length = n ∧
    (tx_step_log s op).q.start < n ∧ 0 ≤ (tx_step_log s op).q.used ∧
    (tx_step_log s op).q.used ≤ n ∧
    (tx_step_log s op).q.end_ =
      ((tx_step_log s op).q.start + (tx_step_log s op).q.used.toNat) % n ∧
    (tx_step_log s op).submitted =
      (tx_step_log s op).completed ++ tx_in_flight_frames (tx_step_log s op).q := by
  obtain ⟨k, hk⟩ : ∃ k : Nat, s.q.used = k := ⟨s.q.used.toNat, by omega⟩
  have hkn : k ≤ n := by omega
  have hek : s.q.end_ = (s.q.start + k) % n := by rw [he, hk, Int.toNat_ofNat]
  cases op with
  | submit skb dma dma_error submit_ret =>
    simp only [tx_step_log, tx_step, usb_kick_out]
    by_cases hfull : (s.q.entries : Int) ≤ s.q.used
    · rw [if_pos hfull]
      simp only [ENOSPC, tx_status_frames, List.append_nil]
      exact ⟨hq, hlen, hs, hu0, hun, he, by simpa using hc⟩
    · rw [if_neg hfull]
      have hkl : k < n := by omega
      have hend : s.q.end_ < s.q.e.length := by
        rw [hek, hlen]
        exact Nat.mod_lt _ hn
      obtain ⟨slot, hslot⟩ : ∃ slot, s.q.e[s.q.end_]? = some slot :=
        ⟨_, List.getElem?_eq_getElem hend⟩
      simp only [hslot]
      have hkeep : ∀ x : tx_entry, tx_in_flight_frames { s.q with e := s.q.e.set s.q.end_ x } =
          tx_in_flight_frames s.q := by
        intro x
        simp only [tx_in_flight_frames, hk, Int.toNat_ofNat, hq]
        rw [hek]
        exact in_flight_set_end n s.q.start k s.q.e x hkl
      by_cases hde : dma_error = true
      · simp only [hde, if_true]
        refine ⟨hq, by simpa using hlen, hs, hu0, hun, he, ?_⟩
        rw [hkeep]
        simpa [tx_status_frames] using hc
      · simp only [hde, Bool.false_eq_true, if_false]
        by_cases hret : submit_ret = 0
        · rw [if_neg (not_not.mpr hret)]
          simp only [hret, if_true]
          have hk1 : ((k : Int) + 1).toNat = k + 1 := by omega
          refine ⟨hq, by simpa using hlen, hs, by omega, by omega, ?_, ?_⟩
          · simp only [hq, hek, hk, hk1]
            rw [Nat.mod_add_mod, Nat.add_assoc]
          · have hfr : tx_status_frames ([tx_event.dma_map skb,
                tx_event.submit_urb ((Option.map (fun slot => slot.urb) (some slot)).getD 0)
                  skb dma] ++
                if (s.q.entries : Int) ≤ s.q.used + 1 then [tx_event.stop_queue skb.queue_mapping]
                else []) = [] := by
              split_ifs <;> rfl
            simp only [hfr, List.append_nil]
            simp only [tx_in_flight_frames, hq, hk, hk1]
            rw [List.range_succ, List.filterMap_append]
            have h1 := in_flight_set_end n s.q.start k s.q.e
              { slot with skb := skb, dma := dma } hkl
            rw [hek, h1]
            simp only [List.filterMap_cons, List.filterMap_nil]
            have hlt : (s.q.start + k) % n < s.q.e.length := by
              rw [hlen]
              exact Nat.mod_lt _ hn
            rw [List.getElem?_set_self hlt]
            simp only [Option.map_some']
            rw [hc, List.append_assoc]
            simp only [tx_in_flight_frames, hq, hk, Int.toNat_ofNat]
        · rw [if_pos hret]
          by_cases hnd : submit_ret = -ENODEV
          · rw [if_pos hnd]
            refine ⟨hq, by simpa using hlen, hs, hu0, hun, he, ?_⟩
            rw [hkeep]
            simpa [tx_status_frames, hret] using hc
          · rw [if_neg hnd]
            refine ⟨hq, by simpa using hlen, hs, hu0, hun, he, ?_⟩
            rw [hkeep]
            simpa [tx_status_frames, hret] using hc
  | complete u =>
    simp only [tx_op_oldest, Bool.and_eq_true, decide_eq_true_eq, tx_completion_accepted] at hop
    obtain ⟨hpos, hacc⟩ := hop
    obtain ⟨j, hj⟩ : ∃ j : Nat, k = j + 1 := ⟨k - 1, by omega⟩
    have hst : s.q.start < s.q.e.length := by rw [hlen]; exact hs
    obtain ⟨slot, hslot⟩ : ∃ slot, s.q.e[s.q.start]? = some slot :=
      ⟨_, List.getElem?_eq_getElem hst⟩
    rw [hslot] at hacc
    simp only [Option.map_some', Option.some.injEq] at hacc
    simp only [tx_step_log, tx_step, mt7601u_complete_tx, hslot]
    rw [if_neg (not_not.mpr hacc)]
    have e1 : (((j + 1 : Nat) : Int)).toNat = j + 1 := by omega
    have e2 : (((j + 1 : Nat) : Int) - 1).toNat = j := by omega
    have hfl : tx_in_flight_frames s.q = slot.skb ::
        tx_in_flight_frames
          { s.q with start := (s.q.start + 1) % s.q.entries, used := s.q.used - 1 } := by
      simp only [tx_in_flight_frames, hq, hk, hj]
      rw [e1, e2, List.range_succ_eq_map, List.filterMap_cons]
      simp only [Nat.add_zero, Nat.mod_eq_of_lt hs, hslot, Option.map_some', List.filterMap_map]
      congr 1
      apply List.filterMap_congr
      intro i _
      simp only [Function.comp, Nat.mod_add_mod]
      congr 3
      omega
    have hidx : (s.q.start + 1) % s.q.entries < n := by rw [hq]; exact Nat.mod_lt _ hn
    have hend2 : s.q.end_ = ((s.q.start + 1) % s.q.entries + (s.q.used - 1).toNat) % n := by
      rw [hek, hq, hk, hj, Nat.mod_add_mod, e2]
      congr 1
      omega
    split_ifs
    all_goals
      refine ⟨hq, hlen, hidx, by simp only; omega, by simp only; omega, hend2, ?_⟩
      rw [hc, hfl]
      simp [tx_status_frames]

/-- The invariant of the TX ring and of its record is kept along a run. -/
theorem tx_run_log_keeps (n : Nat) (ops : List tx_op) (s : tx_fifo_log) (hn : 0 < n)
    (hq : s.q.entries = n) (hlen : s.q.e.length = n) (hs : s.q.start < n)
    (hu0 : 0 ≤ s.q.used) (hun : s.q.used ≤ n)
    (he : s.q.end_ = (s.q.start + s.q.used.toNat) % n)
    (hc : s.submitted = s.completed ++ tx_in_flight_frames s.q)
    (hop : tx_oldest_first s.q s.state ops = true) :
    (tx_run_log s ops).q.entries = n ∧
    (tx_run_log s ops).q.start < n ∧ 0 ≤ (tx_run_log s ops).q.used ∧
    (tx_run_log s ops).q.used ≤ n ∧
    (tx_run_log s ops).q.end_ =
      ((tx_run_log s ops).q.start + (tx_run_log s ops).q.used.toNat) % n ∧
    (tx_run_log s ops).submitted =
      (tx_run_log s ops).completed ++ tx_in_flight_frames (tx_run_log s ops).q := by
  induction ops generalizing s with
  | nil => exact ⟨hq, hs, hu0, hun, he, hc⟩
  | cons op ops ih =>
    simp only [tx_oldest_first, Bool.and_eq_true] at hop
    obtain ⟨h1, h2, h3, h4, h5, h6, h7⟩ :=
      tx_step_log_keeps n s op hn hq hlen hs hu0 hun he hc hop.1
    exact ih (tx_step_log s op) h1 h2 h3 h4 h5 h6 h7 hop.2

/-- Claim C28.  For every sequence of submissions (`usb_kick_out`) and
completions (`mt7601u_complete_tx`) on a freshly allocated TX queue in which each
completion is for the oldest frame in flight, the ring indices stay consistent:
`start < entries`, `end < entries`, `0 ≤ used ≤ entries`,
`end = (start + used) mod entries`; the frames submitted with success are those
handed to the status path followed by those in flight, so the frame handed to the
status path by the k-th completion is the frame of the k-th successful
submission. -/
theorem tx_ring_fifo (n : Nat) (urbs : List Nat) (state : dev_state) (ops : List tx_op)
    (hn : 0 < n) (hurbs : urbs.length = n)
    (hop : tx_oldest_first (mt7601u_alloc_tx_queue n urbs) state ops = true) :
    let s := tx_run_log
      { q := mt7601u_alloc_tx_queue n urbs, state := state, submitted := [], completed := [] } ops
    s.q.start < s.q.entries ∧ s.q.end_ < s.q.entries ∧
    0 ≤ s.q.used ∧ s.q.used ≤ s.q.entries ∧
    s.q.end_ = (s.q.start + s.q.used.toNat) % s.q.entries ∧
    s.submitted = s.completed ++ tx_in_flight_frames s.q ∧
    s.completed.length ≤ s.submitted.length ∧
    (∀ k, k < s.completed.length → s.completed[k]? = s.submitted[k]?) := by
  intro s
  have h : s.q.entries = n ∧ s.q.start < n ∧ 0 ≤ s.q.used ∧ s.q.used ≤ n ∧
      s.q.end_ = (s.q.start + s.q.used.toNat) % n ∧
      s.submitted = s.completed ++ tx_in_flight_frames s.q := tx_run_log_keeps n ops
    { q := mt7601u_alloc_tx_queue n urbs, state := state, submitted := [], completed := [] }
    hn rfl (by simp [mt7601u_alloc_tx_queue, hurbs]) hn (by simp [mt7601u_alloc_tx_queue])
    (by simp [mt7601u_alloc_tx_queue])
    (by simp [mt7601u_alloc_tx_queue, Nat.mod_eq_of_lt hn])
    (by simp [mt7601u_alloc_tx_queue, tx_in_flight_frames]) hop
  clear_value s
  obtain ⟨h1, h2, h3, h4, h5, h6⟩ := h
  rw [h1]
  refine ⟨h2, by rw [h5]; exact Nat.mod_lt _ hn, h3, h4, h5, h6,
    by rw [h6, List.length_append]; omega, ?_⟩
  intro k hk
  rw [h6, List.getElem?_append_left hk]

/-- Witness of C28: a ring of two slots; two frames are submitted, the first
completes, a third is submitted, the second completes. -/
theorem tx_ring_fifo_witness :
    (let s := tx_run_log
      { q := mt7601u_alloc_tx_queue 2 [10, 11],
        state := { initialized := true, removed := false, more_stats := false,
                   reading_stats := false },
        submitted := [], completed := [] }
      [tx_op.submit { id := 1, len := 100, queue_mapping := 2 } 4096 false 0,
       tx_op.submit { id := 2, len := 100, queue_mapping := 2 } 8192 false 0,
       tx_op.complete { id := 10, status := 0, actual_length := 100 },
       tx_op.submit { id := 3, len := 100, queue_mapping := 2 } 12288 false 0,
       tx_op.complete { id := 11, status := 0, actual_length := 100 }]
    s.q.start < s.q.entries ∧ s.q.end_ < s.q.entries ∧
    0 ≤ s.q.used ∧ s.q.used ≤ s.q.entries ∧
    s.q.end_ = (s.q.start + s.q.used.toNat) % s.q.entries ∧
    s.submitted = s.completed ++ tx_in_flight_frames s.q ∧
    s.completed.length ≤ s.submitted.length ∧
    (∀ k, k < s.completed.length → s.completed[k]? = s.submitted[k]?)) :=
  tx_ring_fifo 2 [10, 11]
    { initialized := true, removed := false, more_stats := false, reading_stats := false }
    _ (by decide) rfl (by decide)

/-! ## Status collector (tx.c) -/

/-- Claim C24, counterexample.  With stations registered at the indices 0 and
1 only, a run that fetches one valid entry for the station index 5 forwards one
report to the MAC layer, with no station: the report is not dropped. -/
theorem tx_stat_unknown_station_forwarded :
    ¬ (5 < [some 7, some 8].length) ∧
    tx_reports (mt7601u_tx_stat 8 [some 7, some 8] idle_state [sample_stat 5]).2 =
      [(none, mt7601u_tx_pktid_dec 8 (sample_stat 5))] := by
  decide

/-- The reports of the loop of `mt7601u_tx_stat`: one per entry fetched before
the first invalid one, in order, each filled from its decoded entry; the counter
counts them. -/
theorem tx_stat_loop_reports (retry_bits : Nat) (wcids : List (Option Nat))
    (fetched : List mt76_tx_status) :
    ∀ (wcid sta : Option Nat),
      (tx_reports (tx_stat_loop retry_bits wcids wcid sta fetched).1).map Prod.snd =
        (fetched_valid fetched).map (mt7601u_tx_pktid_dec retry_bits) ∧
      (tx_stat_loop retry_bits wcids wcid sta fetched).2 = (fetched_valid fetched).length := by
  induction fetched with
  | nil => intro wcid sta; exact ⟨rfl, rfl⟩
  | cons stat fetched ih =>
    intro wcid sta
    simp only [tx_stat_loop, fetched_valid]
    by_cases hv : stat.valid = false
    · rw [if_pos hv, if_pos hv]
      exact ⟨rfl, rfl⟩
    · rw [if_neg hv, if_neg hv]
      simp only [tx_reports, List.map_cons, List.length_cons]
      obtain ⟨i1, i2⟩ := ih
        (if (mt7601u_tx_pktid_dec retry_bits stat).wcid < wcids.length
          then wcid_at wcids (mt7601u_tx_pktid_dec retry_bits stat).wcid else wcid)
        (if (if (mt7601u_tx_pktid_dec retry_bits stat).wcid < wcids.length
            then wcid_at wcids (mt7601u_tx_pktid_dec retry_bits stat).wcid else wcid).isSome = true
          then (if (mt7601u_tx_pktid_dec retry_bits stat).wcid < wcids.length
            then wcid_at wcids (mt7601u_tx_pktid_dec retry_bits stat).wcid else wcid)
          else sta)
      rw [i1, i2]
      exact ⟨rfl, by push_cast; rfl⟩

/-- The rescheduling tail of `mt7601u_tx_stat` forwards no report. -/
theorem tx_reports_tail (state : dev_state) (cleaned : Int) :
    tx_reports (tx_stat_tail state cleaned).2 = [] := by
  unfold tx_stat_tail
  split_ifs <;> rfl

theorem tx_reports_append (a b : List stat_event) :
    tx_reports (a ++ b) = tx_reports a ++ tx_reports b := by
  induction a with
  | nil => rfl
  | cons x xs ih =>
    cases x <;> simp [tx_reports, ih]

/-- Claim C24, amended.  In `mt7601u_tx_stat` on a device that is not removed,
every status entry fetched before the first invalid one is forwarded to the MAC
layer, one report per entry in the order fetched, whether or not its station index
is in range or has a registered station; when the first entry of the run has a
station index that is out of range or has no registered station, its report is
forwarded with no station. -/
theorem tx_stat_forwards_every_entry (retry_bits : Nat) (wcids : List (Option Nat))
    (state : dev_state) (fetched : List mt76_tx_status) (hrem : state.removed = false) :
    (tx_reports (mt7601u_tx_stat retry_bits wcids state fetched).2).map Prod.snd =
      (fetched_valid fetched).map (mt7601u_tx_pktid_dec retry_bits) ∧
    (tx_reports (mt7601u_tx_stat retry_bits wcids state fetched).2).length =
      (fetched_valid fetched).length ∧
    (∀ (stat : mt76_tx_status) (rest : List mt76_tx_status), fetched = stat :: rest →
      stat.valid = true →
      (¬ stat.wcid < wcids.length ∨ wcid_at wcids stat.wcid = none) →
      (tx_reports (mt7601u_tx_stat retry_bits wcids state fetched).2).head? =
        some (none, mt7601u_tx_pktid_dec retry_bits stat)) := by
  have hrun : tx_reports (mt7601u_tx_stat retry_bits wcids state fetched).2 =
      tx_reports (tx_stat_loop retry_bits wcids none none fetched).1 := by
    unfold mt7601u_tx_stat
    simp only [hrem, Bool.false_eq_true, if_false, tx_reports_append, tx_reports_tail,
      List.append_nil]
  rw [hrun]
  have h := (tx_stat_loop_reports retry_bits wcids fetched none none).1
  refine ⟨h, ?_, ?_⟩
  · have := congrArg List.length h
    simpa using this
  · intro stat rest hf hv hun
    subst hf
    have hw : (mt7601u_tx_pktid_dec retry_bits stat).wcid = stat.wcid := rfl
    simp only [tx_stat_loop, hv, Bool.true_eq_false, if_false, tx_reports, List.head?_cons, hw]
    rcases hun with h1 | h1
    · rw [if_neg h1]
      rfl
    · by_cases h2 : stat.wcid < wcids.length
      · rw [if_pos h2, h1]
        rfl
      · rw [if_neg h2]
        rfl

/-- Witness of C24 as amended: the run of the counterexample. -/
theorem tx_stat_forwards_every_entry_witness :
    idle_state.removed = false ∧
    (tx_reports (mt7601u_tx_stat 8 [some 7, some 8] idle_state
      [sample_stat 5, sample_stat 1]).2).length =
      (fetched_valid [sample_stat 5, sample_stat 1]).length ∧
    (tx_reports (mt7601u_tx_stat 8 [some 7, some 8] idle_state
      [sample_stat 5, sample_stat 1]).2).head? =
      some (none, mt7601u_tx_pktid_dec 8 (sample_stat 5)) :=
  ⟨rfl,
   (tx_stat_forwards_every_entry 8 [some 7, some 8] idle_state
     [sample_stat 5, sample_stat 1] rfl).2.1,
   (tx_stat_forwards_every_entry 8 [some 7, some 8] idle_state
     [sample_stat 5, sample_stat 1] rfl).2.2 (sample_stat 5) [sample_stat 1] rfl rfl
     (Or.inl (by decide))⟩

/-- Claim C27, evaluation of the code at the failing input.  With station 8
registered at index 1 and nothing at index 0, a run that fetches an entry for
index 1, then one for index 5 (out of range) and one for index 0 (nothing
registered) forwards all three reports with station 8: the locals `wcid` and `sta`
keep the value of the earlier iteration. -/
theorem tx_stat_stale_station :
    wcid_at [none, some 8] 1 = some 8 ∧ ¬ (5 < [none, some 8].length) ∧
    wcid_at [none, some 8] 0 = none ∧
    (tx_reports (mt7601u_tx_stat 8 [none, some 8] idle_state
      [sample_stat 1, sample_stat 5, sample_stat 0]).2).map Prod.fst =
      [some 8, some 8, some 8] ∧
    (tx_reports (mt7601u_tx_stat 8 [none, some 8] idle_state
      [sample_stat 5, sample_stat 0]).2).map Prod.fst = [none, none] := by
  decide

/-! ## Scheduling of the status collector (dma.c, tx.c) -/

/-- What `mt7601u_complete_tx` does to the status flags: nothing, or it sets
both, and it queues the collector exactly when it sets `READING_STATS`. -/
theorem complete_tx_flags (q : mt7601u_tx_queue) (state : dev_state) (u : urb) :
    ((mt7601u_complete_tx q state u).state = state ∧
      queues_stat_work (mt7601u_complete_tx q state u).events = false) ∨
    ((mt7601u_complete_tx q state u).state =
        { state with more_stats := true, reading_stats := true } ∧
      queues_stat_work (mt7601u_complete_tx q state u).events = !state.reading_stats) := by
  unfold mt7601u_complete_tx
  cases hslot : q.e[q.start]? with
  | none => exact Or.inl ⟨rfl, rfl⟩
  | some slot =>
    simp only
    have hq : ∀ (tail : List tx_event),
        queues_stat_work
          (((if mt7601u_urb_has_error u = true then [tx_event.err_tx_urb_failed u.status] else []) ++
            [tx_event.dma_unmap slot.dma slot.skb.len, tx_event.tx_status slot.skb] ++
            if (q.entries : Int) ≤ q.used then [tx_event.wake_queue slot.skb.queue_mapping]
            else []) ++ tail) = queues_stat_work tail := by
      intro tail
      split_ifs <;> rfl
    by_cases h1 : slot.urb ≠ u.id
    · rw [if_pos h1]
      exact Or.inl ⟨rfl, rfl⟩
    · rw [if_neg h1]
      by_cases h2 : u.status ≠ 0
      · rw [if_pos h2]
        left
        refine ⟨rfl, ?_⟩
        have := hq []
        simpa using this
      · rw [if_neg h2]
        right
        cases hr : state.reading_stats
        · rw [if_pos (by simp [hr])]
          refine ⟨rfl, ?_⟩
          rw [hq]
          rfl
        · rw [if_neg (by simp [hr])]
          refine ⟨?_, ?_⟩
          · cases state
            simp_all
          · have := hq []
            simpa using this

/-- The invariant of the status flags is kept by every step. -/
theorem stat_sched_step_keeps (s : stat_sched) (op : stat_op)
    (h1 : s.state.reading_stats = (s.queued || s.running))
    (h2 : s.state.more_stats = true → s.state.reading_stats = true)
    (h3 : s.requeues = 0) (h4 : (s.queued && s.running) = false) :
    (stat_sched_step s op).state.reading_stats =
      ((stat_sched_step s op).queued || (stat_sched_step s op).running) ∧
    ((stat_sched_step s op).state.more_stats = true →
      (stat_sched_step s op).state.reading_stats = true) ∧
    (stat_sched_step s op).requeues = 0 ∧
    ((stat_sched_step s op).queued && (stat_sched_step s op).running) = false := by
  cases op with
  | complete q u =>
    simp only [stat_sched_step]
    rcases complete_tx_flags q s.state u with ⟨e1, e2⟩ | ⟨e1, e2⟩
    · rw [e1, e2]
      simp only [Bool.or_false, Bool.false_and, Bool.false_eq_true, if_false]
      exact ⟨h1, h2, h3, h4⟩
    · rw [e1, e2]
      simp only
      cases hr : s.state.reading_stats
      · rw [hr] at h1
        have hq : s.queued = false := by
          cases hq : s.queued
          · rfl
          · rw [hq] at h1; simp at h1
        have hrun : s.running = false := by
          cases hq2 : s.running
          · rfl
          · rw [hq2] at h1; simp at h1
        simp [hq, hrun, h3]
      · rw [hr] at h1
        simp only [Bool.not_true, Bool.or_false, Bool.false_and, Bool.false_eq_true, if_false]
        exact ⟨h1, fun _ => trivial, h3, h4⟩
  | collector_start =>
    simp only [stat_sched_step]
    cases hq : s.queued
    · simp only [Bool.false_eq_true, if_false]
      exact ⟨h1, h2, h3, h4⟩
    · simp only [if_true]
      rw [hq] at h1
      refine ⟨?_, h2, h3, rfl⟩
      simp only [Bool.true_or] at h1
      simp [h1]
  | collector_finish cleaned =>
    simp only [stat_sched_step]
    cases hrun : s.running
    · simp only [Bool.false_eq_true, if_false]
      exact ⟨h1, h2, h3, h4⟩
    · simp only [if_true]
      have hq : s.queued = false := by
        cases hq : s.queued
        · rfl
        · rw [hq, hrun] at h4; simp at h4
      rw [hq, hrun] at h1
      simp only [Bool.or_true] at h1
      unfold tx_stat_tail
      by_cases hc : cleaned ≠ 0
      · rw [if_pos hc]
        simp [hq, h1, h3]
      · rw [if_neg hc]
        cases hm : s.state.more_stats
        · simp [hq, h3, hm]
        · simp [hq, h3, h1]

/-- The invariant of the status flags is kept along a run. -/
theorem stat_sched_run_keeps (ops : List stat_op) (s : stat_sched)
    (h1 : s.state.reading_stats = (s.queued || s.running))
    (h2 : s.state.more_stats = true → s.state.reading_stats = true)
    (h3 : s.requeues = 0) (h4 : (s.queued && s.running) = false) :
    (stat_sched_run s ops).state.reading_stats =
      ((stat_sched_run s ops).queued || (stat_sched_run s ops).running) ∧
    ((stat_sched_run s ops).state.more_stats = true →
      (stat_sched_run s ops).state.reading_stats = true) ∧
    (stat_sched_run s ops).requeues = 0 := by
  induction ops generalizing s with
  | nil => exact ⟨h1, h2, h3⟩
  | cons op ops ih =>
    obtain ⟨k1, k2, k3, k4⟩ := stat_sched_step_keeps s op h1 h2 h3 h4
    exact ih (stat_sched_step s op) k1 k2 k3 k4

/-- Claim C29.  In every state reached from both status flags clear and an idle
collector through TX completions and collector rounds, `MORE_STATS` set implies
`READING_STATS` set, and `READING_STATS` is set exactly when a collector run is
queued or in progress; so whenever a successful completion is recorded a
collector run is pending, and no completion queues the collector while it is
queued or running. -/
theorem stat_flags_invariant (state : dev_state) (ops : List stat_op)
    (hm : state.more_stats = false) (hr : state.reading_stats = false) :
    let s := stat_sched_run { state := state, queued := false, running := false, requeues := 0 }
      ops
    (s.state.more_stats = true → s.state.reading_stats = true) ∧
    (s.state.reading_stats = true ↔ s.queued = true ∨ s.running = true) ∧
    (s.state.more_stats = true → s.queued = true ∨ s.running = true) ∧
    s.requeues = 0 := by
  intro s
  have h : s.state.reading_stats = (s.queued || s.running) ∧
      (s.state.more_stats = true → s.state.reading_stats = true) ∧ s.requeues = 0 :=
    stat_sched_run_keeps ops { state := state, queued := false, running := false, requeues := 0 }
      (by simp [hr]) (by simp [hm]) rfl rfl
  clear_value s
  obtain ⟨k1, k2, k3⟩ := h
  have hiff : s.state.reading_stats = true ↔ s.queued = true ∨ s.running = true := by
    rw [k1, Bool.or_eq_true]
  exact ⟨k2, hiff, fun hms => hiff.mp (k2 hms), k3⟩

/-- Witness of C29: two successful completions, a collector round that cleans
one entry, a third completion while the next round runs, and two more rounds. -/
theorem stat_flags_invariant_witness :
    (let s := stat_sched_run
      { state := idle_state, queued := false, running := false, requeues := 0 }
      [stat_op.complete (mt7601u_alloc_tx_queue 2 [10, 11])
         { id := 10, status := 0, actual_length := 0 },
       stat_op.complete (mt7601u_alloc_tx_queue 2 [10, 11])
         { id := 10, status := 0, actual_length := 0 },
       stat_op.collector_start, stat_op.collector_finish 1,
       stat_op.collector_start,
       stat_op.complete (mt7601u_alloc_tx_queue 2 [10, 11])
         { id := 10, status := 0, actual_length := 0 },
       stat_op.collector_finish 0,
       stat_op.collector_start, stat_op.collector_finish 0]
    (s.state.more_stats = true → s.state.reading_stats = true) ∧
    (s.state.reading_stats = true ↔ s.queued = true ∨ s.running = true) ∧
    (s.state.more_stats = true → s.queued = true ∨ s.running = true) ∧
    s.requeues = 0) :=
  stat_flags_invariant idle_state _ rfl rfl

end Mt7601u
